import Mathlib

/-!
Verification of the scope-analysis Referencer
(src/packages/scope-manager/src/Referencer.ts).

The development shallowly embeds the Referencer tree-walking driver: the
AST fragment it dispatches on, the scope stack it maintains through the
scope manager, and the define/reference operations it performs on scopes.
Pure functions mirror the source methods; thrown assertions are modelled
by an error latch on the state (once `err` is set every subsequent
operation is a no-op, exactly like an exception aborting the walk).
Every state-changing primitive also appends to an event log, which is what
the theorems about operation order and operation targets are stated over.

The scope manager, the scope classes and the pattern visitor live outside
the given sources; their behavior is modelled from the specification
(see the doc comments starting with "Modelled from the spec").
-/

namespace ESLint

/-- Declaration form of a `VariableDeclaration` (`node.kind`: `var`, `let`, `const`). -/
inductive DeclKind where
  | dvar
  | dlet
  | dconst
deriving DecidableEq, Repr

/-- The TSESTree node shapes that the Referencer's handlers dispatch on.
Node identity (`===` on AST nodes in the source) is modelled by structural
equality; distinct constructs in a tree are distinct strict subterms, so the
translation is faithful for the comparisons the driver makes.
Identifier-valued `id` fields are shallowly embedded as their name string. -/
inductive Node where
  | Program (body : List Node)
  | Identifier (name : String)
  | Literal (value : Nat)
  | ExpressionStatement (expression : Node)
  | BlockStatement (body : List Node)
  | FunctionDeclaration (id : Option String) (params : List Node) (body : Node)
  | FunctionExpression (id : Option String) (params : List Node) (body : Node)
  | ArrowFunctionExpression (params : List Node) (body : Node)
  | ClassDeclaration (id : Option String) (superClass : Option Node) (body : List Node)
  | ClassExpression (id : Option String) (superClass : Option Node) (body : List Node)
  | VariableDeclaration (kind : DeclKind) (declarations : List Node)
  | VariableDeclarator (id : Node) (declInit : Option Node)
  | AssignmentExpression (operator : String) (left : Node) (right : Node)
  | ForStatement (forInit : Option Node) (test : Option Node) (update : Option Node)
      (body : Node)
  | ForInStatement (left : Node) (right : Node) (body : Node)
  | ForOfStatement (left : Node) (right : Node) (body : Node)
  | ImportDeclaration (specifiers : List Node)
  | ImportSpecifier (localName : String)
  | ArrayPattern (elements : List Node)
  | AssignmentPattern (left : Node) (right : Node)
  | RestElement (argument : Node)
deriving Repr

mutual

def nodeBEq : Node → Node → Bool
  | .Program a, b =>
    match b with | .Program b1 => nodeListBEq a b1 | _ => false
  | .Identifier a, b =>
    match b with | .Identifier b1 => a == b1 | _ => false
  | .Literal a, b =>
    match b with | .Literal b1 => a == b1 | _ => false
  | .ExpressionStatement a, b =>
    match b with | .ExpressionStatement b1 => nodeBEq a b1 | _ => false
  | .BlockStatement a, b =>
    match b with | .BlockStatement b1 => nodeListBEq a b1 | _ => false
  | .FunctionDeclaration i p c, b =>
    match b with
    | .FunctionDeclaration i2 p2 c2 => i == i2 && nodeListBEq p p2 && nodeBEq c c2
    | _ => false
  | .FunctionExpression i p c, b =>
    match b with
    | .FunctionExpression i2 p2 c2 => i == i2 && nodeListBEq p p2 && nodeBEq c c2
    | _ => false
  | .ArrowFunctionExpression p c, b =>
    match b with
    | .ArrowFunctionExpression p2 c2 => nodeListBEq p p2 && nodeBEq c c2
    | _ => false
  | .ClassDeclaration i s c, b =>
    match b with
    | .ClassDeclaration i2 s2 c2 => i == i2 && nodeOptBEq s s2 && nodeListBEq c c2
    | _ => false
  | .ClassExpression i s c, b =>
    match b with
    | .ClassExpression i2 s2 c2 => i == i2 && nodeOptBEq s s2 && nodeListBEq c c2
    | _ => false
  | .VariableDeclaration k d, b =>
    match b with
    | .VariableDeclaration k2 d2 => k == k2 && nodeListBEq d d2
    | _ => false
  | .VariableDeclarator i n, b =>
    match b with
    | .VariableDeclarator i2 n2 => nodeBEq i i2 && nodeOptBEq n n2
    | _ => false
  | .AssignmentExpression o l r, b =>
    match b with
    | .AssignmentExpression o2 l2 r2 => o == o2 && nodeBEq l l2 && nodeBEq r r2
    | _ => false
  | .ForStatement a t u c, b =>
    match b with
    | .ForStatement a2 t2 u2 c2 =>
        nodeOptBEq a a2 && nodeOptBEq t t2 && nodeOptBEq u u2 && nodeBEq c c2
    | _ => false
  | .ForInStatement l r c, b =>
    match b with
    | .ForInStatement l2 r2 c2 => nodeBEq l l2 && nodeBEq r r2 && nodeBEq c c2
    | _ => false
  | .ForOfStatement l r c, b =>
    match b with
    | .ForOfStatement l2 r2 c2 => nodeBEq l l2 && nodeBEq r r2 && nodeBEq c c2
    | _ => false
  | .ImportDeclaration s, b =>
    match b with | .ImportDeclaration s2 => nodeListBEq s s2 | _ => false
  | .ImportSpecifier a, b =>
    match b with | .ImportSpecifier b1 => a == b1 | _ => false
  | .ArrayPattern a, b =>
    match b with | .ArrayPattern b1 => nodeListBEq a b1 | _ => false
  | .AssignmentPattern l r, b =>
    match b with
    | .AssignmentPattern l2 r2 => nodeBEq l l2 && nodeBEq r r2
    | _ => false
  | .RestElement a, b =>
    match b with | .RestElement b1 => nodeBEq a b1 | _ => false

def nodeOptBEq : Option Node → Option Node → Bool
  | none, none => true
  | some a, some b => nodeBEq a b
  | _, _ => false

def nodeListBEq : List Node → List Node → Bool
  | [], [] => true
  | a :: t, b :: u => nodeBEq a b && nodeListBEq t u
  | _, _ => false

end

mutual

def nodeBEq_refl : ∀ (a : Node), nodeBEq a a = true := by
  intro a
  cases a <;> simp only [nodeBEq, Bool.and_eq_true, beq_self_eq_true]
  case Program x => exact nodeListBEq_refl x
  case ExpressionStatement x => exact nodeBEq_refl x
  case BlockStatement x => exact nodeListBEq_refl x
  case FunctionDeclaration i p c =>
    exact ⟨⟨trivial, nodeListBEq_refl p⟩, nodeBEq_refl c⟩
  case FunctionExpression i p c =>
    exact ⟨⟨trivial, nodeListBEq_refl p⟩, nodeBEq_refl c⟩
  case ArrowFunctionExpression p c => exact ⟨nodeListBEq_refl p, nodeBEq_refl c⟩
  case ClassDeclaration i s c =>
    exact ⟨⟨trivial, nodeOptBEq_refl s⟩, nodeListBEq_refl c⟩
  case ClassExpression i s c =>
    exact ⟨⟨trivial, nodeOptBEq_refl s⟩, nodeListBEq_refl c⟩
  case VariableDeclaration k d => exact ⟨trivial, nodeListBEq_refl d⟩
  case VariableDeclarator i n => exact ⟨nodeBEq_refl i, nodeOptBEq_refl n⟩
  case AssignmentExpression o l r => exact ⟨⟨trivial, nodeBEq_refl l⟩, nodeBEq_refl r⟩
  case ForStatement a t u c =>
    exact ⟨⟨⟨nodeOptBEq_refl a, nodeOptBEq_refl t⟩, nodeOptBEq_refl u⟩, nodeBEq_refl c⟩
  case ForInStatement l r c =>
    exact ⟨⟨nodeBEq_refl l, nodeBEq_refl r⟩, nodeBEq_refl c⟩
  case ForOfStatement l r c =>
    exact ⟨⟨nodeBEq_refl l, nodeBEq_refl r⟩, nodeBEq_refl c⟩
  case ImportDeclaration s => exact nodeListBEq_refl s
  case ArrayPattern x => exact nodeListBEq_refl x
  case AssignmentPattern l r => exact ⟨nodeBEq_refl l, nodeBEq_refl r⟩
  case RestElement x => exact nodeBEq_refl x

def nodeOptBEq_refl : ∀ (a : Option Node), nodeOptBEq a a = true := by
  intro a
  cases a with
  | none => rfl
  | some x => exact nodeBEq_refl x

def nodeListBEq_refl : ∀ (l : List Node), nodeListBEq l l = true := by
  intro l
  cases l with
  | nil => rfl
  | cons a t =>
    simp only [nodeListBEq, Bool.and_eq_true]
    exact ⟨nodeBEq_refl a, nodeListBEq_refl t⟩

end

mutual

def nodeBEq_eq : ∀ (a b : Node), nodeBEq a b = true → a = b := by
  intro a b h
  cases a <;> simp only [nodeBEq] at h <;> split at h <;> try exact Bool.noConfusion h
  case Program x _ y => rw [nodeListBEq_eq x y h]
  case Identifier x _ y => rw [eq_of_beq h]
  case Literal x _ y => rw [eq_of_beq h]
  case ExpressionStatement x _ y => rw [nodeBEq_eq x y h]
  case BlockStatement x _ y => rw [nodeListBEq_eq x y h]
  case FunctionDeclaration i p c _ i2 p2 c2 =>
    rw [Bool.and_eq_true, Bool.and_eq_true] at h
    rw [eq_of_beq h.1.1, nodeListBEq_eq _ _ h.1.2, nodeBEq_eq _ _ h.2]
  case FunctionExpression i p c _ i2 p2 c2 =>
    rw [Bool.and_eq_true, Bool.and_eq_true] at h
    rw [eq_of_beq h.1.1, nodeListBEq_eq _ _ h.1.2, nodeBEq_eq _ _ h.2]
  case ArrowFunctionExpression p c _ p2 c2 =>
    rw [Bool.and_eq_true] at h
    rw [nodeListBEq_eq _ _ h.1, nodeBEq_eq _ _ h.2]
  case ClassDeclaration i s c _ i2 s2 c2 =>
    rw [Bool.and_eq_true, Bool.and_eq_true] at h
    rw [eq_of_beq h.1.1, nodeOptBEq_eq _ _ h.1.2, nodeListBEq_eq _ _ h.2]
  case ClassExpression i s c _ i2 s2 c2 =>
    rw [Bool.and_eq_true, Bool.and_eq_true] at h
    rw [eq_of_beq h.1.1, nodeOptBEq_eq _ _ h.1.2, nodeListBEq_eq _ _ h.2]
  case VariableDeclaration k d _ k2 d2 =>
    rw [Bool.and_eq_true] at h
    rw [eq_of_beq h.1, nodeListBEq_eq _ _ h.2]
  case VariableDeclarator i n _ i2 n2 =>
    rw [Bool.and_eq_true] at h
    rw [nodeBEq_eq _ _ h.1, nodeOptBEq_eq _ _ h.2]
  case AssignmentExpression o l r _ o2 l2 r2 =>
    rw [Bool.and_eq_true, Bool.and_eq_true] at h
    rw [eq_of_beq h.1.1, nodeBEq_eq _ _ h.1.2, nodeBEq_eq _ _ h.2]
  case ForStatement a t u c _ a2 t2 u2 c2 =>
    rw [Bool.and_eq_true, Bool.and_eq_true, Bool.and_eq_true] at h
    rw [nodeOptBEq_eq _ _ h.1.1.1, nodeOptBEq_eq _ _ h.1.1.2, nodeOptBEq_eq _ _ h.1.2,
      nodeBEq_eq _ _ h.2]
  case ForInStatement l r c _ l2 r2 c2 =>
    rw [Bool.and_eq_true, Bool.and_eq_true] at h
    rw [nodeBEq_eq _ _ h.1.1, nodeBEq_eq _ _ h.1.2, nodeBEq_eq _ _ h.2]
  case ForOfStatement l r c _ l2 r2 c2 =>
    rw [Bool.and_eq_true, Bool.and_eq_true] at h
    rw [nodeBEq_eq _ _ h.1.1, nodeBEq_eq _ _ h.1.2, nodeBEq_eq _ _ h.2]
  case ImportDeclaration x _ y => rw [nodeListBEq_eq x y h]
  case ImportSpecifier x _ y => rw [eq_of_beq h]
  case ArrayPattern x _ y => rw [nodeListBEq_eq x y h]
  case AssignmentPattern l r _ l2 r2 =>
    rw [Bool.and_eq_true] at h
    rw [nodeBEq_eq _ _ h.1, nodeBEq_eq _ _ h.2]
  case RestElement x _ y => rw [nodeBEq_eq x y h]

def nodeOptBEq_eq : ∀ (a b : Option Node), nodeOptBEq a b = true → a = b := by
  intro a b h
  cases a <;> cases b <;> simp only [nodeOptBEq] at h <;> try rfl
  case none.some => exact Bool.noConfusion h
  case some.none => exact Bool.noConfusion h
  case some.some x y => rw [nodeBEq_eq x y h]

def nodeListBEq_eq : ∀ (a b : List Node), nodeListBEq a b = true → a = b := by
  intro a b h
  cases a <;> cases b <;> simp only [nodeListBEq] at h <;> try rfl
  case nil.cons => exact Bool.noConfusion h
  case cons.nil => exact Bool.noConfusion h
  case cons.cons x t y u =>
    rw [Bool.and_eq_true] at h
    rw [nodeBEq_eq x y h.1, nodeListBEq_eq t u h.2]

end

instance : DecidableEq Node := fun a b =>
  if h : nodeBEq a b = true then .isTrue (nodeBEq_eq a b h)
  else .isFalse (fun he => h (he ▸ nodeBEq_refl a))

/-- Binding kinds (`VariableType` in the source). -/
inductive VariableType where
  | Variable
  | Parameter
  | FunctionName
  | ClassName
  | ImportBinding
  | CatchClauseBinding
deriving DecidableEq, Repr

/-- One binding record (`Definition` / `ParameterDefinition` in the source):
the kind, the bound name, the syntactic node introducing the binding, the
enclosing declaring statement, a positional index, the declaration form
qualifier, and the rest-parameter flag of `ParameterDefinition`. -/
structure Definition where
  defType : VariableType
  name : String
  node : Option Node
  parent : Option Node
  index : Option Nat
  kind : Option DeclKind
  rest : Bool
deriving DecidableEq, Repr

/-- `ReferenceFlag` of the source: READ = 1, WRITE = 2, RW = 3. -/
inductive RefFlag where
  | read
  | write
  | rw
deriving DecidableEq, Repr

/-- One recorded reference. `maybeImplicitGlobal` keeps only whether the
implicit-global candidate payload was non-null. -/
structure Reference where
  identifier : String
  flag : RefFlag
  writeExpr : Option Node
  maybeImplicitGlobal : Bool
  isPartial : Bool
  refInit : Bool
deriving DecidableEq, Repr

/-- The scope kinds this driver nests. -/
inductive ScopeKind where
  | global
  | moduleScope
  | functionScope
  | functionExpressionName
  | blockScope
  | classScope
  | forScope
deriving DecidableEq, Repr

/-- Modelled from the spec: a scope owns its kind, its owning construct
(`block`), its strictness flag, its declared bindings, its recorded
references and the unresolved references forwarded from closed children
(`through`).  The spec's `variableScope` pointer is recovered by scanning
the open-scope stack for the nearest Function/Global/Module scope
(see `isVariableScopeKind`), and the directive-based strictness upgrade is
not modelled (no directive nodes exist in the embedded AST fragment). -/
structure Scope where
  kind : ScopeKind
  block : Node
  isStrict : Bool
  defs : List Definition
  refs : List Reference
  through : List Reference
deriving DecidableEq, Repr

/-- Kinds that are legitimate `var`-hoisting targets (Function, Global,
Module), per the spec's `variableScope` rule. -/
def isVariableScopeKind : ScopeKind → Bool
  | .global => true
  | .moduleScope => true
  | .functionScope => true
  | _ => false

/-- The observable actions of a run, in order: scope nesting, defining a
binding into a scope (identified by its kind and block), recording a
reference into a scope, and closing a scope. -/
inductive Event where
  | nest (kind : ScopeKind) (block : Node)
  | define (scopeKind : ScopeKind) (scopeBlock : Node) (d : Definition)
  | reference (scopeKind : ScopeKind) (scopeBlock : Node) (r : Reference)
  | close (kind : ScopeKind) (block : Node)
deriving DecidableEq, Repr

/-- Scope-manager construction flags (language-edition gate, module mode,
Node.js host hint, strict-mode support, implied-strict hint). -/
structure Flags where
  es6 : Bool
  isModule : Bool
  nodejsScope : Bool
  strictModeSupported : Bool
  impliedStrict : Bool
deriving DecidableEq, Repr

/-- The walk state: the open-scope stack (head = current scope), the list
of closed scopes, the event log, and the error latch.  A thrown assertion
is modelled by setting `err`; every operation is a no-op on a latched
state, so a latched run is frozen exactly where the exception aborted it. -/
structure State where
  stack : List Scope
  closedScopes : List Scope
  events : List Event
  err : Option String
deriving DecidableEq, Repr

def initState : State := ⟨[], [], [], none⟩

/-- One enclosing assignment pattern recorded for a leaf: its left-hand
sub-pattern and its right-hand default expression. -/
structure AssignRec where
  left : Node
  right : Node
deriving DecidableEq, Repr

/-- What the pattern decomposer reports for one leaf identifier: its name,
the stack of enclosing assignment patterns (outermost first), whether it is
the direct argument of a rest element, and whether it is the root pattern
itself (`topLevel`). -/
structure LeafInfo where
  name : String
  assignments : List AssignRec
  isRest : Bool
  topLevel : Bool
deriving DecidableEq, Repr

mutual

/-- Modelled from the spec (§4.4, §6): the pattern decomposer
(`PatternVisitor`, not among the given sources) invokes its callback once
per leaf bound/target name in left-to-right, outer-to-inner order.
`directRest` is set only when recursing directly into a rest element's
argument; `isRoot` only holds for the root pattern itself. -/
def patternLeavesAux (asgs : List AssignRec) (directRest : Bool) (isRoot : Bool) :
    Node → List LeafInfo
  | .Identifier nm => [⟨nm, asgs, directRest, isRoot⟩]
  | .ArrayPattern els => patternLeavesList asgs els
  | .AssignmentPattern l r => patternLeavesAux (asgs ++ [⟨l, r⟩]) false false l
  | .RestElement a => patternLeavesAux asgs true false a
  | _ => []

def patternLeavesList (asgs : List AssignRec) : List Node → List LeafInfo
  | [] => []
  | p :: ps => patternLeavesAux asgs false false p ++ patternLeavesList asgs ps

end

/-- The leaves of a root pattern. -/
def patternLeaves (p : Node) : List LeafInfo := patternLeavesAux [] false true p

mutual

/-- Modelled from the spec (§4.4): the right-hand (default value)
sub-expressions the decomposer collects for later ordinary visiting, in
order (an assignment pattern's left side is walked before its right side is
collected). -/
def patternRHS : Node → List Node
  | .ArrayPattern els => patternRHSList els
  | .AssignmentPattern l r => patternRHS l ++ [r]
  | .RestElement a => patternRHS a
  | _ => []

def patternRHSList : List Node → List Node
  | [] => []
  | p :: ps => patternRHS p ++ patternRHSList ps

end

def listNodeSizeOf_append : ∀ (l1 l2 : List Node),
    sizeOf (l1 ++ l2) + 1 = sizeOf l1 + sizeOf l2 := by
  intro l1 l2
  induction l1 with
  | nil => simp only [List.nil_append, List.nil.sizeOf_spec]; omega
  | cons a t ih => simp only [List.cons_append, List.cons.sizeOf_spec]; omega

mutual

def patternRHS_size : ∀ (p : Node), sizeOf (patternRHS p) ≤ sizeOf p := by
  intro p
  cases p <;> simp only [patternRHS] <;> try (simp <;> omega)
  case ArrayPattern els =>
    have h := patternRHSList_size els
    simp only [Node.ArrayPattern.sizeOf_spec]
    omega
  case AssignmentPattern l r =>
    have h := patternRHS_size l
    have h2 := listNodeSizeOf_append (patternRHS l) [r]
    simp only [Node.AssignmentPattern.sizeOf_spec]
    simp only [List.cons.sizeOf_spec, List.nil.sizeOf_spec] at h2
    omega
  case RestElement a =>
    have h := patternRHS_size a
    simp only [Node.RestElement.sizeOf_spec]
    omega

def patternRHSList_size : ∀ (ps : List Node), sizeOf (patternRHSList ps) ≤ sizeOf ps := by
  intro ps
  cases ps with
  | nil => simp [patternRHSList]
  | cons p t =>
    have h1 := patternRHS_size p
    have h2 := patternRHSList_size t
    have h3 := listNodeSizeOf_append (patternRHS p) (patternRHSList t)
    simp only [patternRHSList, List.cons.sizeOf_spec]
    omega

end

/-- Latch an error (the model of a thrown assertion): the first failure wins
and freezes the state. -/
def State.fail (msg : String) (st : State) : State :=
  match st.err with
  | some _ => st
  | none => { st with err := some msg }

/-- Modelled from the spec (§4.1): `nest(kind, construct)` pushes a fresh
scope for `block`; its strictness is inherited from the current scope (a
Global scope pushed on the empty stack starts non-strict). Logs a `nest`
event. -/
def nestScope (k : ScopeKind) (block : Node) (st : State) : State :=
  if st.err.isSome then st
  else
    let strict := match st.stack with
      | [] => false
      | s :: _ => s.isStrict
    { st with stack := ⟨k, block, strict, [], [], []⟩ :: st.stack,
              events := st.events ++ [.nest k block] }

/-- Modelled from the spec (§3): the FunctionExpressionName scope wrapping a
named function expression starts with the function's own name as its sole
variable (bound by the scope's constructor, so no driver `define` event is
logged for it). -/
def nestFunctionExpressionNameScope (block : Node) (nm : String) (st : State) : State :=
  if st.err.isSome then st
  else
    let strict := match st.stack with
      | [] => false
      | s :: _ => s.isStrict
    let sc : Scope := ⟨.functionExpressionName, block, strict,
      [⟨.FunctionName, nm, some block, none, none, none, false⟩], [], []⟩
    { st with stack := sc :: st.stack,
              events := st.events ++ [.nest .functionExpressionName block] }

/-- `this.currentScope(true).__define(...)`: asserts a scope is open, then
appends the definition to the current scope. -/
def defineCur (d : Definition) (st : State) : State :=
  if st.err.isSome then st
  else
    match st.stack with
    | [] => st.fail "assert failed: currentScope"
    | sc :: rest =>
      { st with stack := { sc with defs := sc.defs ++ [d] } :: rest,
                events := st.events ++ [.define sc.kind sc.block d] }

/-- Append a definition to the nearest variable scope in the stack,
returning the updated stack and that scope's identity, or `none` when the
stack holds no Function/Global/Module scope. -/
def defineInVarStack (d : Definition) :
    List Scope → Option (List Scope × ScopeKind × Node)
  | [] => none
  | sc :: rest =>
    if isVariableScopeKind sc.kind then
      some ({ sc with defs := sc.defs ++ [d] } :: rest, sc.kind, sc.block)
    else
      match defineInVarStack d rest with
      | some (rest2, k, b) => some (sc :: rest2, k, b)
      | none => none

/-- `variableTargetScope.__define` for a `var`-form declaration: the nearest
variable scope (`currentScope(true).variableScope`) receives the binding. -/
def defineVar (d : Definition) (st : State) : State :=
  if st.err.isSome then st
  else
    match st.stack with
    | [] => st.fail "assert failed: currentScope"
    | _ :: _ =>
      match defineInVarStack d st.stack with
      | some (stack2, k, b) =>
        { st with stack := stack2, events := st.events ++ [.define k b d] }
      | none => st.fail "no variableScope on the stack"

/-- `this.currentScope(true).__referencing(...)`: asserts a scope is open;
the scope records a reference only for Identifier targets
(`Scope.__referencing` returns early otherwise). -/
def referencingCur (target : Node) (flag : RefFlag) (writeExpr : Option Node)
    (mig : Bool) (isPartial : Bool) (refInit : Bool) (st : State) : State :=
  if st.err.isSome then st
  else
    match st.stack with
    | [] => st.fail "assert failed: currentScope"
    | sc :: rest =>
      match target with
      | .Identifier nm =>
        let r : Reference := ⟨nm, flag, writeExpr, mig, isPartial, refInit⟩
        { st with stack := { sc with refs := sc.refs ++ [r] } :: rest,
                  events := st.events ++ [.reference sc.kind sc.block r] }
      | _ => st

/-- `currentScope(true).isStrict := b` (used by the Program handler). -/
def setCurrentStrict (b : Bool) (st : State) : State :=
  if st.err.isSome then st
  else
    match st.stack with
    | [] => st.fail "assert failed: currentScope"
    | sc :: rest => { st with stack := { sc with isStrict := b } :: rest }

/-- Modelled from the spec (§4.2): `Scope.__close` resolves the scope's
references (its own plus the forwarded ones) by name against its
definitions and forwards the unresolved remainder to the upper scope's
`through` list. -/
def resolveThrough (sc : Scope) (stack : List Scope) : List Scope :=
  let unresolved := (sc.through ++ sc.refs).filter
    (fun r => !(sc.defs.any (fun d => d.name == r.identifier)))
  match stack with
  | [] => []
  | up :: rest => { up with through := up.through ++ unresolved } :: rest

/-- The popping loop of `Referencer.close`, fuelled by the stack length
(each iteration pops one scope, so the fuel never runs out). -/
def closeFuel (node : Node) : Nat → State → State
  | 0, st => st
  | fuel + 1, st =>
    match st.stack with
    | [] => st
    | sc :: rest =>
      if sc.block = node then
        closeFuel node fuel
          { st with stack := resolveThrough sc rest,
                    closedScopes := st.closedScopes ++ [sc],
                    events := st.events ++ [.close sc.kind sc.block] }
      else st

namespace Referencer

/-- `Referencer.close(node)` (lines 120-126): while a scope is open and its
owning block is `node`, close it.  The loop guard reads `currentScope()`
without the assert, so with no open scope the method simply returns. -/
def close (node : Node) (st : State) : State :=
  if st.err.isSome then st else closeFuel node st.stack.length st

/-- `referencingDefaultValue(pattern, assignments, maybeImplicitGlobal,
init)` (lines 139-155): one WRITE reference on the leaf per enclosing
assignment, with that assignment's right side as write source; `partial` is
set when the assignment's left side is not the leaf itself. -/
def referencingDefaultValue (nm : String) (assignments : List AssignRec)
    (mig : Bool) (refInit : Bool) (st : State) : State :=
  match assignments with
  | [] => st
  | a :: rest =>
    let st1 := referencingCur (.Identifier nm) .write (some a.right) mig
      (!(decide (a.left = Node.Identifier nm))) refInit st
    referencingDefaultValue nm rest mig refInit st1

/-- The parameter callback of `visitFunction` (lines 221-228): define the
leaf as a `ParameterDefinition` (function node, position, rest flag) in the
current scope, then record its defaults as initializing writes. -/
def paramLeafDefs (fnode : Node) (i : Nat) : List LeafInfo → State → State
  | [], st => st
  | leaf :: rest, st =>
    let st1 := defineCur ⟨.Parameter, leaf.name, some fnode, none, some i, none, leaf.isRest⟩ st
    let st2 := referencingDefaultValue leaf.name leaf.assignments false true st1
    paramLeafDefs fnode i rest st2

/-- The callback of `visitVariableDeclaration` (lines 364-385): define the
leaf into the variable target scope with Variable kind (declarator,
declaring statement, index, declaration form), record defaults as
initializing writes, and record the initializing write from the
initializer when one is present. -/
def declLeafDefs (declarator declNode : Node) (kind : DeclKind) (i : Nat)
    (dinit : Option Node) : List LeafInfo → State → State
  | [], st => st
  | leaf :: rest, st =>
    let d : Definition :=
      ⟨.Variable, leaf.name, some declarator, some declNode, some i, some kind, false⟩
    let st1 := if kind = DeclKind.dvar then defineVar d st else defineCur d st
    let st2 := referencingDefaultValue leaf.name leaf.assignments false true st1
    let st3 := match dinit with
      | some e =>
        referencingCur (.Identifier leaf.name) .write (some e) false (!leaf.topLevel) true st2
      | none => st2
    declLeafDefs declarator declNode kind i dinit rest st3

/-- The plain-`=` callback of `AssignmentExpression` (lines 391-418): the
implicit-global candidate flag is set per leaf exactly when the current
scope is non-strict; defaults are recorded as non-initializing writes, then
the leaf as a write from the assignment's right side. -/
def assignmentLeafRefs (right : Node) : List LeafInfo → State → State
  | [], st => st
  | leaf :: rest, st =>
    let mig := match st.stack with
      | [] => false
      | sc :: _ => !sc.isStrict
    let st1 := referencingDefaultValue leaf.name leaf.assignments mig false st
    let st2 := referencingCur (.Identifier leaf.name) .write (some right) mig
      (!leaf.topLevel) false st1
    assignmentLeafRefs right rest st2

/-- The declaration-form callback of `visitForIn` (lines 309-318): one write
per leaf of the first declarator's pattern, from the loop's right side,
with `partial` and `init` both set. -/
def forInDeclLeafRefs (rhs : Node) : List LeafInfo → State → State
  | [], st => st
  | leaf :: rest, st =>
    let st1 := referencingCur (.Identifier leaf.name) .write (some rhs) false true true st
    forInDeclLeafRefs rhs rest st1

/-- The non-declaration callback of `visitForIn` (lines 320-347): per leaf,
the implicit-global candidate flag is non-strict-gated; defaults are
recorded as non-initializing writes, then the leaf as a partial,
non-initializing write from the loop's right side. -/
def forInPatternLeafRefs (rhs : Node) : List LeafInfo → State → State
  | [], st => st
  | leaf :: rest, st =>
    let mig := match st.stack with
      | [] => false
      | sc :: _ => !sc.isStrict
    let st1 := referencingDefaultValue leaf.name leaf.assignments mig false st
    let st2 := referencingCur (.Identifier leaf.name) .write (some rhs) mig true false st1
    forInPatternLeafRefs rhs rest st2

/-- The `Importer` (lines 45-93): each specifier's local name is defined in
the current scope as an ImportBinding carrying the specifier and the
declaration. -/
def importSpecifierDefs (declNode : Node) : List Node → State → State
  | [], st => st
  | spec :: rest, st =>
    let st1 := match spec with
      | .ImportSpecifier nm =>
        defineCur ⟨.ImportBinding, nm, some (.ImportSpecifier nm), some declNode,
          none, none, false⟩ st
      | _ => st
    importSpecifierDefs declNode rest st1

/-- The scope-setup phase of the `Program` handler (lines 461-479): nest the
Global scope; under the Node.js hint force it non-strict and wrap the
program in a Function scope; nest a Module scope in ES6 module mode; under
the implied-strict hint (when strict mode is supported) set the then
current scope strict. -/
def programSetup (fl : Flags) (node : Node) (st : State) : State :=
  let st1 := nestScope .global node st
  let st2 :=
    if fl.nodejsScope then nestScope .functionScope node (setCurrentStrict false st1)
    else st1
  let st3 :=
    if fl.es6 && fl.isModule then nestScope .moduleScope node st2
    else st2
  if fl.strictModeSupported && fl.impliedStrict then setCurrentStrict true st3
  else st3

/-- `PatternVisitor.isPattern`, restricted to the embedded node shapes. -/
def isPattern : Node → Bool
  | .Identifier _ => true
  | .ArrayPattern _ => true
  | .RestElement _ => true
  | .AssignmentPattern _ _ => true
  | _ => false

/-- The For-scope condition of the `ForStatement` handler (lines 529-535):
the init position holds a variable declaration of block-scoped form. -/
def forInitNeedsScope : Option Node → Bool
  | some (.VariableDeclaration k _) => k ≠ DeclKind.dvar
  | _ => false

/-- `node.left.declarations[0].id` of `visitForIn` (an out-of-range index
yields nothing to visit, as `visitPattern` on `undefined` is a no-op). -/
def firstDeclaratorId : List Node → Option Node
  | .VariableDeclarator did _ :: _ => some did
  | _ => none

mutual

/-- The Referencer dispatch: one arm per handled node type (each arm is the
translation of the handler at the cited source lines); node types without
a Referencer handler get the esrecurse default of visiting their
children. -/
def visit (fl : Flags) (node : Node) (st : State) : State :=
  match node with
  | .Program body =>
      let st1 := programSetup fl node st
      let st2 := visitList fl body st1
      close node st2
  | .Identifier _ => referencingCur node .read none false false false st
  | .Literal _ => st
  | .ExpressionStatement e => visit fl e st
  | .BlockStatement body =>
      let st1 := if fl.es6 then nestScope .blockScope node st else st
      let st2 := visitList fl body st1
      close node st2
  | .FunctionDeclaration fid params body =>
      let st1 := match fid with
        | some nm => defineCur ⟨.FunctionName, nm, some node, none, none, none, false⟩ st
        | none => st
      let st2 := nestScope .functionScope node st1
      let st3 := visitParams fl node 0 params st2
      let st4 := visitFnBody fl body st3
      close node st4
  | .FunctionExpression fid params body =>
      let st1 := match fid with
        | some nm => nestFunctionExpressionNameScope node nm st
        | none => st
      let st2 := nestScope .functionScope node st1
      let st3 := visitParams fl node 0 params st2
      let st4 := visitFnBody fl body st3
      close node st4
  | .ArrowFunctionExpression params body =>
      let st2 := nestScope .functionScope node st
      let st3 := visitParams fl node 0 params st2
      let st4 := visitFnBody fl body st3
      close node st4
  | .ClassDeclaration fid sup body =>
      let st1 := match fid with
        | some nm => defineCur ⟨.ClassName, nm, some node, none, none, none, false⟩ st
        | none => st
      let st2 := match sup with
        | some s => visit fl s st1
        | none => st1
      let st3 := nestScope .classScope node st2
      let st4 := match fid with
        | some nm => defineCur ⟨.ClassName, nm, some node, none, none, none, false⟩ st3
        | none => st3
      let st5 := visitList fl body st4
      close node st5
  | .ClassExpression fid sup body =>
      let st2 := match sup with
        | some s => visit fl s st
        | none => st
      let st3 := nestScope .classScope node st2
      let st4 := match fid with
        | some nm => defineCur ⟨.ClassName, nm, some node, none, none, none, false⟩ st3
        | none => st3
      let st5 := visitList fl body st4
      close node st5
  | .VariableDeclaration kind decls => visitDecls fl node kind 0 decls st
  | .VariableDeclarator did dinit =>
      let st1 := visit fl did st
      match dinit with
      | some e => visit fl e st1
      | none => st1
  | .AssignmentExpression op left right =>
      if isPattern left then
        if op = "=" then
          let st1 := assignmentLeafRefs right (patternLeaves left) st
          let st2 := visitList fl (patternRHS left) st1
          visit fl right st2
        else
          let st1 := referencingCur left .rw (some right) false false false st
          visit fl right st1
      else
        let st1 := visit fl left st
        visit fl right st1
  | .ForStatement finit tst upd body =>
      let st1 := if forInitNeedsScope finit then nestScope .forScope node st else st
      let st2 := match finit with
        | some e => visit fl e st1
        | none => st1
      let st3 := match tst with
        | some e => visit fl e st2
        | none => st2
      let st4 := match upd with
        | some e => visit fl e st3
        | none => st3
      let st5 := visit fl body st4
      close node st5
  | .ForInStatement left rhs body =>
      (match left with
      | .VariableDeclaration k decls =>
          let st1 := if k ≠ DeclKind.dvar then nestScope .forScope node st else st
          let st2 := visit fl (.VariableDeclaration k decls) st1
          let st3 := match firstDeclaratorId decls with
            | some did => forInDeclLeafRefs rhs (patternLeaves did) st2
            | none => st2
          let st4 := visit fl rhs st3
          let st5 := visit fl body st4
          close node st5
      | l =>
          let st2 := forInPatternLeafRefs rhs (patternLeaves l) st
          let st3 := visitList fl (patternRHS l) st2
          let st4 := visit fl rhs st3
          let st5 := visit fl body st4
          close node st5)
  | .ForOfStatement left rhs body =>
      (match left with
      | .VariableDeclaration k decls =>
          let st1 := if k ≠ DeclKind.dvar then nestScope .forScope node st else st
          let st2 := visit fl (.VariableDeclaration k decls) st1
          let st3 := match firstDeclaratorId decls with
            | some did => forInDeclLeafRefs rhs (patternLeaves did) st2
            | none => st2
          let st4 := visit fl rhs st3
          let st5 := visit fl body st4
          close node st5
      | l =>
          let st2 := forInPatternLeafRefs rhs (patternLeaves l) st
          let st3 := visitList fl (patternRHS l) st2
          let st4 := visit fl rhs st3
          let st5 := visit fl body st4
          close node st5)
  | .ImportDeclaration specs =>
      let st1 :=
        if fl.es6 && fl.isModule then st
        else st.fail
          "ImportDeclaration should appear when the mode is ES6 and in the module context."
      importSpecifierDefs node specs st1
  | .ImportSpecifier _ => st
  | .ArrayPattern els => visitList fl els st
  | .AssignmentPattern l r =>
      let st1 := visit fl l st
      visit fl r st1
  | .RestElement a => visit fl a st
  termination_by 3 * sizeOf node + 1
  decreasing_by
    all_goals simp_wf
    all_goals try omega
    all_goals first
      | (exact Nat.lt_of_le_of_lt (mul_le_mul_left' (patternRHS_size _) 3) (by simp <;> omega))
      | (exact Nat.lt_of_le_of_lt (mul_le_mul_left' (patternRHS_size _) 3) (by omega))
      | (exact Nat.lt_of_le_of_lt (patternRHS_size _) (by simp <;> omega))
      | (exact Nat.lt_of_le_of_lt (patternRHS_size _) (by omega))
      | (simp <;> omega)

/-- The body-visiting step of `visitFunction` (lines 241-248): a block
statement body is visited through `visitChildren` (skipping the
`BlockStatement` handler, so no Block scope is created for it); any other
body is visited normally. -/
def visitFnBody (fl : Flags) (body : Node) (st : State) : State :=
  match body with
  | .BlockStatement ss => visitList fl ss st
  | b => visit fl b st
  termination_by 3 * sizeOf body + 2
  decreasing_by
    all_goals simp_wf
    all_goals omega

/-- Sequential visiting of a list of child nodes (`visitChildren`). -/
def visitList (fl : Flags) (nodes : List Node) (st : State) : State :=
  match nodes with
  | [] => st
  | n :: rest => visitList fl rest (visit fl n st)
  termination_by 3 * sizeOf nodes
  decreasing_by
    all_goals simp_wf
    all_goals omega

/-- The parameter loop of `visitFunction` (lines 230-237): per parameter the
leaf callbacks run during the pattern walk, then the collected default
expressions are visited as ordinary expressions. -/
def visitParams (fl : Flags) (fnode : Node) (i : Nat) (params : List Node)
    (st : State) : State :=
  match params with
  | [] => st
  | p :: rest =>
    let st1 := paramLeafDefs fnode i (patternLeaves p) st
    let st2 := visitList fl (patternRHS p) st1
    visitParams fl fnode (i + 1) rest st2
  termination_by 3 * sizeOf params
  decreasing_by
    all_goals simp_wf
    all_goals try omega
    all_goals first
      | (exact Nat.lt_of_le_of_lt (mul_le_mul_left' (patternRHS_size _) 3) (by simp <;> omega))
      | (exact Nat.lt_of_le_of_lt (mul_le_mul_left' (patternRHS_size _) 3) (by omega))
      | (exact Nat.lt_of_le_of_lt (patternRHS_size _) (by simp <;> omega))
      | (exact Nat.lt_of_le_of_lt (patternRHS_size _) (by omega))
      | (simp <;> omega)

/-- The `VariableDeclaration` handler loop (lines 589-608) combined with
`visitVariableDeclaration` (lines 355-386): per declarator, the leaf
callbacks run, then the pattern's collected defaults are visited, then the
initializer is visited. -/
def visitDecls (fl : Flags) (declNode : Node) (kind : DeclKind) (i : Nat)
    (decls : List Node) (st : State) : State :=
  match decls with
  | [] => st
  | d :: rest =>
    match d with
    | .VariableDeclarator did dinit =>
      let st1 := declLeafDefs (.VariableDeclarator did dinit) declNode kind i dinit
        (patternLeaves did) st
      let st2 := visitList fl (patternRHS did) st1
      let st3 := match dinit with
        | some e => visit fl e st2
        | none => st2
      visitDecls fl declNode kind (i + 1) rest st3
    | _ => visitDecls fl declNode kind (i + 1) rest st
  termination_by 3 * sizeOf decls
  decreasing_by
    all_goals simp_wf
    all_goals try omega
    all_goals first
      | (exact Nat.lt_of_le_of_lt (mul_le_mul_left' (patternRHS_size _) 3) (by simp <;> omega))
      | (exact Nat.lt_of_le_of_lt (mul_le_mul_left' (patternRHS_size _) 3) (by omega))
      | (exact Nat.lt_of_le_of_lt (patternRHS_size _) (by simp <;> omega))
      | (exact Nat.lt_of_le_of_lt (patternRHS_size _) (by omega))
      | (simp <;> omega)

end

/-- Run the referencer over a parsed program tree from a fresh state. -/
def analyze (fl : Flags) (prog : Node) : State := visit fl prog initState

end Referencer

/-- The observable identity of a scope: its kind and owning block. -/
def spineOf (s : Scope) : ScopeKind × Node := (s.kind, s.block)

/-- The spine of the open-scope stack. -/
def stackSpine (st : State) : List (ScopeKind × Node) := st.stack.map spineOf

/-- Size discipline of the events a visit emits: every nested scope's block,
and every node recorded inside a definition, comes from the visited
subtree (so is bounded by its size). -/
def EvBound (n : Nat) : Event → Prop
  | .nest _ b => sizeOf b ≤ n
  | .define _ _ d =>
      (∀ x, d.node = some x → sizeOf x ≤ n) ∧ (∀ x, d.parent = some x → sizeOf x ≤ n)
  | .reference _ _ _ => True
  | .close _ _ => True

/-- Behavior of one scope-stack-preserving step: it only appends events (all
satisfying `P`), is frozen on a latched state, and preserves the stack
spine. -/
def StepOK (P : Event → Prop) (st st2 : State) : Prop :=
  (∃ ev, st2.events = st.events ++ ev ∧ ∀ e ∈ ev, P e)
  ∧ (∀ msg, st.err = some msg → st2 = st)
  ∧ stackSpine st2 = stackSpine st

/-- The nearest variable scope of a stack spine (head = current scope). -/
def varScopeSpine : List (ScopeKind × Node) → Option (ScopeKind × Node)
  | [] => none
  | p :: rest => if isVariableScopeKind p.1 then some p else varScopeSpine rest

/-- The Parameter-kind define events whose definition carries `fnode` as its
declaring function, with the scope each one targeted. -/
def paramDefines (fnode : Node) (evs : List Event) : List (ScopeKind × Node × Definition) :=
  evs.filterMap fun e => match e with
    | .define k b d =>
      if d.defType = VariableType.Parameter ∧ d.node = some fnode then some (k, b, d)
      else none
    | _ => none

/-- The parameter definitions the spec expects for `fnode`: one Parameter
binding per pattern leaf, in parameter order, indexed by position, all in
the Function scope of `fnode`. -/
def paramExpected (fnode : Node) : Nat → List Node → List (ScopeKind × Node × Definition)
  | _, [] => []
  | i, p :: rest =>
    (patternLeaves p).map (fun leaf =>
      (ScopeKind.functionScope, fnode,
        (⟨.Parameter, leaf.name, some fnode, none, some i, none, leaf.isRest⟩ : Definition)))
      ++ paramExpected fnode (i + 1) rest

/-- The Variable-kind define events whose definition carries `declNode` as
its declaring statement, with the scope each one targeted. -/
def variableDefines (declNode : Node) (evs : List Event) : List (ScopeKind × Node × Definition) :=
  evs.filterMap fun e => match e with
    | .define k b d =>
      if d.defType = VariableType.Variable ∧ d.parent = some declNode then some (k, b, d)
      else none
    | _ => none

/-- The Variable definitions the spec expects for a declaration: one per
pattern leaf of each declarator, carrying the declarator, the declaring
statement, the declarator index and the declaration form, all targeted at
the scope `(tk, tb)`. -/
def declExpected (tk : ScopeKind) (tb : Node) (declNode : Node) (kind : DeclKind) :
    Nat → List Node → List (ScopeKind × Node × Definition)
  | _, [] => []
  | i, d :: rest =>
    (match d with
     | .VariableDeclarator did dinit =>
       (patternLeaves did).map (fun leaf =>
         (tk, tb, (⟨.Variable, leaf.name, some (.VariableDeclarator did dinit),
           some declNode, some i, some kind, false⟩ : Definition)))
     | _ => []) ++ declExpected tk tb declNode kind (i + 1) rest

/-- The reference events the plain-`=` assignment callback emits for the
leaves of the left-hand pattern, against the scope `(k, b)` whose
strictness is `strict`. -/
def assignLeafEvents (k : ScopeKind) (b : Node) (strict : Bool) (rhs : Node) :
    List LeafInfo → List Event
  | [] => []
  | leaf :: rest =>
    (leaf.assignments.map fun a =>
      Event.reference k b ⟨leaf.name, .write, some a.right, !strict,
        !(decide (a.left = Node.Identifier leaf.name)), false⟩)
    ++ [Event.reference k b ⟨leaf.name, .write, some rhs, !strict, !leaf.topLevel, false⟩]
    ++ assignLeafEvents k b strict rhs rest

/-- The reference events `visitForIn` emits for a declaration left side:
one write per leaf of the first declarator's pattern, from the loop's right
side, with `partial` and `init` set, against the scope `(k, b)`. -/
def forInDeclEvents (k : ScopeKind) (b : Node) (rhs : Node) : List LeafInfo → List Event
  | [] => []
  | leaf :: rest =>
    Event.reference k b ⟨leaf.name, .write, some rhs, false, true, true⟩
      :: forInDeclEvents k b rhs rest

/-- The assertion message of the `ImportDeclaration` handler. -/
def importAssertMsg : String :=
  "ImportDeclaration should appear when the mode is ES6 and in the module context."

/-- Behavior of one visiting step, parametrized by the event bound `n`
and the strictness threshold `m` of the spine-preservation hypothesis:
events are only appended (respecting `EvBound n`), a latched state is
frozen, and when every open scope's block is strictly larger than `m`, a
successful step restores the stack spine. -/
def VisOK (n m : Nat) (st st2 : State) : Prop :=
  (∃ ev, st2.events = st.events ++ ev ∧ ∀ e ∈ ev, EvBound n e)
  ∧ (∀ msg, st.err = some msg → st2 = st)
  ∧ ((∀ s ∈ st.stack, m < sizeOf s.block) → st2.err = none →
      stackSpine st2 = stackSpine st)

/-- Behavior of the pre-close phase of a scope-introducing handler for
`node`: like `VisOK`, but the stack may have grown by scopes whose block is
exactly `node` (which the closing `close node` then pops). -/
def NestOK (n : Nat) (node : Node) (st st2 : State) : Prop :=
  (∃ ev, st2.events = st.events ++ ev ∧ ∀ e ∈ ev, EvBound n e)
  ∧ (∀ msg, st.err = some msg → st2 = st)
  ∧ ((∀ s ∈ st.stack, sizeOf node < sizeOf s.block) → st2.err = none →
      ∃ pushes, stackSpine st2 = pushes ++ stackSpine st ∧ ∀ p ∈ pushes, p.2 = node)

open Referencer in
/-- Master statement about `visit`. -/
def MVisit (fl : Flags) (node : Node) (st : State) : Prop :=
  VisOK (sizeOf node) (sizeOf node) st (visit fl node st)

open Referencer in
/-- Master statement about `visitFnBody`. -/
def MFnBody (fl : Flags) (body : Node) (st : State) : Prop :=
  VisOK (sizeOf body) (sizeOf body) st (visitFnBody fl body st)

open Referencer in
/-- Master statement about `visitList`. -/
def MList (fl : Flags) (ns : List Node) (st : State) : Prop :=
  VisOK (sizeOf ns) (sizeOf ns) st (visitList fl ns st)

open Referencer in
/-- Master statement about `visitParams`. -/
def MParams (fl : Flags) (fnode : Node) (i : Nat) (ps : List Node) (st : State) : Prop :=
  VisOK (max (sizeOf ps) (sizeOf fnode)) (sizeOf ps) st (visitParams fl fnode i ps st)

open Referencer in
/-- Master statement about `visitDecls`. -/
def MDecls (fl : Flags) (declNode : Node) (kind : DeclKind) (i : Nat) (ds : List Node)
    (st : State) : Prop :=
  VisOK (max (sizeOf ds) (sizeOf declNode)) (sizeOf ds) st
    (visitDecls fl declNode kind i ds st)

theorem sizeOf_node_pos (n : Node) : 1 ≤ sizeOf n := by
  cases n <;> simp <;> omega

theorem ne_of_sizeOf_lt {a b : Node} (h : sizeOf a < sizeOf b) : b ≠ a := by
  intro he; rw [he] at h; omega

theorem stepOK_refl (P : Event → Prop) (st : State) : StepOK P st st :=
  ⟨⟨[], by simp, by simp⟩, fun _ _ => rfl, rfl⟩

theorem StepOK.comp_s {P : Event → Prop} {st st2 st3 : State}
    (h1 : StepOK P st st2) (h2 : StepOK P st2 st3) : StepOK P st st3 := by
  obtain ⟨⟨e1, he1, hb1⟩, herr1, hsp1⟩ := h1
  obtain ⟨⟨e2, he2, hb2⟩, herr2, hsp2⟩ := h2
  refine ⟨⟨e1 ++ e2, by rw [he2, he1, List.append_assoc], ?_⟩, ?_, by rw [hsp2, hsp1]⟩
  · intro e he
    rcases List.mem_append.1 he with h | h
    exacts [hb1 e h, hb2 e h]
  · intro msg hm
    have hst2 := herr1 msg hm
    have hst3 := herr2 msg (by rw [hst2]; exact hm)
    rw [hst3, hst2]

theorem StepOK.mono_s {P Q : Event → Prop} {st st2 : State} (h : ∀ e, P e → Q e)
    (hs : StepOK P st st2) : StepOK Q st st2 := by
  obtain ⟨⟨e1, he1, hb1⟩, herr1, hsp1⟩ := hs
  exact ⟨⟨e1, he1, fun e he => h e (hb1 e he)⟩, herr1, hsp1⟩

theorem StepOK.err_of_err {P : Event → Prop} {st st2 : State} (h : StepOK P st st2)
    (msg : String) (hm : st.err = some msg) : st2.err = some msg := by
  rw [h.2.1 msg hm]; exact hm

theorem StepOK.err_none {P : Event → Prop} {st st2 : State} (h : StepOK P st st2)
    (hn : st2.err = none) : st.err = none := by
  cases hh : st.err with
  | none => rfl
  | some msg => rw [h.err_of_err msg hh] at hn; exact Option.noConfusion hn

theorem stepOK_fail (P : Event → Prop) (msg : String) (st : State) :
    StepOK P st (State.fail msg st) := by
  unfold State.fail
  cases h : st.err with
  | some m => exact stepOK_refl P st
  | none => exact ⟨⟨[], by simp, by simp⟩, fun m hm => by rw [h] at hm; exact Option.noConfusion hm, rfl⟩

theorem stepOK_defineCur (P : Event → Prop) (d : Definition) (st : State)
    (hP : ∀ k b, P (.define k b d)) : StepOK P st (defineCur d st) := by
  unfold defineCur
  cases h : st.err with
  | some m => simp [h, stepOK_refl]
  | none =>
    simp only [h, Option.isSome_none, Bool.false_eq_true, if_false]
    cases hs : st.stack with
    | nil => exact stepOK_fail P _ st
    | cons sc rest =>
      refine ⟨⟨[.define sc.kind sc.block d], by simp, by simp [hP]⟩, ?_, ?_⟩
      · intro m hm; rw [h] at hm; exact Option.noConfusion hm
      · simp [stackSpine, hs, spineOf]

theorem defineInVarStack_spine (d : Definition) :
    ∀ (stack stack2 : List Scope) (k : ScopeKind) (b : Node),
      defineInVarStack d stack = some (stack2, k, b) →
      stack2.map spineOf = stack.map spineOf := by
  intro stack
  induction stack with
  | nil => intro stack2 k b h; simp [defineInVarStack] at h
  | cons sc rest ih =>
    intro stack2 k b h
    unfold defineInVarStack at h
    by_cases hv : isVariableScopeKind sc.kind
    · simp only [hv, if_true, Option.some.injEq, Prod.mk.injEq] at h
      obtain ⟨h1, h2, h3⟩ := h
      subst h1
      simp [spineOf]
    · simp only [hv, Bool.false_eq_true, if_false] at h
      cases hr : defineInVarStack d rest with
      | none => rw [hr] at h; exact Option.noConfusion h
      | some v =>
        obtain ⟨rest2, k2, b2⟩ := v
        rw [hr] at h
        simp only [Option.some.injEq, Prod.mk.injEq] at h
        obtain ⟨h1, h2, h3⟩ := h
        subst h1
        simp [spineOf, ih rest2 k2 b2 hr]

theorem stepOK_defineVar (P : Event → Prop) (d : Definition) (st : State)
    (hP : ∀ k b, P (.define k b d)) : StepOK P st (defineVar d st) := by
  unfold defineVar
  cases h : st.err with
  | some m => simp [h, stepOK_refl]
  | none =>
    simp only [h, Option.isSome_none, Bool.false_eq_true, if_false]
    cases hs : st.stack with
    | nil => exact stepOK_fail P _ st
    | cons sc rest =>
      dsimp only
      cases hv : defineInVarStack d (sc :: rest) with
      | none => exact stepOK_fail P _ st
      | some v =>
        obtain ⟨stack2, k, b⟩ := v
        refine ⟨⟨[.define k b d], by simp, by simp [hP]⟩, ?_, ?_⟩
        · intro m hm; rw [h] at hm; exact Option.noConfusion hm
        · have hspine := defineInVarStack_spine d (sc :: rest) stack2 k b hv
          simp [stackSpine, hs, hspine]

theorem stepOK_referencingCur (P : Event → Prop) (target : Node) (flag : RefFlag)
    (we : Option Node) (mig isPartial ri : Bool) (st : State)
    (hP : ∀ k b r, P (.reference k b r)) :
    StepOK P st (referencingCur target flag we mig isPartial ri st) := by
  unfold referencingCur
  cases h : st.err with
  | some m => simp [h, stepOK_refl]
  | none =>
    simp only [h, Option.isSome_none, Bool.false_eq_true, if_false]
    cases hs : st.stack with
    | nil => exact stepOK_fail P _ st
    | cons sc rest =>
      cases target <;> try exact stepOK_refl P st
      case Identifier nm =>
        refine ⟨⟨[.reference sc.kind sc.block ⟨nm, flag, we, mig, isPartial, ri⟩],
          by simp, by simp [hP]⟩, ?_, ?_⟩
        · intro m hm; rw [h] at hm; exact Option.noConfusion hm
        · simp [stackSpine, hs, spineOf]

theorem stepOK_setCurrentStrict (P : Event → Prop) (b : Bool) (st : State) :
    StepOK P st (setCurrentStrict b st) := by
  unfold setCurrentStrict
  cases h : st.err with
  | some m => simp [h, stepOK_refl]
  | none =>
    simp only [h, Option.isSome_none, Bool.false_eq_true, if_false]
    cases hs : st.stack with
    | nil => exact stepOK_fail P _ st
    | cons sc rest =>
      refine ⟨⟨[], by simp, by simp⟩, ?_, ?_⟩
      · intro m hm; rw [h] at hm; exact Option.noConfusion hm
      · simp [stackSpine, hs, spineOf]

theorem evBound_define {n : Nat} (k : ScopeKind) (b : Node) {d : Definition}
    (h1 : ∀ x, d.node = some x → sizeOf x ≤ n)
    (h2 : ∀ x, d.parent = some x → sizeOf x ≤ n) : EvBound n (.define k b d) :=
  ⟨h1, h2⟩

theorem evBound_mono {m n : Nat} (h : m ≤ n) : ∀ e, EvBound m e → EvBound n e := by
  intro e
  cases e with
  | nest k b => exact fun hb => le_trans hb h
  | define k b d =>
    rintro ⟨h1, h2⟩
    exact ⟨fun x hx => le_trans (h1 x hx) h, fun x hx => le_trans (h2 x hx) h⟩
  | reference k b r => exact fun _ => trivial
  | close k b => exact fun _ => trivial

theorem stepOK_referencingDefaultValue (P : Event → Prop) (nm : String)
    (mig ri : Bool) (hP : ∀ k b r, P (.reference k b r)) :
    ∀ (asgs : List AssignRec) (st : State),
      StepOK P st (Referencer.referencingDefaultValue nm asgs mig ri st) := by
  intro asgs
  induction asgs with
  | nil => intro st; exact stepOK_refl P st
  | cons a rest ih =>
    intro st
    simp only [Referencer.referencingDefaultValue]
    exact (stepOK_referencingCur P _ _ _ _ _ _ st hP).comp_s (ih _)

theorem stepOK_paramLeafDefs {n : Nat} (fnode : Node) (i : Nat) (hf : sizeOf fnode ≤ n) :
    ∀ (leaves : List LeafInfo) (st : State),
      StepOK (EvBound n) st (Referencer.paramLeafDefs fnode i leaves st) := by
  intro leaves
  induction leaves with
  | nil => intro st; exact stepOK_refl _ st
  | cons leaf rest ih =>
    intro st
    simp only [Referencer.paramLeafDefs]
    have hdef : ∀ k b, EvBound n (Event.define k b
        ⟨.Parameter, leaf.name, some fnode, none, some i, none, leaf.isRest⟩) := by
      intro k b
      refine evBound_define k b ?_ ?_ <;> intro x hx <;> simp_all
    exact StepOK.comp_s (stepOK_defineCur (EvBound n) _ st hdef)
      (StepOK.comp_s
        (stepOK_referencingDefaultValue (EvBound n) leaf.name false true
          (fun _ _ _ => trivial) leaf.assignments _)
        (ih _))

theorem stepOK_declLeafDefs {n : Nat} (declarator declNode : Node) (kind : DeclKind)
    (i : Nat) (dinit : Option Node) (h1 : sizeOf declarator ≤ n) (h2 : sizeOf declNode ≤ n) :
    ∀ (leaves : List LeafInfo) (st : State),
      StepOK (EvBound n) st
        (Referencer.declLeafDefs declarator declNode kind i dinit leaves st) := by
  intro leaves
  induction leaves with
  | nil => intro st; exact stepOK_refl _ st
  | cons leaf rest ih =>
    intro st
    simp only [Referencer.declLeafDefs]
    have hdef : ∀ k b, EvBound n (Event.define k b
        ⟨.Variable, leaf.name, some declarator, some declNode, some i, some kind, false⟩) := by
      intro k b
      refine evBound_define k b ?_ ?_ <;> intro x hx <;> simp_all
    have hstep1 : StepOK (EvBound n) st
        (if kind = DeclKind.dvar
          then defineVar ⟨.Variable, leaf.name, some declarator, some declNode, some i,
            some kind, false⟩ st
          else defineCur ⟨.Variable, leaf.name, some declarator, some declNode, some i,
            some kind, false⟩ st) := by
      by_cases hk : kind = DeclKind.dvar
      · simp only [hk, if_true]
        exact stepOK_defineVar _ _ _ (hdef)
      · simp only [hk, if_false]
        exact stepOK_defineCur _ _ _ (hdef)
    cases dinit with
    | none =>
      exact StepOK.comp_s hstep1
        (StepOK.comp_s
          (stepOK_referencingDefaultValue (EvBound n) leaf.name false true
            (fun _ _ _ => trivial) leaf.assignments _)
          (ih _))
    | some e =>
      exact StepOK.comp_s hstep1
        (StepOK.comp_s
          (stepOK_referencingDefaultValue (EvBound n) leaf.name false true
            (fun _ _ _ => trivial) leaf.assignments _)
          (StepOK.comp_s
            (stepOK_referencingCur _ _ _ _ _ _ _ _ (fun _ _ _ => trivial))
            (ih _)))

theorem stepOK_assignmentLeafRefs (P : Event → Prop) (rhs : Node)
    (hP : ∀ k b r, P (.reference k b r)) :
    ∀ (leaves : List LeafInfo) (st : State),
      StepOK P st (Referencer.assignmentLeafRefs rhs leaves st) := by
  intro leaves
  induction leaves with
  | nil => intro st; exact stepOK_refl _ st
  | cons leaf rest ih =>
    intro st
    simp only [Referencer.assignmentLeafRefs]
    exact StepOK.comp_s
      (stepOK_referencingDefaultValue P leaf.name _ false hP leaf.assignments st)
      (StepOK.comp_s (stepOK_referencingCur P _ _ _ _ _ _ _ hP) (ih _))

theorem stepOK_forInDeclLeafRefs (P : Event → Prop) (rhs : Node)
    (hP : ∀ k b r, P (.reference k b r)) :
    ∀ (leaves : List LeafInfo) (st : State),
      StepOK P st (Referencer.forInDeclLeafRefs rhs leaves st) := by
  intro leaves
  induction leaves with
  | nil => intro st; exact stepOK_refl _ st
  | cons leaf rest ih =>
    intro st
    simp only [Referencer.forInDeclLeafRefs]
    exact StepOK.comp_s (stepOK_referencingCur P _ _ _ _ _ _ st hP) (ih _)

theorem stepOK_forInPatternLeafRefs (P : Event → Prop) (rhs : Node)
    (hP : ∀ k b r, P (.reference k b r)) :
    ∀ (leaves : List LeafInfo) (st : State),
      StepOK P st (Referencer.forInPatternLeafRefs rhs leaves st) := by
  intro leaves
  induction leaves with
  | nil => intro st; exact stepOK_refl _ st
  | cons leaf rest ih =>
    intro st
    simp only [Referencer.forInPatternLeafRefs]
    exact StepOK.comp_s
      (stepOK_referencingDefaultValue P leaf.name _ false hP leaf.assignments st)
      (StepOK.comp_s (stepOK_referencingCur P _ _ _ _ _ _ _ hP) (ih _))

theorem stepOK_importSpecifierDefs {n : Nat} (declNode : Node) (hd : sizeOf declNode ≤ n) :
    ∀ (specs : List Node) (st : State), sizeOf specs ≤ n →
      StepOK (EvBound n) st (Referencer.importSpecifierDefs declNode specs st) := by
  intro specs
  induction specs with
  | nil => intro st _; exact stepOK_refl _ st
  | cons spec rest ih =>
    intro st hsz
    simp only [Referencer.importSpecifierDefs]
    have hcons : sizeOf (spec :: rest) = 1 + sizeOf spec + sizeOf rest := by simp
    have hrest : sizeOf rest ≤ n := by omega
    refine StepOK.comp_s ?_ (ih _ hrest)
    cases spec with
    | ImportSpecifier nm =>
      refine stepOK_defineCur _ _ _ ?_
      intro k b
      have hspec : sizeOf (Node.ImportSpecifier nm) ≤ n := by
        simp only [Node.ImportSpecifier.sizeOf_spec] at hcons ⊢
        omega
      refine evBound_define k b ?_ ?_ <;> intro x hx <;>
        simp only [Option.some.injEq] at hx <;> rw [← hx]
      · exact hspec
      · exact hd
    | Program xs => exact stepOK_refl _ st
    | Identifier a => exact stepOK_refl _ st
    | Literal a => exact stepOK_refl _ st
    | ExpressionStatement a => exact stepOK_refl _ st
    | BlockStatement a => exact stepOK_refl _ st
    | FunctionDeclaration a b c => exact stepOK_refl _ st
    | FunctionExpression a b c => exact stepOK_refl _ st
    | ArrowFunctionExpression a b => exact stepOK_refl _ st
    | ClassDeclaration a b c => exact stepOK_refl _ st
    | ClassExpression a b c => exact stepOK_refl _ st
    | VariableDeclaration a b => exact stepOK_refl _ st
    | VariableDeclarator a b => exact stepOK_refl _ st
    | AssignmentExpression a b c => exact stepOK_refl _ st
    | ForStatement a b c d => exact stepOK_refl _ st
    | ForInStatement a b c => exact stepOK_refl _ st
    | ForOfStatement a b c => exact stepOK_refl _ st
    | ImportDeclaration a => exact stepOK_refl _ st
    | ArrayPattern a => exact stepOK_refl _ st
    | AssignmentPattern a b => exact stepOK_refl _ st
    | RestElement a => exact stepOK_refl _ st

theorem resolveThrough_spine (sc : Scope) (stack : List Scope) :
    (resolveThrough sc stack).map spineOf = stack.map spineOf := by
  cases stack <;> simp [resolveThrough, spineOf]

theorem resolveThrough_length (sc : Scope) (stack : List Scope) :
    (resolveThrough sc stack).length = stack.length := by
  cases stack <;> simp [resolveThrough]

theorem closeFuel_zero (node : Node) (st : State) : closeFuel node 0 st = st := by
  simp [closeFuel]

theorem closeFuel_succ_nil (node : Node) (f : Nat) (st : State) (hs : st.stack = []) :
    closeFuel node (f + 1) st = st := by
  simp only [closeFuel]
  rw [hs]

theorem closeFuel_succ_pop (node : Node) (f : Nat) (st : State) (sc : Scope)
    (rest : List Scope) (hs : st.stack = sc :: rest) (hb : sc.block = node) :
    closeFuel node (f + 1) st = closeFuel node f { st with stack := resolveThrough sc rest, closedScopes := st.closedScopes ++ [sc], events := st.events ++ [Event.close sc.kind sc.block] } := by
  simp only [closeFuel]
  rw [hs]
  simp [hb]

theorem closeFuel_succ_stop (node : Node) (f : Nat) (st : State) (sc : Scope)
    (rest : List Scope) (hs : st.stack = sc :: rest) (hb : ¬ sc.block = node) :
    closeFuel node (f + 1) st = st := by
  simp only [closeFuel]
  rw [hs]
  simp [hb]

theorem closeFuel_events_err (node : Node) : ∀ (fuel : Nat) (st : State),
    (∃ ev, (closeFuel node fuel st).events = st.events ++ ev ∧ ∀ e ∈ ev, ∃ k b, e = Event.close k b)
    ∧ (closeFuel node fuel st).err = st.err
    ∧ (closeFuel node fuel st).stack.length ≤ st.stack.length := by
  intro fuel
  induction fuel with
  | zero =>
    intro st
    rw [closeFuel_zero]
    exact ⟨⟨[], by simp, by simp⟩, rfl, le_rfl⟩
  | succ f ih =>
    intro st
    cases hs : st.stack with
    | nil =>
      rw [closeFuel_succ_nil node f st hs]
      exact ⟨⟨[], by simp, by simp⟩, rfl, by rw [hs]⟩
    | cons sc rest =>
      by_cases hb : sc.block = node
      · rw [closeFuel_succ_pop node f st sc rest hs hb]
        obtain ⟨⟨ev, hev, hcl⟩, herr, hlen⟩ := ih { st with stack := resolveThrough sc rest, closedScopes := st.closedScopes ++ [sc], events := st.events ++ [Event.close sc.kind sc.block] }
        refine ⟨⟨Event.close sc.kind sc.block :: ev, ?_, ?_⟩, ?_, ?_⟩
        · rw [hev]; simp
        · intro e he
          rcases List.mem_cons.1 he with h | h
          · exact ⟨sc.kind, sc.block, h⟩
          · exact hcl e h
        · rw [herr]
        · refine le_trans hlen ?_
          simp [hs, resolveThrough_length]
      · rw [closeFuel_succ_stop node f st sc rest hs hb]
        exact ⟨⟨[], by simp, by simp⟩, rfl, by rw [hs]⟩

theorem closeFuel_spine (node : Node) : ∀ (fuel : Nat) (st : State),
    st.stack.length ≤ fuel →
    (closeFuel node fuel st).stack.map spineOf
      = (st.stack.map spineOf).dropWhile (fun p => decide (p.2 = node)) := by
  intro fuel
  induction fuel with
  | zero =>
    intro st h
    have hnil : st.stack = [] := List.length_eq_zero.1 (Nat.le_zero.1 h)
    rw [closeFuel_zero]
    simp [hnil]
  | succ f ih =>
    intro st h
    cases hs : st.stack with
    | nil =>
      rw [closeFuel_succ_nil node f st hs]
      simp [hs]
    | cons sc rest =>
      by_cases hb : sc.block = node
      · rw [closeFuel_succ_pop node f st sc rest hs hb]
        have hlen : ({ st with stack := resolveThrough sc rest, closedScopes := st.closedScopes ++ [sc], events := st.events ++ [Event.close sc.kind sc.block] } : State).stack.length ≤ f := by
          simp only [resolveThrough_length]
          have hl : st.stack.length = rest.length + 1 := by simp [hs]
          omega
        rw [ih _ hlen]
        simp only [resolveThrough_spine]
        simp [hs, List.dropWhile_cons, spineOf, hb]
      · rw [closeFuel_succ_stop node f st sc rest hs hb]
        simp [hs, List.dropWhile_cons, spineOf, hb]

theorem dropWhile_ne_self (node : Node) (l : List (ScopeKind × Node))
    (h : ∀ p ∈ l, p.2 ≠ node) :
    l.dropWhile (fun p => decide (p.2 = node)) = l := by
  cases l with
  | nil => rfl
  | cons a t =>
    have ha := h a (by simp)
    simp [List.dropWhile_cons, ha]

theorem blocks_of_spine_eq {m : Nat} {st st2 : State}
    (hsp : stackSpine st2 = stackSpine st)
    (h : ∀ s ∈ st.stack, m < sizeOf s.block) :
    ∀ s ∈ st2.stack, m < sizeOf s.block := by
  intro s hs
  have hmem : spineOf s ∈ stackSpine st2 := List.mem_map_of_mem spineOf hs
  rw [hsp] at hmem
  obtain ⟨s0, hs0, heq⟩ := List.mem_map.1 hmem
  have hb : s.block = s0.block := by
    have := congrArg Prod.snd heq
    simpa [spineOf] using this.symm
  rw [hb]
  exact h s0 hs0

theorem blocks_of_spine_pushes {node : Node} {m : Nat} {st st2 : State}
    {pushes : List (ScopeKind × Node)}
    (hsp : stackSpine st2 = pushes ++ stackSpine st)
    (hp : ∀ p ∈ pushes, p.2 = node)
    (hm : m < sizeOf node)
    (h : ∀ s ∈ st.stack, m < sizeOf s.block) :
    ∀ s ∈ st2.stack, m < sizeOf s.block := by
  intro s hs
  have hmem : spineOf s ∈ stackSpine st2 := List.mem_map_of_mem spineOf hs
  rw [hsp] at hmem
  rcases List.mem_append.1 hmem with hmem | hmem
  · have := hp _ hmem
    have hb : s.block = node := by simpa [spineOf] using this
    rw [hb]; exact hm
  · obtain ⟨s0, hs0, heq⟩ := List.mem_map.1 hmem
    have hb : s.block = s0.block := by
      have := congrArg Prod.snd heq
      simpa [spineOf] using this.symm
    rw [hb]
    exact h s0 hs0

theorem VisOK.ofStep {n m : Nat} {st st2 : State} (h : StepOK (EvBound n) st st2) :
    VisOK n m st st2 := by
  obtain ⟨hev, herr, hsp⟩ := h
  exact ⟨hev, herr, fun _ _ => hsp⟩

theorem VisOK.mono {n m n2 m2 : Nat} {st st2 : State} (h : VisOK n m st st2)
    (hn : n ≤ n2) (hm : m ≤ m2) : VisOK n2 m2 st st2 := by
  obtain ⟨⟨ev, hev, hb⟩, herr, hsp⟩ := h
  refine ⟨⟨ev, hev, fun e he => evBound_mono hn e (hb e he)⟩, herr, ?_⟩
  intro hblocks hn2
  exact hsp (fun s hs => lt_of_le_of_lt hm (hblocks s hs)) hn2

theorem VisOK.err_frozen {n m : Nat} {st st2 : State} (h : VisOK n m st st2)
    (msg : String) (hm : st.err = some msg) : st2.err = some msg := by
  rw [h.2.1 msg hm]; exact hm

theorem VisOK.err_back {n m : Nat} {st st2 : State} (h : VisOK n m st st2)
    (hn : st2.err = none) : st.err = none := by
  cases hh : st.err with
  | none => rfl
  | some msg => rw [h.err_frozen msg hh] at hn; exact Option.noConfusion hn

theorem VisOK.comp {n m n2 m2 : Nat} {st st2 st3 : State}
    (h1 : VisOK n m st st2) (h2 : VisOK n2 m2 st2 st3)
    (hn2 : n2 ≤ n) (hm2 : m2 ≤ m) : VisOK n m st st3 := by
  obtain ⟨⟨e1, he1, hb1⟩, herr1, hsp1⟩ := h1
  obtain ⟨⟨e2, he2, hb2⟩, herr2, hsp2⟩ := h2
  refine ⟨⟨e1 ++ e2, by rw [he2, he1, List.append_assoc], ?_⟩, ?_, ?_⟩
  · intro e he
    rcases List.mem_append.1 he with h | h
    exacts [hb1 e h, evBound_mono hn2 e (hb2 e h)]
  · intro msg hm
    have h12 := herr1 msg hm
    have h23 := herr2 msg (by rw [h12]; exact hm)
    rw [h23, h12]
  · intro hblocks hnone
    have hmid : st2.err = none := by
      cases hh : st2.err with
      | none => rfl
      | some msg => rw [herr2 msg hh] at hnone; rw [hnone] at hh; exact Option.noConfusion hh
    have hs1 := hsp1 hblocks hmid
    have hblocks2 : ∀ s ∈ st2.stack, m2 < sizeOf s.block :=
      blocks_of_spine_eq hs1 (fun s hs => lt_of_le_of_lt hm2 (hblocks s hs))
    rw [hsp2 hblocks2 hnone, hs1]

theorem NestOK.here_n (n : Nat) (node : Node) (st : State) : NestOK n node st st :=
  ⟨⟨[], by simp, by simp⟩, fun _ _ => rfl, fun _ _ => ⟨[], by simp, by simp⟩⟩

theorem NestOK.comp_step {n : Nat} {node : Node} {st st2 st3 : State}
    (h1 : NestOK n node st st2) (h2 : StepOK (EvBound n) st2 st3) :
    NestOK n node st st3 := by
  obtain ⟨⟨e1, he1, hb1⟩, herr1, hsp1⟩ := h1
  obtain ⟨⟨e2, he2, hb2⟩, herr2, hsp2⟩ := h2
  refine ⟨⟨e1 ++ e2, by rw [he2, he1, List.append_assoc], ?_⟩, ?_, ?_⟩
  · intro e he
    rcases List.mem_append.1 he with h | h
    exacts [hb1 e h, hb2 e h]
  · intro msg hm
    have h12 := herr1 msg hm
    have h23 := herr2 msg (by rw [h12]; exact hm)
    rw [h23, h12]
  · intro hblocks hnone
    have hmid : st2.err = none := by
      cases hh : st2.err with
      | none => rfl
      | some msg => rw [herr2 msg hh] at hnone; rw [hnone] at hh; exact Option.noConfusion hh
    obtain ⟨pushes, hps, hpb⟩ := hsp1 hblocks hmid
    exact ⟨pushes, by rw [hsp2, hps], hpb⟩

theorem NestOK.comp_vis {n : Nat} {node : Node} {st st2 st3 : State} {n2 m2 : Nat}
    (h1 : NestOK n node st st2) (h2 : VisOK n2 m2 st2 st3)
    (hn2 : n2 ≤ n) (hm2 : m2 < sizeOf node) : NestOK n node st st3 := by
  obtain ⟨⟨e1, he1, hb1⟩, herr1, hsp1⟩ := h1
  obtain ⟨⟨e2, he2, hb2⟩, herr2, hsp2⟩ := h2
  refine ⟨⟨e1 ++ e2, by rw [he2, he1, List.append_assoc], ?_⟩, ?_, ?_⟩
  · intro e he
    rcases List.mem_append.1 he with h | h
    exacts [hb1 e h, evBound_mono hn2 e (hb2 e h)]
  · intro msg hm
    have h12 := herr1 msg hm
    have h23 := herr2 msg (by rw [h12]; exact hm)
    rw [h23, h12]
  · intro hblocks hnone
    have hmid : st2.err = none := by
      cases hh : st2.err with
      | none => rfl
      | some msg => rw [herr2 msg hh] at hnone; rw [hnone] at hh; exact Option.noConfusion hh
    obtain ⟨pushes, hps, hpb⟩ := hsp1 hblocks hmid
    have hblocks2 : ∀ s ∈ st2.stack, m2 < sizeOf s.block :=
      blocks_of_spine_pushes hps hpb hm2
        (fun s hs => lt_trans hm2 (hblocks s hs))
    exact ⟨pushes, by rw [hsp2 hblocks2 hnone, hps], hpb⟩

theorem nestScope_events (k : ScopeKind) (b : Node) (st : State) :
    ∃ ev, (nestScope k b st).events = st.events ++ ev
      ∧ ∀ e ∈ ev, e = Event.nest k b := by
  unfold nestScope
  cases h : st.err with
  | some m => exact ⟨[], by simp [h], by simp⟩
  | none => exact ⟨[Event.nest k b], by simp [h], by simp⟩

theorem nestScope_err_frozen (k : ScopeKind) (b : Node) (st : State) (msg : String)
    (hm : st.err = some msg) : nestScope k b st = st := by
  unfold nestScope
  simp [hm]

theorem nestScope_err (k : ScopeKind) (b : Node) (st : State) :
    (nestScope k b st).err = st.err := by
  unfold nestScope
  cases h : st.err <;> simp [h]

theorem nestScope_spine (k : ScopeKind) (b : Node) (st : State) (hn : st.err = none) :
    stackSpine (nestScope k b st) = (k, b) :: stackSpine st := by
  unfold nestScope
  simp [hn, stackSpine, spineOf]

theorem NestOK.comp_nest {n : Nat} {node : Node} {st st2 : State} (k : ScopeKind)
    (h1 : NestOK n node st st2) (hn : sizeOf node ≤ n) :
    NestOK n node st (nestScope k node st2) := by
  obtain ⟨⟨e1, he1, hb1⟩, herr1, hsp1⟩ := h1
  obtain ⟨e2, he2, hb2⟩ := nestScope_events k node st2
  refine ⟨⟨e1 ++ e2, by rw [he2, he1, List.append_assoc], ?_⟩, ?_, ?_⟩
  · intro e he
    rcases List.mem_append.1 he with h | h
    · exact hb1 e h
    · rw [hb2 e h]; exact hn
  · intro msg hm
    have h12 := herr1 msg hm
    rw [nestScope_err_frozen k node st2 msg (by rw [h12]; exact hm), h12]
  · intro hblocks hnone
    have hmid : st2.err = none := by
      have := nestScope_err k node st2
      rw [hnone] at this
      exact this.symm
    obtain ⟨pushes, hps, hpb⟩ := hsp1 hblocks hmid
    refine ⟨(k, node) :: pushes, ?_, ?_⟩
    · rw [nestScope_spine k node st2 hmid, hps]
      simp
    · intro p hp
      rcases List.mem_cons.1 hp with h | h
      · rw [h]
      · exact hpb p h

theorem nestFENS_events (b : Node) (nm : String) (st : State) :
    ∃ ev, (nestFunctionExpressionNameScope b nm st).events = st.events ++ ev
      ∧ ∀ e ∈ ev, e = Event.nest ScopeKind.functionExpressionName b := by
  unfold nestFunctionExpressionNameScope
  cases h : st.err with
  | some m => exact ⟨[], by simp [h], by simp⟩
  | none => exact ⟨[Event.nest ScopeKind.functionExpressionName b], by simp [h], by simp⟩

theorem nestFENS_err_frozen (b : Node) (nm : String) (st : State) (msg : String)
    (hm : st.err = some msg) : nestFunctionExpressionNameScope b nm st = st := by
  unfold nestFunctionExpressionNameScope
  simp [hm]

theorem nestFENS_err (b : Node) (nm : String) (st : State) :
    (nestFunctionExpressionNameScope b nm st).err = st.err := by
  unfold nestFunctionExpressionNameScope
  cases h : st.err <;> simp [h]

theorem nestFENS_spine (b : Node) (nm : String) (st : State) (hn : st.err = none) :
    stackSpine (nestFunctionExpressionNameScope b nm st)
      = (ScopeKind.functionExpressionName, b) :: stackSpine st := by
  unfold nestFunctionExpressionNameScope
  simp [hn, stackSpine, spineOf]

theorem NestOK.comp_fens {n : Nat} {node : Node} {st st2 : State} (nm : String)
    (h1 : NestOK n node st st2) (hn : sizeOf node ≤ n) :
    NestOK n node st (nestFunctionExpressionNameScope node nm st2) := by
  obtain ⟨⟨e1, he1, hb1⟩, herr1, hsp1⟩ := h1
  obtain ⟨e2, he2, hb2⟩ := nestFENS_events node nm st2
  refine ⟨⟨e1 ++ e2, by rw [he2, he1, List.append_assoc], ?_⟩, ?_, ?_⟩
  · intro e he
    rcases List.mem_append.1 he with h | h
    · exact hb1 e h
    · rw [hb2 e h]; exact hn
  · intro msg hm
    have h12 := herr1 msg hm
    rw [nestFENS_err_frozen node nm st2 msg (by rw [h12]; exact hm), h12]
  · intro hblocks hnone
    have hmid : st2.err = none := by
      have := nestFENS_err node nm st2
      rw [hnone] at this
      exact this.symm
    obtain ⟨pushes, hps, hpb⟩ := hsp1 hblocks hmid
    refine ⟨(ScopeKind.functionExpressionName, node) :: pushes, ?_, ?_⟩
    · rw [nestFENS_spine node nm st2 hmid, hps]
      simp
    · intro p hp
      rcases List.mem_cons.1 hp with h | h
      · rw [h]
      · exact hpb p h

theorem dropWhile_append_of_true {p : ScopeKind × Node → Bool}
    (l1 l2 : List (ScopeKind × Node)) (h : ∀ x ∈ l1, p x = true) :
    (l1 ++ l2).dropWhile p = l2.dropWhile p := by
  induction l1 with
  | nil => simp
  | cons a t ih =>
    have ha := h a (by simp)
    simp only [List.cons_append, List.dropWhile_cons, ha, if_true]
    exact ih (fun x hx => h x (List.mem_cons_of_mem a hx))

open Referencer in
theorem close_master {n : Nat} {node : Node} {st stPre : State}
    (h : NestOK n node st stPre) (hn : sizeOf node ≤ n) :
    VisOK n (sizeOf node) st (Referencer.close node stPre) := by
  obtain ⟨⟨e1, he1, hb1⟩, herr1, hsp1⟩ := h
  unfold Referencer.close
  cases hpe : stPre.err with
  | some msg =>
    simp only [hpe, Option.isSome_some, if_true]
    refine ⟨⟨e1, he1, hb1⟩, ?_, ?_⟩
    · intro m hm
      exact herr1 m hm
    · intro hblocks hnone
      rw [hnone] at hpe
      exact Option.noConfusion hpe
  | none =>
    simp only [hpe, Option.isSome_none, Bool.false_eq_true, if_false]
    obtain ⟨⟨e2, he2, hcl⟩, herr2, hlen⟩ := closeFuel_events_err node stPre.stack.length stPre
    refine ⟨⟨e1 ++ e2, by rw [he2, he1, List.append_assoc], ?_⟩, ?_, ?_⟩
    · intro e he
      rcases List.mem_append.1 he with h | h
      · exact hb1 e h
      · obtain ⟨k, b, hkb⟩ := hcl e h
        rw [hkb]; exact trivial
    · intro msg hm
      have h12 := herr1 msg hm
      rw [h12] at hpe
      rw [hm] at hpe
      exact Option.noConfusion hpe
    · intro hblocks _
      obtain ⟨pushes, hps, hpb⟩ := hsp1 hblocks hpe
      have hspine := closeFuel_spine node stPre.stack.length stPre le_rfl
      simp only [stackSpine] at hps ⊢
      rw [hspine, hps]
      rw [dropWhile_append_of_true pushes (List.map spineOf st.stack)
        (fun x hx => by simp [hpb x hx])]
      refine dropWhile_ne_self node (List.map spineOf st.stack) ?_
      intro p hp
      obtain ⟨s0, hs0, heq⟩ := List.mem_map.1 hp
      have hb : p.2 = s0.block := by
        rw [← heq]; rfl
      rw [hb]
      exact ne_of_sizeOf_lt (hblocks s0 hs0)

theorem VisOK.here (n m : Nat) (st : State) : VisOK n m st st :=
  ⟨⟨[], by simp, by simp⟩, fun _ _ => rfl, fun _ _ => rfl⟩

open Referencer in
theorem programSetup_nestOK (fl : Flags) (node : Node) (st : State) {n : Nat}
    (hn : sizeOf node ≤ n) : NestOK n node st (Referencer.programSetup fl node st) := by
  unfold Referencer.programSetup
  have h1 : NestOK n node st (nestScope .global node st) :=
    NestOK.comp_nest .global (NestOK.here_n n node st) hn
  have h2 : NestOK n node st
      (if fl.nodejsScope then
        nestScope .functionScope node (setCurrentStrict false (nestScope .global node st))
      else nestScope .global node st) := by
    by_cases hnj : fl.nodejsScope = true
    · simp only [hnj, if_true]
      exact NestOK.comp_nest .functionScope
        (NestOK.comp_step h1 (stepOK_setCurrentStrict _ _ _)) hn
    · simp only [Bool.not_eq_true] at hnj
      simp only [hnj, Bool.false_eq_true, if_false]
      exact h1
  have h3 : NestOK n node st
      (if fl.es6 && fl.isModule then
        nestScope .moduleScope node
          (if fl.nodejsScope then
            nestScope .functionScope node (setCurrentStrict false (nestScope .global node st))
          else nestScope .global node st)
      else
        (if fl.nodejsScope then
          nestScope .functionScope node (setCurrentStrict false (nestScope .global node st))
        else nestScope .global node st)) := by
    by_cases hm : (fl.es6 && fl.isModule) = true
    · simp only [hm, if_true]
      exact NestOK.comp_nest .moduleScope h2 hn
    · simp only [Bool.not_eq_true] at hm
      simp only [hm, Bool.false_eq_true, if_false]
      exact h2
  by_cases hi : (fl.strictModeSupported && fl.impliedStrict) = true
  · simp only [hi, if_true]
    exact NestOK.comp_step h3 (stepOK_setCurrentStrict _ _ _)
  · simp only [Bool.not_eq_true] at hi
    simp only [hi, Bool.false_eq_true, if_false]
    exact h3

theorem NestOK.ite_nest {n : Nat} (c : Prop) [Decidable c] (k : ScopeKind) (node : Node)
    (st : State) (hn : sizeOf node ≤ n) :
    NestOK n node st (if c then nestScope k node st else st) := by
  by_cases hc : c
  · rw [if_pos hc]
    exact NestOK.comp_nest k (NestOK.here_n _ _ _) hn
  · rw [if_neg hc]
    exact NestOK.here_n _ _ _

open Referencer in
theorem refMaster (fl : Flags) : ∀ (N : Nat),
    (∀ (node : Node) (st : State), 3 * sizeOf node + 1 ≤ N → MVisit fl node st)
    ∧ (∀ (body : Node) (st : State), 3 * sizeOf body + 2 ≤ N → MFnBody fl body st)
    ∧ (∀ (ns : List Node) (st : State), 3 * sizeOf ns ≤ N → MList fl ns st)
    ∧ (∀ (fnode : Node) (i : Nat) (ps : List Node) (st : State), 3 * sizeOf ps ≤ N →
        MParams fl fnode i ps st)
    ∧ (∀ (declNode : Node) (kind : DeclKind) (i : Nat) (ds : List Node) (st : State),
        3 * sizeOf ds ≤ N → MDecls fl declNode kind i ds st) := by
  intro N
  induction N using Nat.strong_induction_on with
  | _ N IH =>
  have IHv : ∀ (node : Node) (st : State), 3 * sizeOf node + 1 < N → MVisit fl node st :=
    fun node st h => (IH _ h).1 node st le_rfl
  have IHb : ∀ (body : Node) (st : State), 3 * sizeOf body + 2 < N → MFnBody fl body st :=
    fun body st h => (IH _ h).2.1 body st le_rfl
  have IHl : ∀ (ns : List Node) (st : State), 3 * sizeOf ns < N → MList fl ns st :=
    fun ns st h => (IH _ h).2.2.1 ns st le_rfl
  have IHp : ∀ (fnode : Node) (i : Nat) (ps : List Node) (st : State), 3 * sizeOf ps < N →
      MParams fl fnode i ps st :=
    fun fnode i ps st h => (IH _ h).2.2.2.1 fnode i ps st le_rfl
  have IHd : ∀ (declNode : Node) (kind : DeclKind) (i : Nat) (ds : List Node) (st : State),
      3 * sizeOf ds < N → MDecls fl declNode kind i ds st :=
    fun dn k i ds st h => (IH _ h).2.2.2.2 dn k i ds st le_rfl
  refine ⟨?_, ?_, ?_, ?_, ?_⟩
  · -- visit
    intro node st hN
    unfold MVisit
    cases node with
    | Program body =>
      simp only [visit]
      have hs : sizeOf (Node.Program body) = 1 + sizeOf body := by simp
      refine close_master ?_ le_rfl
      exact NestOK.comp_vis (programSetup_nestOK fl _ st le_rfl)
        (IHl body _ (by omega)) (by omega) (by omega)
    | Identifier a =>
      simp only [visit]
      exact VisOK.ofStep (stepOK_referencingCur _ _ _ _ _ _ _ _ (fun _ _ _ => trivial))
    | Literal v =>
      simp only [visit]
      exact VisOK.here _ _ st
    | ExpressionStatement e =>
      simp only [visit]
      have hs : sizeOf (Node.ExpressionStatement e) = 1 + sizeOf e := by simp
      exact (IHv e st (by omega)).mono (by omega) (by omega)
    | BlockStatement body =>
      simp only [visit]
      have hs : sizeOf (Node.BlockStatement body) = 1 + sizeOf body := by simp
      refine close_master ?_ le_rfl
      have hpre : NestOK (sizeOf (Node.BlockStatement body)) (Node.BlockStatement body) st
          (if fl.es6 = true then nestScope .blockScope (Node.BlockStatement body) st else st) :=
        NestOK.ite_nest _ .blockScope _ st le_rfl
      exact NestOK.comp_vis hpre (IHl body _ (by omega)) (by omega) (by omega)
    | FunctionDeclaration fid params body =>
      cases fid with
      | some nm =>
        simp only [visit]
        have hs : 1 + sizeOf params + sizeOf body
            ≤ sizeOf (Node.FunctionDeclaration (some nm) params body) := by simp <;> omega
        refine close_master ?_ le_rfl
        refine NestOK.comp_vis (NestOK.comp_vis
          (NestOK.comp_nest .functionScope
            (NestOK.comp_step (NestOK.here_n _ _ _) (stepOK_defineCur _ _ _ ?_)) le_rfl)
          ((IHp _ 0 params _ (by omega)).mono (max_le (by omega) le_rfl) le_rfl)
          le_rfl (by omega))
          (IHb body _ (by omega)) (by omega) (by omega)
        intro k b
        refine evBound_define k b ?_ ?_ <;> intro x hx <;> simp_all
      | none =>
        simp only [visit]
        have hs : 1 + sizeOf params + sizeOf body
            ≤ sizeOf (Node.FunctionDeclaration none params body) := by simp <;> omega
        refine close_master ?_ le_rfl
        refine NestOK.comp_vis (NestOK.comp_vis
          (NestOK.comp_nest .functionScope (NestOK.here_n _ _ _) le_rfl)
          ((IHp _ 0 params _ (by omega)).mono (max_le (by omega) le_rfl) le_rfl)
          le_rfl (by omega))
          (IHb body _ (by omega)) (by omega) (by omega)
    | FunctionExpression fid params body =>
      cases fid with
      | some nm =>
        simp only [visit]
        have hs : 1 + sizeOf params + sizeOf body
            ≤ sizeOf (Node.FunctionExpression (some nm) params body) := by simp <;> omega
        refine close_master ?_ le_rfl
        refine NestOK.comp_vis (NestOK.comp_vis
          (NestOK.comp_nest .functionScope
            (NestOK.comp_fens nm (NestOK.here_n _ _ _) le_rfl) le_rfl)
          ((IHp _ 0 params _ (by omega)).mono (max_le (by omega) le_rfl) le_rfl)
          le_rfl (by omega))
          (IHb body _ (by omega)) (by omega) (by omega)
      | none =>
        simp only [visit]
        have hs : 1 + sizeOf params + sizeOf body
            ≤ sizeOf (Node.FunctionExpression none params body) := by simp <;> omega
        refine close_master ?_ le_rfl
        refine NestOK.comp_vis (NestOK.comp_vis
          (NestOK.comp_nest .functionScope (NestOK.here_n _ _ _) le_rfl)
          ((IHp _ 0 params _ (by omega)).mono (max_le (by omega) le_rfl) le_rfl)
          le_rfl (by omega))
          (IHb body _ (by omega)) (by omega) (by omega)
    | ArrowFunctionExpression params body =>
      simp only [visit]
      have hs : 1 + sizeOf params + sizeOf body
          ≤ sizeOf (Node.ArrowFunctionExpression params body) := by simp <;> omega
      refine close_master ?_ le_rfl
      refine NestOK.comp_vis (NestOK.comp_vis
        (NestOK.comp_nest .functionScope (NestOK.here_n _ _ _) le_rfl)
        ((IHp _ 0 params _ (by omega)).mono (max_le (by omega) le_rfl) le_rfl)
        le_rfl (by omega))
        (IHb body _ (by omega)) (by omega) (by omega)
    | ClassDeclaration fid sup body =>
      cases fid with
      | some val =>
        cases sup with
        | some s =>
          simp only [visit]
          have hs : 1 + sizeOf s + sizeOf body ≤ sizeOf (Node.ClassDeclaration (some val) (some s) body) := by simp <;> omega
          refine close_master ?_ le_rfl
          refine NestOK.comp_vis
            (NestOK.comp_step
              (NestOK.comp_nest .classScope
                (NestOK.comp_vis
                  (NestOK.comp_step (NestOK.here_n _ _ _) (stepOK_defineCur _ _ _ ?_))
                  (IHv s _ (by omega)) (by omega) (by omega))
                le_rfl)
              (stepOK_defineCur _ _ _ ?_))
            (IHl body _ (by omega)) (by omega) (by omega) <;>
          · intro k b
            refine evBound_define k b ?_ ?_ <;> intro x hx <;> simp_all
        | none =>
          simp only [visit]
          have hs : 1 + sizeOf body ≤ sizeOf (Node.ClassDeclaration (some val) none body) := by simp <;> omega
          refine close_master ?_ le_rfl
          refine NestOK.comp_vis
            (NestOK.comp_step
              (NestOK.comp_nest .classScope
                (NestOK.comp_step (NestOK.here_n _ _ _) (stepOK_defineCur _ _ _ ?_))
                le_rfl)
              (stepOK_defineCur _ _ _ ?_))
            (IHl body _ (by omega)) (by omega) (by omega) <;>
          · intro k b
            refine evBound_define k b ?_ ?_ <;> intro x hx <;> simp_all
      | none =>
        cases sup with
        | some s =>
          simp only [visit]
          have hs : 1 + sizeOf s + sizeOf body ≤ sizeOf (Node.ClassDeclaration none (some s) body) := by simp <;> omega
          refine close_master ?_ le_rfl
          refine NestOK.comp_vis
            (NestOK.comp_nest .classScope
              (NestOK.comp_vis (NestOK.here_n _ _ _)
                (IHv s _ (by omega)) (by omega) (by omega))
              le_rfl)
            (IHl body _ (by omega)) (by omega) (by omega)
        | none =>
          simp only [visit]
          have hs : 1 + sizeOf body ≤ sizeOf (Node.ClassDeclaration none none body) := by simp <;> omega
          refine close_master ?_ le_rfl
          exact NestOK.comp_vis
            (NestOK.comp_nest .classScope (NestOK.here_n _ _ _) le_rfl)
            (IHl body _ (by omega)) (by omega) (by omega)
    | ClassExpression fid sup body =>
      cases fid with
      | some val =>
        cases sup with
        | some s =>
          simp only [visit]
          have hs : 1 + sizeOf s + sizeOf body ≤ sizeOf (Node.ClassExpression (some val) (some s) body) := by simp <;> omega
          refine close_master ?_ le_rfl
          refine NestOK.comp_vis
            (NestOK.comp_step
              (NestOK.comp_nest .classScope
                (NestOK.comp_vis (NestOK.here_n _ _ _)
                  (IHv s _ (by omega)) (by omega) (by omega))
                le_rfl)
              (stepOK_defineCur _ _ _ ?_))
            (IHl body _ (by omega)) (by omega) (by omega)
          intro k b
          refine evBound_define k b ?_ ?_ <;> intro x hx <;> simp_all
        | none =>
          simp only [visit]
          have hs : 1 + sizeOf body ≤ sizeOf (Node.ClassExpression (some val) none body) := by simp <;> omega
          refine close_master ?_ le_rfl
          refine NestOK.comp_vis
            (NestOK.comp_step
              (NestOK.comp_nest .classScope (NestOK.here_n _ _ _) le_rfl)
              (stepOK_defineCur _ _ _ ?_))
            (IHl body _ (by omega)) (by omega) (by omega)
          intro k b
          refine evBound_define k b ?_ ?_ <;> intro x hx <;> simp_all
      | none =>
        cases sup with
        | some s =>
          simp only [visit]
          have hs : 1 + sizeOf s + sizeOf body ≤ sizeOf (Node.ClassExpression none (some s) body) := by simp <;> omega
          refine close_master ?_ le_rfl
          refine NestOK.comp_vis
            (NestOK.comp_nest .classScope
              (NestOK.comp_vis (NestOK.here_n _ _ _)
                (IHv s _ (by omega)) (by omega) (by omega))
              le_rfl)
            (IHl body _ (by omega)) (by omega) (by omega)
        | none =>
          simp only [visit]
          have hs : 1 + sizeOf body ≤ sizeOf (Node.ClassExpression none none body) := by simp <;> omega
          refine close_master ?_ le_rfl
          exact NestOK.comp_vis
            (NestOK.comp_nest .classScope (NestOK.here_n _ _ _) le_rfl)
            (IHl body _ (by omega)) (by omega) (by omega)
    | VariableDeclaration kind decls =>
      simp only [visit]
      have hs : sizeOf (Node.VariableDeclaration kind decls)
          = 1 + sizeOf kind + sizeOf decls := by simp
      exact (IHd _ kind 0 decls st (by omega)).mono (max_le (by omega) le_rfl) (by omega)
    | VariableDeclarator did dinit =>
      cases dinit with
      | some e =>
        simp only [visit]
        have hs : 1 + sizeOf did + 1 + sizeOf e
            ≤ sizeOf (Node.VariableDeclarator did (some e)) := by simp <;> omega
        exact ((IHv did st (by omega)).mono (by omega) (by omega)).comp
          (IHv e _ (by omega)) (by omega) (by omega)
      | none =>
        simp only [visit]
        have hs : 1 + sizeOf did ≤ sizeOf (Node.VariableDeclarator did none) := by
          simp <;> omega
        exact (IHv did st (by omega)).mono (by omega) (by omega)
    | AssignmentExpression op left rhs =>
      simp only [visit]
      have hrhs := patternRHS_size left
      by_cases hp : isPattern left = true
      · simp only [hp, if_true]
        by_cases hop : op = "="
        · subst hop
          rw [if_pos rfl]
          have hs : sizeOf (Node.AssignmentExpression "=" left rhs)
              = 1 + sizeOf ("=" : String) + sizeOf left + sizeOf rhs := by simp
          refine ((VisOK.ofStep (stepOK_assignmentLeafRefs _ _ (fun _ _ _ => trivial) _ st)).comp
            (IHl (patternRHS left) _ (by omega)) (by omega) (by omega)).comp
            (IHv rhs _ (by omega)) (by omega) (by omega)
        · rw [if_neg hop]
          have hs : sizeOf (Node.AssignmentExpression op left rhs)
              = 1 + sizeOf op + sizeOf left + sizeOf rhs := by simp
          exact (VisOK.ofStep (stepOK_referencingCur _ _ _ _ _ _ _ _
            (fun _ _ _ => trivial))).comp (IHv rhs _ (by omega)) (by omega) (by omega)
      · simp only [Bool.not_eq_true] at hp
        simp only [hp, Bool.false_eq_true, if_false]
        have hs : sizeOf (Node.AssignmentExpression op left rhs)
            = 1 + sizeOf op + sizeOf left + sizeOf rhs := by simp
        exact ((IHv left st (by omega)).mono (by omega) (by omega)).comp
          (IHv rhs _ (by omega)) (by omega) (by omega)
    | ForStatement finit tst upd body =>
      cases finit with
      | some fe =>
        cases tst with
        | some te =>
          cases upd with
          | some ue =>
          simp only [visit]
          have hs : 1 + sizeOf fe + sizeOf te + sizeOf ue + sizeOf body ≤ sizeOf (Node.ForStatement (some fe) (some te) (some ue) body) := by simp <;> omega
          refine close_master ?_ le_rfl
          exact NestOK.comp_vis (NestOK.comp_vis (NestOK.comp_vis (NestOK.comp_vis (NestOK.ite_nest _ .forScope _ st le_rfl)
              (IHv fe _ (by omega)) (by omega) (by omega))
              (IHv te _ (by omega)) (by omega) (by omega))
              (IHv ue _ (by omega)) (by omega) (by omega))
              (IHv body _ (by omega)) (by omega) (by omega)
          | none =>
          simp only [visit]
          have hs : 1 + sizeOf fe + sizeOf te + sizeOf body ≤ sizeOf (Node.ForStatement (some fe) (some te) none body) := by simp <;> omega
          refine close_master ?_ le_rfl
          exact NestOK.comp_vis (NestOK.comp_vis (NestOK.comp_vis (NestOK.ite_nest _ .forScope _ st le_rfl)
              (IHv fe _ (by omega)) (by omega) (by omega))
              (IHv te _ (by omega)) (by omega) (by omega))
              (IHv body _ (by omega)) (by omega) (by omega)
        | none =>
          cases upd with
          | some ue =>
          simp only [visit]
          have hs : 1 + sizeOf fe + sizeOf ue + sizeOf body ≤ sizeOf (Node.ForStatement (some fe) none (some ue) body) := by simp <;> omega
          refine close_master ?_ le_rfl
          exact NestOK.comp_vis (NestOK.comp_vis (NestOK.comp_vis (NestOK.ite_nest _ .forScope _ st le_rfl)
              (IHv fe _ (by omega)) (by omega) (by omega))
              (IHv ue _ (by omega)) (by omega) (by omega))
              (IHv body _ (by omega)) (by omega) (by omega)
          | none =>
          simp only [visit]
          have hs : 1 + sizeOf fe + sizeOf body ≤ sizeOf (Node.ForStatement (some fe) none none body) := by simp <;> omega
          refine close_master ?_ le_rfl
          exact NestOK.comp_vis (NestOK.comp_vis (NestOK.ite_nest _ .forScope _ st le_rfl)
              (IHv fe _ (by omega)) (by omega) (by omega))
              (IHv body _ (by omega)) (by omega) (by omega)
      | none =>
        cases tst with
        | some te =>
          cases upd with
          | some ue =>
          simp only [visit]
          have hs : 1 + sizeOf te + sizeOf ue + sizeOf body ≤ sizeOf (Node.ForStatement none (some te) (some ue) body) := by simp <;> omega
          refine close_master ?_ le_rfl
          exact NestOK.comp_vis (NestOK.comp_vis (NestOK.comp_vis (NestOK.ite_nest _ .forScope _ st le_rfl)
              (IHv te _ (by omega)) (by omega) (by omega))
              (IHv ue _ (by omega)) (by omega) (by omega))
              (IHv body _ (by omega)) (by omega) (by omega)
          | none =>
          simp only [visit]
          have hs : 1 + sizeOf te + sizeOf body ≤ sizeOf (Node.ForStatement none (some te) none body) := by simp <;> omega
          refine close_master ?_ le_rfl
          exact NestOK.comp_vis (NestOK.comp_vis (NestOK.ite_nest _ .forScope _ st le_rfl)
              (IHv te _ (by omega)) (by omega) (by omega))
              (IHv body _ (by omega)) (by omega) (by omega)
        | none =>
          cases upd with
          | some ue =>
          simp only [visit]
          have hs : 1 + sizeOf ue + sizeOf body ≤ sizeOf (Node.ForStatement none none (some ue) body) := by simp <;> omega
          refine close_master ?_ le_rfl
          exact NestOK.comp_vis (NestOK.comp_vis (NestOK.ite_nest _ .forScope _ st le_rfl)
              (IHv ue _ (by omega)) (by omega) (by omega))
              (IHv body _ (by omega)) (by omega) (by omega)
          | none =>
          simp only [visit]
          have hs : 1 + sizeOf body ≤ sizeOf (Node.ForStatement none none none body) := by simp <;> omega
          refine close_master ?_ le_rfl
          exact NestOK.comp_vis (NestOK.ite_nest _ .forScope _ st le_rfl)
              (IHv body _ (by omega)) (by omega) (by omega)
    | ForInStatement left rhs body =>
      have hdef : ∀ (l : Node), 3 * sizeOf (Node.ForInStatement l rhs body) + 1 ≤ N →
          VisOK (sizeOf (Node.ForInStatement l rhs body))
            (sizeOf (Node.ForInStatement l rhs body)) st
            (Referencer.close (Node.ForInStatement l rhs body)
              (visit fl body (visit fl rhs (visitList fl (patternRHS l)
                (Referencer.forInPatternLeafRefs rhs (patternLeaves l) st))))) := by
        intro l hNl
        have hsl : sizeOf (Node.ForInStatement l rhs body)
            = 1 + sizeOf l + sizeOf rhs + sizeOf body := by simp
        have hrl := patternRHS_size l
        refine close_master ?_ le_rfl
        refine NestOK.comp_vis (NestOK.comp_vis (NestOK.comp_vis
          (NestOK.comp_step (NestOK.here_n _ _ _)
            (stepOK_forInPatternLeafRefs _ _ (fun _ _ _ => trivial) _ _))
          (IHl (patternRHS l) _ (by omega)) (by omega) (by omega))
          (IHv rhs _ (by omega)) (by omega) (by omega))
          (IHv body _ (by omega)) (by omega) (by omega)
      cases left with
      | VariableDeclaration k decls =>
        simp only [visit]
        have hs : 1 + sizeOf (Node.VariableDeclaration k decls) + sizeOf rhs + sizeOf body
            ≤ sizeOf (Node.ForInStatement (Node.VariableDeclaration k decls) rhs body) := by simp <;> omega
        have hv : 1 + sizeOf k + sizeOf decls ≤ sizeOf (Node.VariableDeclaration k decls) := by
          simp <;> omega
        cases firstDeclaratorId decls with
        | some did =>
          refine close_master ?_ le_rfl
          exact NestOK.comp_vis (NestOK.comp_vis
            (NestOK.comp_step
              (NestOK.comp_vis (NestOK.ite_nest _ .forScope _ st le_rfl)
                (IHd (Node.VariableDeclaration k decls) k 0 decls _ (by omega))
                (max_le (by omega) (by omega)) (by omega))
              (stepOK_forInDeclLeafRefs _ _ (fun _ _ _ => trivial) _ _))
            (IHv rhs _ (by omega)) (by omega) (by omega))
            (IHv body _ (by omega)) (by omega) (by omega)
        | none =>
          refine close_master ?_ le_rfl
          exact NestOK.comp_vis (NestOK.comp_vis
            (NestOK.comp_vis (NestOK.ite_nest _ .forScope _ st le_rfl)
              (IHd (Node.VariableDeclaration k decls) k 0 decls _ (by omega))
              (max_le (by omega) (by omega)) (by omega))
            (IHv rhs _ (by omega)) (by omega) (by omega))
            (IHv body _ (by omega)) (by omega) (by omega)
      | Program xs =>
        simp only [visit]
        exact hdef (Node.Program xs) hN
      | Identifier a =>
        simp only [visit]
        exact hdef (Node.Identifier a) hN
      | Literal v =>
        simp only [visit]
        exact hdef (Node.Literal v) hN
      | ExpressionStatement e =>
        simp only [visit]
        exact hdef (Node.ExpressionStatement e) hN
      | BlockStatement xs =>
        simp only [visit]
        exact hdef (Node.BlockStatement xs) hN
      | FunctionDeclaration a b c =>
        simp only [visit]
        exact hdef (Node.FunctionDeclaration a b c) hN
      | FunctionExpression a b c =>
        simp only [visit]
        exact hdef (Node.FunctionExpression a b c) hN
      | ArrowFunctionExpression a b =>
        simp only [visit]
        exact hdef (Node.ArrowFunctionExpression a b) hN
      | ClassDeclaration a b c =>
        simp only [visit]
        exact hdef (Node.ClassDeclaration a b c) hN
      | ClassExpression a b c =>
        simp only [visit]
        exact hdef (Node.ClassExpression a b c) hN
      | VariableDeclarator a b =>
        simp only [visit]
        exact hdef (Node.VariableDeclarator a b) hN
      | AssignmentExpression a b c =>
        simp only [visit]
        exact hdef (Node.AssignmentExpression a b c) hN
      | ForStatement a b c d =>
        simp only [visit]
        exact hdef (Node.ForStatement a b c d) hN
      | ForInStatement a b c =>
        simp only [visit]
        exact hdef (Node.ForInStatement a b c) hN
      | ForOfStatement a b c =>
        simp only [visit]
        exact hdef (Node.ForOfStatement a b c) hN
      | ImportDeclaration a =>
        simp only [visit]
        exact hdef (Node.ImportDeclaration a) hN
      | ImportSpecifier a =>
        simp only [visit]
        exact hdef (Node.ImportSpecifier a) hN
      | ArrayPattern a =>
        simp only [visit]
        exact hdef (Node.ArrayPattern a) hN
      | AssignmentPattern a b =>
        simp only [visit]
        exact hdef (Node.AssignmentPattern a b) hN
      | RestElement a =>
        simp only [visit]
        exact hdef (Node.RestElement a) hN
    | ForOfStatement left rhs body =>
      have hdef : ∀ (l : Node), 3 * sizeOf (Node.ForOfStatement l rhs body) + 1 ≤ N →
          VisOK (sizeOf (Node.ForOfStatement l rhs body))
            (sizeOf (Node.ForOfStatement l rhs body)) st
            (Referencer.close (Node.ForOfStatement l rhs body)
              (visit fl body (visit fl rhs (visitList fl (patternRHS l)
                (Referencer.forInPatternLeafRefs rhs (patternLeaves l) st))))) := by
        intro l hNl
        have hsl : sizeOf (Node.ForOfStatement l rhs body)
            = 1 + sizeOf l + sizeOf rhs + sizeOf body := by simp
        have hrl := patternRHS_size l
        refine close_master ?_ le_rfl
        refine NestOK.comp_vis (NestOK.comp_vis (NestOK.comp_vis
          (NestOK.comp_step (NestOK.here_n _ _ _)
            (stepOK_forInPatternLeafRefs _ _ (fun _ _ _ => trivial) _ _))
          (IHl (patternRHS l) _ (by omega)) (by omega) (by omega))
          (IHv rhs _ (by omega)) (by omega) (by omega))
          (IHv body _ (by omega)) (by omega) (by omega)
      cases left with
      | VariableDeclaration k decls =>
        simp only [visit]
        have hs : 1 + sizeOf (Node.VariableDeclaration k decls) + sizeOf rhs + sizeOf body
            ≤ sizeOf (Node.ForOfStatement (Node.VariableDeclaration k decls) rhs body) := by simp <;> omega
        have hv : 1 + sizeOf k + sizeOf decls ≤ sizeOf (Node.VariableDeclaration k decls) := by
          simp <;> omega
        cases firstDeclaratorId decls with
        | some did =>
          refine close_master ?_ le_rfl
          exact NestOK.comp_vis (NestOK.comp_vis
            (NestOK.comp_step
              (NestOK.comp_vis (NestOK.ite_nest _ .forScope _ st le_rfl)
                (IHd (Node.VariableDeclaration k decls) k 0 decls _ (by omega))
                (max_le (by omega) (by omega)) (by omega))
              (stepOK_forInDeclLeafRefs _ _ (fun _ _ _ => trivial) _ _))
            (IHv rhs _ (by omega)) (by omega) (by omega))
            (IHv body _ (by omega)) (by omega) (by omega)
        | none =>
          refine close_master ?_ le_rfl
          exact NestOK.comp_vis (NestOK.comp_vis
            (NestOK.comp_vis (NestOK.ite_nest _ .forScope _ st le_rfl)
              (IHd (Node.VariableDeclaration k decls) k 0 decls _ (by omega))
              (max_le (by omega) (by omega)) (by omega))
            (IHv rhs _ (by omega)) (by omega) (by omega))
            (IHv body _ (by omega)) (by omega) (by omega)
      | Program xs =>
        simp only [visit]
        exact hdef (Node.Program xs) hN
      | Identifier a =>
        simp only [visit]
        exact hdef (Node.Identifier a) hN
      | Literal v =>
        simp only [visit]
        exact hdef (Node.Literal v) hN
      | ExpressionStatement e =>
        simp only [visit]
        exact hdef (Node.ExpressionStatement e) hN
      | BlockStatement xs =>
        simp only [visit]
        exact hdef (Node.BlockStatement xs) hN
      | FunctionDeclaration a b c =>
        simp only [visit]
        exact hdef (Node.FunctionDeclaration a b c) hN
      | FunctionExpression a b c =>
        simp only [visit]
        exact hdef (Node.FunctionExpression a b c) hN
      | ArrowFunctionExpression a b =>
        simp only [visit]
        exact hdef (Node.ArrowFunctionExpression a b) hN
      | ClassDeclaration a b c =>
        simp only [visit]
        exact hdef (Node.ClassDeclaration a b c) hN
      | ClassExpression a b c =>
        simp only [visit]
        exact hdef (Node.ClassExpression a b c) hN
      | VariableDeclarator a b =>
        simp only [visit]
        exact hdef (Node.VariableDeclarator a b) hN
      | AssignmentExpression a b c =>
        simp only [visit]
        exact hdef (Node.AssignmentExpression a b c) hN
      | ForStatement a b c d =>
        simp only [visit]
        exact hdef (Node.ForStatement a b c d) hN
      | ForInStatement a b c =>
        simp only [visit]
        exact hdef (Node.ForInStatement a b c) hN
      | ForOfStatement a b c =>
        simp only [visit]
        exact hdef (Node.ForOfStatement a b c) hN
      | ImportDeclaration a =>
        simp only [visit]
        exact hdef (Node.ImportDeclaration a) hN
      | ImportSpecifier a =>
        simp only [visit]
        exact hdef (Node.ImportSpecifier a) hN
      | ArrayPattern a =>
        simp only [visit]
        exact hdef (Node.ArrayPattern a) hN
      | AssignmentPattern a b =>
        simp only [visit]
        exact hdef (Node.AssignmentPattern a b) hN
      | RestElement a =>
        simp only [visit]
        exact hdef (Node.RestElement a) hN
    | ImportDeclaration specs =>
      simp only [visit]
      have hs : sizeOf (Node.ImportDeclaration specs) = 1 + sizeOf specs := by simp
      have hstep1 : StepOK (EvBound (sizeOf (Node.ImportDeclaration specs))) st
          (if fl.es6 && fl.isModule then st
            else State.fail
              "ImportDeclaration should appear when the mode is ES6 and in the module context."
              st) := by
        by_cases hm : (fl.es6 && fl.isModule) = true
        · simp only [hm, if_true]
          exact ⟨⟨[], by simp, by simp⟩, fun _ _ => rfl, rfl⟩
        · simp only [Bool.not_eq_true] at hm
          simp only [hm, Bool.false_eq_true, if_false]
          exact stepOK_fail _ _ st
      refine VisOK.ofStep (StepOK.comp_s hstep1 ?_)
      exact stepOK_importSpecifierDefs _ (by omega) specs _ (by omega)
    | ImportSpecifier a =>
      simp only [visit]
      exact VisOK.here _ _ st
    | ArrayPattern els =>
      simp only [visit]
      have hs : sizeOf (Node.ArrayPattern els) = 1 + sizeOf els := by simp
      exact (IHl els st (by omega)).mono (by omega) (by omega)
    | AssignmentPattern l r =>
      simp only [visit]
      have hs : sizeOf (Node.AssignmentPattern l r) = 1 + sizeOf l + sizeOf r := by simp
      exact ((IHv l st (by omega)).mono (by omega) (by omega)).comp
        (IHv r _ (by omega)) (by omega) (by omega)
    | RestElement a =>
      simp only [visit]
      have hs : sizeOf (Node.RestElement a) = 1 + sizeOf a := by simp
      exact (IHv a st (by omega)).mono (by omega) (by omega)
  · -- visitFnBody
    intro body st hN
    unfold MFnBody
    cases body with
    | BlockStatement ss =>
      simp only [visitFnBody]
      have hs : sizeOf (Node.BlockStatement ss) = 1 + sizeOf ss := by simp
      exact (IHl ss st (by omega)).mono (by omega) (by omega)
    | Program xs => simp only [visitFnBody]; exact IHv _ st (by omega)
    | Identifier a => simp only [visitFnBody]; exact IHv _ st (by omega)
    | Literal v => simp only [visitFnBody]; exact IHv _ st (by omega)
    | ExpressionStatement e => simp only [visitFnBody]; exact IHv _ st (by omega)
    | FunctionDeclaration a b c => simp only [visitFnBody]; exact IHv _ st (by omega)
    | FunctionExpression a b c => simp only [visitFnBody]; exact IHv _ st (by omega)
    | ArrowFunctionExpression a b => simp only [visitFnBody]; exact IHv _ st (by omega)
    | ClassDeclaration a b c => simp only [visitFnBody]; exact IHv _ st (by omega)
    | ClassExpression a b c => simp only [visitFnBody]; exact IHv _ st (by omega)
    | VariableDeclaration a b => simp only [visitFnBody]; exact IHv _ st (by omega)
    | VariableDeclarator a b => simp only [visitFnBody]; exact IHv _ st (by omega)
    | AssignmentExpression a b c => simp only [visitFnBody]; exact IHv _ st (by omega)
    | ForStatement a b c d => simp only [visitFnBody]; exact IHv _ st (by omega)
    | ForInStatement a b c => simp only [visitFnBody]; exact IHv _ st (by omega)
    | ForOfStatement a b c => simp only [visitFnBody]; exact IHv _ st (by omega)
    | ImportDeclaration a => simp only [visitFnBody]; exact IHv _ st (by omega)
    | ImportSpecifier a => simp only [visitFnBody]; exact IHv _ st (by omega)
    | ArrayPattern a => simp only [visitFnBody]; exact IHv _ st (by omega)
    | AssignmentPattern a b => simp only [visitFnBody]; exact IHv _ st (by omega)
    | RestElement a => simp only [visitFnBody]; exact IHv _ st (by omega)
  · -- visitList
    intro ns st hN
    unfold MList
    cases ns with
    | nil =>
      simp only [visitList]
      exact VisOK.here _ _ st
    | cons x rest =>
      simp only [visitList]
      have hs : sizeOf (x :: rest) = 1 + sizeOf x + sizeOf rest := by simp
      exact ((IHv x st (by omega)).mono (by omega) (by omega)).comp
        (IHl rest _ (by omega)) (by omega) (by omega)
  · -- visitParams
    intro fnode i ps st hN
    unfold MParams
    cases ps with
    | nil =>
      simp only [visitParams]
      exact VisOK.here _ _ st
    | cons p rest =>
      simp only [visitParams]
      have hs : sizeOf (p :: rest) = 1 + sizeOf p + sizeOf rest := by simp
      have hrp := patternRHS_size p
      have h1 : sizeOf (patternRHS p) ≤ sizeOf (p :: rest) := by omega
      have hr : sizeOf rest ≤ sizeOf (p :: rest) := by omega
      refine ((VisOK.ofStep (stepOK_paramLeafDefs fnode i (le_max_right _ _)
        (patternLeaves p) st)).comp
        (IHl (patternRHS p) _ (by omega))
        (le_trans h1 (le_max_left _ _)) (by omega)).comp
        ((IHp fnode (i + 1) rest _ (by omega)).mono
          (max_le_max hr le_rfl) hr)
        le_rfl (by omega)
  · -- visitDecls
    intro declNode kind i ds st hN
    unfold MDecls
    cases ds with
    | nil =>
      simp only [visitDecls]
      exact VisOK.here _ _ st
    | cons d rest =>
      cases d with
      | VariableDeclarator did dinit =>
        cases dinit with
        | some e =>
          simp only [visitDecls]
          have hc : sizeOf (Node.VariableDeclarator did (some e) :: rest)
              = 1 + sizeOf (Node.VariableDeclarator did (some e)) + sizeOf rest := by simp
          have hd2 : 1 + sizeOf did + 1 + sizeOf e
              ≤ sizeOf (Node.VariableDeclarator did (some e)) := by simp <;> omega
          have hrp := patternRHS_size did
          have h1 : sizeOf (Node.VariableDeclarator did (some e))
              ≤ sizeOf (Node.VariableDeclarator did (some e) :: rest) := by omega
          have h1b : sizeOf (patternRHS did)
              ≤ sizeOf (Node.VariableDeclarator did (some e) :: rest) := by omega
          have h1c : sizeOf e ≤ sizeOf (Node.VariableDeclarator did (some e) :: rest) := by
            omega
          have hr : sizeOf rest ≤ sizeOf (Node.VariableDeclarator did (some e) :: rest) := by
            omega
          refine (((VisOK.ofStep (stepOK_declLeafDefs _ _ kind i (some e)
            (le_trans h1 (le_max_left _ _)) (le_max_right _ _) (patternLeaves did) st)).comp
            (IHl (patternRHS did) _ (by omega))
            (le_trans h1b (le_max_left _ _)) (by omega)).comp
            (IHv e _ (by omega))
            (le_trans h1c (le_max_left _ _)) (by omega)).comp
            ((IHd declNode kind (i + 1) rest _ (by omega)).mono
              (max_le_max hr le_rfl) hr)
            le_rfl (by omega)
        | none =>
          simp only [visitDecls]
          have hc : sizeOf (Node.VariableDeclarator did none :: rest)
              = 1 + sizeOf (Node.VariableDeclarator did none) + sizeOf rest := by simp
          have hd2 : 1 + sizeOf did ≤ sizeOf (Node.VariableDeclarator did none) := by
            simp <;> omega
          have hrp := patternRHS_size did
          have h1 : sizeOf (Node.VariableDeclarator did none)
              ≤ sizeOf (Node.VariableDeclarator did none :: rest) := by omega
          have h1b : sizeOf (patternRHS did)
              ≤ sizeOf (Node.VariableDeclarator did none :: rest) := by omega
          have hr : sizeOf rest ≤ sizeOf (Node.VariableDeclarator did none :: rest) := by omega
          refine ((VisOK.ofStep (stepOK_declLeafDefs _ _ kind i none
            (le_trans h1 (le_max_left _ _)) (le_max_right _ _) (patternLeaves did) st)).comp
            (IHl (patternRHS did) _ (by omega))
            (le_trans h1b (le_max_left _ _)) (by omega)).comp
            ((IHd declNode kind (i + 1) rest _ (by omega)).mono
              (max_le_max hr le_rfl) hr)
            le_rfl (by omega)
      | Program xs2 =>
        simp only [visitDecls]
        have hs : 1 + sizeOf rest ≤ sizeOf (Node.Program xs2 :: rest) := by simp <;> omega
        exact (IHd declNode kind (i + 1) rest st (by omega)).mono
          (max_le_max (by omega) le_rfl) (by omega)
      | Identifier a2 =>
        simp only [visitDecls]
        have hs : 1 + sizeOf rest ≤ sizeOf (Node.Identifier a2 :: rest) := by simp <;> omega
        exact (IHd declNode kind (i + 1) rest st (by omega)).mono
          (max_le_max (by omega) le_rfl) (by omega)
      | Literal v2 =>
        simp only [visitDecls]
        have hs : 1 + sizeOf rest ≤ sizeOf (Node.Literal v2 :: rest) := by simp <;> omega
        exact (IHd declNode kind (i + 1) rest st (by omega)).mono
          (max_le_max (by omega) le_rfl) (by omega)
      | ExpressionStatement e2 =>
        simp only [visitDecls]
        have hs : 1 + sizeOf rest ≤ sizeOf (Node.ExpressionStatement e2 :: rest) := by simp <;> omega
        exact (IHd declNode kind (i + 1) rest st (by omega)).mono
          (max_le_max (by omega) le_rfl) (by omega)
      | BlockStatement xs2 =>
        simp only [visitDecls]
        have hs : 1 + sizeOf rest ≤ sizeOf (Node.BlockStatement xs2 :: rest) := by simp <;> omega
        exact (IHd declNode kind (i + 1) rest st (by omega)).mono
          (max_le_max (by omega) le_rfl) (by omega)
      | FunctionDeclaration a2 b2 c2 =>
        simp only [visitDecls]
        have hs : 1 + sizeOf rest ≤ sizeOf (Node.FunctionDeclaration a2 b2 c2 :: rest) := by simp <;> omega
        exact (IHd declNode kind (i + 1) rest st (by omega)).mono
          (max_le_max (by omega) le_rfl) (by omega)
      | FunctionExpression a2 b2 c2 =>
        simp only [visitDecls]
        have hs : 1 + sizeOf rest ≤ sizeOf (Node.FunctionExpression a2 b2 c2 :: rest) := by simp <;> omega
        exact (IHd declNode kind (i + 1) rest st (by omega)).mono
          (max_le_max (by omega) le_rfl) (by omega)
      | ArrowFunctionExpression a2 b2 =>
        simp only [visitDecls]
        have hs : 1 + sizeOf rest ≤ sizeOf (Node.ArrowFunctionExpression a2 b2 :: rest) := by simp <;> omega
        exact (IHd declNode kind (i + 1) rest st (by omega)).mono
          (max_le_max (by omega) le_rfl) (by omega)
      | ClassDeclaration a2 b2 c2 =>
        simp only [visitDecls]
        have hs : 1 + sizeOf rest ≤ sizeOf (Node.ClassDeclaration a2 b2 c2 :: rest) := by simp <;> omega
        exact (IHd declNode kind (i + 1) rest st (by omega)).mono
          (max_le_max (by omega) le_rfl) (by omega)
      | ClassExpression a2 b2 c2 =>
        simp only [visitDecls]
        have hs : 1 + sizeOf rest ≤ sizeOf (Node.ClassExpression a2 b2 c2 :: rest) := by simp <;> omega
        exact (IHd declNode kind (i + 1) rest st (by omega)).mono
          (max_le_max (by omega) le_rfl) (by omega)
      | VariableDeclaration a2 b2 =>
        simp only [visitDecls]
        have hs : 1 + sizeOf rest ≤ sizeOf (Node.VariableDeclaration a2 b2 :: rest) := by simp <;> omega
        exact (IHd declNode kind (i + 1) rest st (by omega)).mono
          (max_le_max (by omega) le_rfl) (by omega)
      | AssignmentExpression a2 b2 c2 =>
        simp only [visitDecls]
        have hs : 1 + sizeOf rest ≤ sizeOf (Node.AssignmentExpression a2 b2 c2 :: rest) := by simp <;> omega
        exact (IHd declNode kind (i + 1) rest st (by omega)).mono
          (max_le_max (by omega) le_rfl) (by omega)
      | ForStatement a2 b2 c2 d2 =>
        simp only [visitDecls]
        have hs : 1 + sizeOf rest ≤ sizeOf (Node.ForStatement a2 b2 c2 d2 :: rest) := by simp <;> omega
        exact (IHd declNode kind (i + 1) rest st (by omega)).mono
          (max_le_max (by omega) le_rfl) (by omega)
      | ForInStatement a2 b2 c2 =>
        simp only [visitDecls]
        have hs : 1 + sizeOf rest ≤ sizeOf (Node.ForInStatement a2 b2 c2 :: rest) := by simp <;> omega
        exact (IHd declNode kind (i + 1) rest st (by omega)).mono
          (max_le_max (by omega) le_rfl) (by omega)
      | ForOfStatement a2 b2 c2 =>
        simp only [visitDecls]
        have hs : 1 + sizeOf rest ≤ sizeOf (Node.ForOfStatement a2 b2 c2 :: rest) := by simp <;> omega
        exact (IHd declNode kind (i + 1) rest st (by omega)).mono
          (max_le_max (by omega) le_rfl) (by omega)
      | ImportDeclaration a2 =>
        simp only [visitDecls]
        have hs : 1 + sizeOf rest ≤ sizeOf (Node.ImportDeclaration a2 :: rest) := by simp <;> omega
        exact (IHd declNode kind (i + 1) rest st (by omega)).mono
          (max_le_max (by omega) le_rfl) (by omega)
      | ImportSpecifier a2 =>
        simp only [visitDecls]
        have hs : 1 + sizeOf rest ≤ sizeOf (Node.ImportSpecifier a2 :: rest) := by simp <;> omega
        exact (IHd declNode kind (i + 1) rest st (by omega)).mono
          (max_le_max (by omega) le_rfl) (by omega)
      | ArrayPattern a2 =>
        simp only [visitDecls]
        have hs : 1 + sizeOf rest ≤ sizeOf (Node.ArrayPattern a2 :: rest) := by simp <;> omega
        exact (IHd declNode kind (i + 1) rest st (by omega)).mono
          (max_le_max (by omega) le_rfl) (by omega)
      | AssignmentPattern a2 b2 =>
        simp only [visitDecls]
        have hs : 1 + sizeOf rest ≤ sizeOf (Node.AssignmentPattern a2 b2 :: rest) := by simp <;> omega
        exact (IHd declNode kind (i + 1) rest st (by omega)).mono
          (max_le_max (by omega) le_rfl) (by omega)
      | RestElement a2 =>
        simp only [visitDecls]
        have hs : 1 + sizeOf rest ≤ sizeOf (Node.RestElement a2 :: rest) := by simp <;> omega
        exact (IHd declNode kind (i + 1) rest st (by omega)).mono
          (max_le_max (by omega) le_rfl) (by omega)

open Referencer in
theorem visit_master (fl : Flags) (node : Node) (st : State) : MVisit fl node st :=
  (refMaster fl (3 * sizeOf node + 1)).1 node st le_rfl

open Referencer in
theorem visitFnBody_master (fl : Flags) (body : Node) (st : State) : MFnBody fl body st :=
  (refMaster fl (3 * sizeOf body + 2)).2.1 body st le_rfl

open Referencer in
theorem visitList_master (fl : Flags) (ns : List Node) (st : State) : MList fl ns st :=
  (refMaster fl (3 * sizeOf ns)).2.2.1 ns st le_rfl

open Referencer in
theorem visitParams_master (fl : Flags) (fnode : Node) (i : Nat) (ps : List Node) (st : State) :
    MParams fl fnode i ps st :=
  (refMaster fl (3 * sizeOf ps)).2.2.2.1 fnode i ps st le_rfl

open Referencer in
theorem visitDecls_master (fl : Flags) (declNode : Node) (kind : DeclKind) (i : Nat)
    (ds : List Node) (st : State) : MDecls fl declNode kind i ds st :=
  (refMaster fl (3 * sizeOf ds)).2.2.2.2 declNode kind i ds st le_rfl

open Referencer in
theorem visit_events (fl : Flags) (node : Node) (st : State) :
    ∃ ev, (visit fl node st).events = st.events ++ ev
      ∧ ∀ e ∈ ev, EvBound (sizeOf node) e :=
  (visit_master fl node st).1

open Referencer in
theorem visit_err_back (fl : Flags) (node : Node) (st : State)
    (h : (visit fl node st).err = none) : st.err = none :=
  VisOK.err_back (visit_master fl node st) h

open Referencer in
theorem visit_spine (fl : Flags) (node : Node) (st : State)
    (hb : ∀ s ∈ st.stack, sizeOf node < sizeOf s.block)
    (h : (visit fl node st).err = none) :
    stackSpine (visit fl node st) = stackSpine st :=
  (visit_master fl node st).2.2 hb h

open Referencer in
theorem visitList_events (fl : Flags) (ns : List Node) (st : State) :
    ∃ ev, (visitList fl ns st).events = st.events ++ ev
      ∧ ∀ e ∈ ev, EvBound (sizeOf ns) e :=
  (visitList_master fl ns st).1

open Referencer in
theorem visitList_err_back (fl : Flags) (ns : List Node) (st : State)
    (h : (visitList fl ns st).err = none) : st.err = none :=
  VisOK.err_back (visitList_master fl ns st) h

open Referencer in
theorem visitList_spine (fl : Flags) (ns : List Node) (st : State)
    (hb : ∀ s ∈ st.stack, sizeOf ns < sizeOf s.block)
    (h : (visitList fl ns st).err = none) :
    stackSpine (visitList fl ns st) = stackSpine st :=
  (visitList_master fl ns st).2.2 hb h

theorem evBound_no_nest {n : Nat} {e : Event} (h : EvBound n e) {k : ScopeKind} {b : Node}
    (hb : n < sizeOf b) : e ≠ Event.nest k b := by
  intro he
  subst he
  simp only [EvBound] at h
  omega

theorem paramDefines_append (fnode : Node) (a b : List Event) :
    paramDefines fnode (a ++ b) = paramDefines fnode a ++ paramDefines fnode b :=
  List.filterMap_append a b _

theorem variableDefines_append (declNode : Node) (a b : List Event) :
    variableDefines declNode (a ++ b)
      = variableDefines declNode a ++ variableDefines declNode b :=
  List.filterMap_append a b _

theorem paramDefines_nil_of_bound {n : Nat} (fnode : Node) (hn : n < sizeOf fnode) :
    ∀ (ev : List Event), (∀ e ∈ ev, EvBound n e) → paramDefines fnode ev = [] := by
  intro ev
  induction ev with
  | nil => intro _; rfl
  | cons e rest ih =>
    intro h
    have he := h e (by simp)
    have hrest := ih (fun x hx => h x (by simp [hx]))
    cases e with
    | nest k b => simp [paramDefines] at hrest ⊢; exact hrest
    | reference k b r => simp [paramDefines] at hrest ⊢; exact hrest
    | close k b => simp [paramDefines] at hrest ⊢; exact hrest
    | define k b d =>
      simp only [EvBound] at he
      have hne : ¬(d.defType = VariableType.Parameter ∧ d.node = some fnode) := by
        rintro ⟨-, h2⟩
        have := he.1 fnode h2
        omega
      simp [paramDefines, hne] at hrest ⊢
      exact hrest

theorem variableDefines_nil_of_bound {n : Nat} (declNode : Node) (hn : n < sizeOf declNode) :
    ∀ (ev : List Event), (∀ e ∈ ev, EvBound n e) → variableDefines declNode ev = [] := by
  intro ev
  induction ev with
  | nil => intro _; rfl
  | cons e rest ih =>
    intro h
    have he := h e (by simp)
    have hrest := ih (fun x hx => h x (by simp [hx]))
    cases e with
    | nest k b => simp [variableDefines] at hrest ⊢; exact hrest
    | reference k b r => simp [variableDefines] at hrest ⊢; exact hrest
    | close k b => simp [variableDefines] at hrest ⊢; exact hrest
    | define k b d =>
      simp only [EvBound] at he
      have hne : ¬(d.defType = VariableType.Variable ∧ d.parent = some declNode) := by
        rintro ⟨-, h2⟩
        have := he.2 declNode h2
        omega
      simp [variableDefines, hne] at hrest ⊢
      exact hrest

open Referencer in
theorem close_run (node : Node) (st : State) (h : st.err = none) :
    stackSpine (Referencer.close node st)
        = (stackSpine st).dropWhile (fun p => decide (p.2 = node))
      ∧ (Referencer.close node st).err = none
      ∧ ∃ ev, (Referencer.close node st).events = st.events ++ ev
          ∧ ∀ e ∈ ev, ∃ k b, e = Event.close k b := by
  have hnotsome : st.err.isSome = false := by simp [h]
  constructor
  · simp only [Referencer.close, hnotsome, Bool.false_eq_true, if_false, stackSpine]
    exact closeFuel_spine node st.stack.length st le_rfl
  constructor
  · simp only [Referencer.close, hnotsome, Bool.false_eq_true, if_false]
    rw [(closeFuel_events_err node st.stack.length st).2.1]
    exact h
  · simp only [Referencer.close, hnotsome, Bool.false_eq_true, if_false]
    exact (closeFuel_events_err node st.stack.length st).1

open Referencer in
theorem close_latched (node : Node) (st : State) (msg : String) (h : st.err = some msg) :
    Referencer.close node st = st := by
  simp [Referencer.close, h]

theorem referencingCur_run (nm : String) (flag : RefFlag) (we : Option Node)
    (mig p ri : Bool) (st : State) (sc : Scope) (rest : List Scope)
    (herr : st.err = none) (hstack : st.stack = sc :: rest) :
    referencingCur (Node.Identifier nm) flag we mig p ri st
      = { st with stack := { sc with refs := sc.refs ++ [⟨nm, flag, we, mig, p, ri⟩] } :: rest,
                  events := st.events
                    ++ [Event.reference sc.kind sc.block ⟨nm, flag, we, mig, p, ri⟩] } := by
  simp [referencingCur, herr, hstack]

theorem defineCur_run (d : Definition) (st : State) (sc : Scope) (rest : List Scope)
    (herr : st.err = none) (hstack : st.stack = sc :: rest) :
    defineCur d st
      = { st with stack := { sc with defs := sc.defs ++ [d] } :: rest,
                  events := st.events ++ [Event.define sc.kind sc.block d] } := by
  simp [defineCur, herr, hstack]

open Referencer in
theorem referencingDefaultValue_run (nm : String) (mig refInit : Bool) :
    ∀ (assignments : List AssignRec) (st : State) (sc : Scope) (rest : List Scope),
      st.err = none → st.stack = sc :: rest →
      Referencer.referencingDefaultValue nm assignments mig refInit st
        = { st with
            stack := { sc with refs := sc.refs ++ assignments.map (fun a =>
              (⟨nm, .write, some a.right, mig,
                !(decide (a.left = Node.Identifier nm)), refInit⟩ : Reference)) } :: rest,
            events := st.events ++ assignments.map (fun a =>
              Event.reference sc.kind sc.block ⟨nm, .write, some a.right, mig,
                !(decide (a.left = Node.Identifier nm)), refInit⟩) } := by
  intro assignments
  induction assignments with
  | nil =>
    intro st sc rest herr hstack
    simp only [Referencer.referencingDefaultValue, List.map_nil, List.append_nil]
    have h1 : ({ sc with refs := sc.refs } : Scope) = sc := rfl
    rw [h1, ← hstack]
  | cons a rest2 ih =>
    intro st sc rest herr hstack
    simp only [Referencer.referencingDefaultValue]
    rw [referencingCur_run nm .write (some a.right) mig
      (!(decide (a.left = Node.Identifier nm))) refInit st sc rest herr hstack]
    rw [ih _ _ _ (by simp [herr]) rfl]
    simp [List.append_assoc]

open Referencer in
theorem assignmentLeafRefs_run (rhs : Node) :
    ∀ (leaves : List LeafInfo) (st : State) (sc : Scope) (rest : List Scope),
      st.err = none → st.stack = sc :: rest →
      ∃ refs2, Referencer.assignmentLeafRefs rhs leaves st
        = { st with stack := { sc with refs := refs2 } :: rest,
                    events := st.events
                      ++ assignLeafEvents sc.kind sc.block sc.isStrict rhs leaves } := by
  intro leaves
  induction leaves with
  | nil =>
    intro st sc rest herr hstack
    refine ⟨sc.refs, ?_⟩
    simp only [Referencer.assignmentLeafRefs, assignLeafEvents, List.append_nil]
    have h1 : ({ sc with refs := sc.refs } : Scope) = sc := rfl
    rw [h1, ← hstack]
  | cons leaf rest2 ih =>
    intro st sc rest herr hstack
    simp only [Referencer.assignmentLeafRefs, hstack]
    rw [referencingDefaultValue_run leaf.name (!sc.isStrict) false leaf.assignments
      st sc rest herr hstack]
    rw [referencingCur_run leaf.name .write (some rhs) (!sc.isStrict) (!leaf.topLevel)
      false _ _ rest (by simp [herr]) rfl]
    obtain ⟨refs2, hr⟩ := ih { st with
        stack := { sc with refs := sc.refs
          ++ leaf.assignments.map (fun a =>
              (⟨leaf.name, .write, some a.right, !sc.isStrict,
                !(decide (a.left = Node.Identifier leaf.name)), false⟩ : Reference))
          ++ [⟨leaf.name, .write, some rhs, !sc.isStrict, !leaf.topLevel, false⟩] } :: rest,
        events := st.events
          ++ leaf.assignments.map (fun a =>
              Event.reference sc.kind sc.block ⟨leaf.name, .write, some a.right, !sc.isStrict,
                !(decide (a.left = Node.Identifier leaf.name)), false⟩)
          ++ [Event.reference sc.kind sc.block
              ⟨leaf.name, .write, some rhs, !sc.isStrict, !leaf.topLevel, false⟩] }
      _ rest (by simp [herr]) rfl
    refine ⟨refs2, ?_⟩
    rw [show ({ st with
        stack := { sc with refs := sc.refs
          ++ leaf.assignments.map (fun a =>
              (⟨leaf.name, .write, some a.right, !sc.isStrict,
                !(decide (a.left = Node.Identifier leaf.name)), false⟩ : Reference)) } :: rest,
        events := st.events
          ++ leaf.assignments.map (fun a =>
              Event.reference sc.kind sc.block ⟨leaf.name, .write, some a.right, !sc.isStrict,
                !(decide (a.left = Node.Identifier leaf.name)), false⟩) } : State)
      = { st with
          stack := { sc with refs := sc.refs
            ++ leaf.assignments.map (fun a =>
                (⟨leaf.name, .write, some a.right, !sc.isStrict,
                  !(decide (a.left = Node.Identifier leaf.name)), false⟩ : Reference)) } :: rest,
          events := st.events
            ++ leaf.assignments.map (fun a =>
                Event.reference sc.kind sc.block ⟨leaf.name, .write, some a.right, !sc.isStrict,
                  !(decide (a.left = Node.Identifier leaf.name)), false⟩) } from rfl]
    rw [hr]
    simp [assignLeafEvents, List.append_assoc]

theorem referencingCur_parts (nm : String) (flag : RefFlag) (we : Option Node)
    (mig p ri : Bool) (st : State) (sc : Scope) (rest : List Scope)
    (herr : st.err = none) (hstack : st.stack = sc :: rest) :
    (referencingCur (Node.Identifier nm) flag we mig p ri st).stack
        = { sc with refs := sc.refs ++ [⟨nm, flag, we, mig, p, ri⟩] } :: rest
      ∧ (referencingCur (Node.Identifier nm) flag we mig p ri st).events
        = st.events ++ [Event.reference sc.kind sc.block ⟨nm, flag, we, mig, p, ri⟩]
      ∧ (referencingCur (Node.Identifier nm) flag we mig p ri st).err = none := by
  rw [referencingCur_run nm flag we mig p ri st sc rest herr hstack]
  exact ⟨rfl, rfl, herr⟩

theorem defineCur_parts (d : Definition) (st : State) (sc : Scope) (rest : List Scope)
    (herr : st.err = none) (hstack : st.stack = sc :: rest) :
    (defineCur d st).stack = { sc with defs := sc.defs ++ [d] } :: rest
      ∧ (defineCur d st).events = st.events ++ [Event.define sc.kind sc.block d]
      ∧ (defineCur d st).err = none := by
  rw [defineCur_run d st sc rest herr hstack]
  exact ⟨rfl, rfl, herr⟩

open Referencer in
theorem referencingDefaultValue_parts (nm : String) (mig refInit : Bool)
    (assignments : List AssignRec) (st : State) (sc : Scope) (rest : List Scope)
    (herr : st.err = none) (hstack : st.stack = sc :: rest) :
    ∃ sc2, (Referencer.referencingDefaultValue nm assignments mig refInit st).stack
        = sc2 :: rest
      ∧ (Referencer.referencingDefaultValue nm assignments mig refInit st).events
        = st.events ++ assignments.map (fun a =>
            Event.reference sc.kind sc.block ⟨nm, .write, some a.right, mig,
              !(decide (a.left = Node.Identifier nm)), refInit⟩)
      ∧ (Referencer.referencingDefaultValue nm assignments mig refInit st).err = none
      ∧ sc2.kind = sc.kind ∧ sc2.block = sc.block ∧ sc2.isStrict = sc.isStrict := by
  rw [referencingDefaultValue_run nm mig refInit assignments st sc rest herr hstack]
  exact ⟨_, rfl, rfl, herr, rfl, rfl, rfl⟩

open Referencer in
theorem forInDeclLeafRefs_run (rhs : Node) :
    ∀ (leaves : List LeafInfo) (st : State) (sc : Scope) (rest : List Scope),
      st.err = none → st.stack = sc :: rest →
      ∃ sc2, (Referencer.forInDeclLeafRefs rhs leaves st).stack = sc2 :: rest
        ∧ (Referencer.forInDeclLeafRefs rhs leaves st).events
          = st.events ++ forInDeclEvents sc.kind sc.block rhs leaves
        ∧ (Referencer.forInDeclLeafRefs rhs leaves st).err = none
        ∧ sc2.kind = sc.kind ∧ sc2.block = sc.block ∧ sc2.isStrict = sc.isStrict := by
  intro leaves
  induction leaves with
  | nil =>
    intro st sc rest herr hstack
    refine ⟨sc, ?_, ?_, ?_, rfl, rfl, rfl⟩ <;>
      simp [Referencer.forInDeclLeafRefs, forInDeclEvents, hstack, herr]
  | cons leaf rest2 ih =>
    intro st sc rest herr hstack
    simp only [Referencer.forInDeclLeafRefs]
    obtain ⟨hs1, he1, her1⟩ :=
      referencingCur_parts leaf.name .write (some rhs) false true true st sc rest herr hstack
    obtain ⟨sc2, hs2, he2, her2, hk2, hb2, hstr2⟩ := ih _ _ rest her1 hs1
    refine ⟨sc2, hs2, ?_, her2, by simp [hk2], by simp [hb2], by simp [hstr2]⟩
    rw [he2, he1]
    simp [forInDeclEvents, List.append_assoc]

open Referencer in
theorem paramLeafDefs_run (fnode : Node) (i : Nat) :
    ∀ (leaves : List LeafInfo) (st : State) (sc : Scope) (rest : List Scope),
      st.err = none → st.stack = sc :: rest →
      ∃ sc2, (Referencer.paramLeafDefs fnode i leaves st).stack = sc2 :: rest
        ∧ (Referencer.paramLeafDefs fnode i leaves st).events
          = st.events ++ leaves.flatMap (fun leaf =>
              Event.define sc.kind sc.block
                ⟨.Parameter, leaf.name, some fnode, none, some i, none, leaf.isRest⟩
              :: leaf.assignments.map (fun a =>
                Event.reference sc.kind sc.block
                  ⟨leaf.name, .write, some a.right, false,
                    !(decide (a.left = Node.Identifier leaf.name)), true⟩))
        ∧ (Referencer.paramLeafDefs fnode i leaves st).err = none
        ∧ sc2.kind = sc.kind ∧ sc2.block = sc.block ∧ sc2.isStrict = sc.isStrict := by
  intro leaves
  induction leaves with
  | nil =>
    intro st sc rest herr hstack
    refine ⟨sc, ?_, ?_, ?_, rfl, rfl, rfl⟩ <;>
      simp [Referencer.paramLeafDefs, hstack, herr]
  | cons leaf rest2 ih =>
    intro st sc rest herr hstack
    simp only [Referencer.paramLeafDefs]
    obtain ⟨hs1, he1, her1⟩ := defineCur_parts
      ⟨.Parameter, leaf.name, some fnode, none, some i, none, leaf.isRest⟩ st sc rest herr hstack
    obtain ⟨sc2, hs2, he2, her2, hk2, hb2, hstr2⟩ :=
      referencingDefaultValue_parts leaf.name false true leaf.assignments _ _ rest her1 hs1
    obtain ⟨sc3, hs3, he3, her3, hk3, hb3, hstr3⟩ := ih _ _ rest her2 hs2
    refine ⟨sc3, hs3, ?_, her3, by simp_all, by simp_all, by simp_all⟩
    rw [he3, he2, he1]
    simp [hk2, hb2, List.append_assoc]

theorem cons_of_spine {l : List Scope} {p : ScopeKind × Node} {sp : List (ScopeKind × Node)}
    (h : l.map spineOf = p :: sp) :
    ∃ x xs, l = x :: xs ∧ spineOf x = p ∧ xs.map spineOf = sp := by
  cases l with
  | nil => simp at h
  | cons x xs =>
    simp only [List.map_cons, List.cons.injEq] at h
    exact ⟨x, xs, rfl, h.1, h.2⟩

theorem defineInVarStack_of_varScope (d : Definition) :
    ∀ (stack : List Scope) (tk : ScopeKind) (tb : Node),
      varScopeSpine (stack.map spineOf) = some (tk, tb) →
      ∃ stack2, defineInVarStack d stack = some (stack2, tk, tb)
        ∧ stack2.map spineOf = stack.map spineOf := by
  intro stack
  induction stack with
  | nil => intro tk tb h; simp [varScopeSpine] at h
  | cons sc rest ih =>
    intro tk tb h
    simp only [List.map_cons, varScopeSpine] at h
    by_cases hv : isVariableScopeKind (spineOf sc).1 = true
    · rw [if_pos hv] at h
      simp only [Option.some.injEq] at h
      have hk : sc.kind = tk := by
        have := congrArg Prod.fst h
        simpa [spineOf] using this
      have hb : sc.block = tb := by
        have := congrArg Prod.snd h
        simpa [spineOf] using this
      have hvtk : isVariableScopeKind tk = true := by
        rw [← hk]
        simpa [spineOf] using hv
      refine ⟨{ sc with defs := sc.defs ++ [d] } :: rest, ?_, ?_⟩
      · simp [defineInVarStack, hk, hb, hvtk]
      · simp [spineOf]
    · rw [if_neg hv] at h
      obtain ⟨stack2, heq, hsp⟩ := ih tk tb h
      have hv2 : ¬isVariableScopeKind sc.kind = true := by simpa [spineOf] using hv
      refine ⟨sc :: stack2, ?_, ?_⟩
      · simp [defineInVarStack, hv2, heq]
      · simp [hsp]

theorem defineVar_parts (d : Definition) (st : State) (sc : Scope) (rest : List Scope)
    (tk : ScopeKind) (tb : Node)
    (herr : st.err = none) (hstack : st.stack = sc :: rest)
    (hv : varScopeSpine (stackSpine st) = some (tk, tb)) :
    stackSpine (defineVar d st) = stackSpine st
      ∧ (defineVar d st).events = st.events ++ [Event.define tk tb d]
      ∧ (defineVar d st).err = none := by
  obtain ⟨stack2, heq, hsp⟩ := defineInVarStack_of_varScope d st.stack tk tb hv
  have hrun : defineVar d st = { st with stack := stack2, events := st.events ++ [Event.define tk tb d] } := by
    rw [hstack] at heq
    rw [defineVar]
    simp only [herr, Option.isSome_none, Bool.false_eq_true, if_false]
    rw [hstack]
    simp only [heq]
  rw [hrun]
  exact ⟨hsp, rfl, herr⟩

open Referencer in
theorem declLeafDefs_run (declarator declNode : Node) (kind : DeclKind) (i : Nat)
    (dinit : Option Node) (tk : ScopeKind) (tb : Node) (ck : ScopeKind) (cb : Node) :
    ∀ (leaves : List LeafInfo) (st : State) (sc : Scope) (rest : List Scope),
      st.err = none → st.stack = sc :: rest → sc.kind = ck → sc.block = cb →
      (kind = DeclKind.dvar → varScopeSpine (stackSpine st) = some (tk, tb)) →
      (¬kind = DeclKind.dvar → tk = ck ∧ tb = cb) →
      (Referencer.declLeafDefs declarator declNode kind i dinit leaves st).err = none
      ∧ stackSpine (Referencer.declLeafDefs declarator declNode kind i dinit leaves st)
          = stackSpine st
      ∧ (Referencer.declLeafDefs declarator declNode kind i dinit leaves st).events
          = st.events ++ leaves.flatMap (fun leaf =>
              Event.define tk tb
                ⟨.Variable, leaf.name, some declarator, some declNode, some i, some kind, false⟩
              :: ((leaf.assignments.map fun a =>
                    Event.reference ck cb ⟨leaf.name, .write, some a.right, false,
                      !(decide (a.left = Node.Identifier leaf.name)), true⟩)
                  ++ (dinit.map (fun e => Event.reference ck cb
                        ⟨leaf.name, .write, some e, false, !leaf.topLevel, true⟩)).toList)) := by
  intro leaves
  induction leaves with
  | nil =>
    intro st sc rest herr hstack hk hb hvar hcur
    refine ⟨?_, ?_, ?_⟩ <;> simp [Referencer.declLeafDefs, herr]
  | cons leaf rest2 ih =>
    intro st sc rest herr hstack hk hb hvar hcur
    simp only [Referencer.declLeafDefs]
    have hd1 : (if kind = DeclKind.dvar
          then defineVar ⟨.Variable, leaf.name, some declarator, some declNode, some i,
            some kind, false⟩ st
          else defineCur ⟨.Variable, leaf.name, some declarator, some declNode, some i,
            some kind, false⟩ st).err = none
        ∧ stackSpine (if kind = DeclKind.dvar
          then defineVar ⟨.Variable, leaf.name, some declarator, some declNode, some i,
            some kind, false⟩ st
          else defineCur ⟨.Variable, leaf.name, some declarator, some declNode, some i,
            some kind, false⟩ st) = stackSpine st
        ∧ (if kind = DeclKind.dvar
          then defineVar ⟨.Variable, leaf.name, some declarator, some declNode, some i,
            some kind, false⟩ st
          else defineCur ⟨.Variable, leaf.name, some declarator, some declNode, some i,
            some kind, false⟩ st).events
          = st.events ++ [Event.define tk tb ⟨.Variable, leaf.name, some declarator,
              some declNode, some i, some kind, false⟩] := by
      by_cases hkind : kind = DeclKind.dvar
      · simp only [if_pos hkind]
        obtain ⟨h1, h2, h3⟩ := defineVar_parts _ st sc rest tk tb herr hstack (hvar hkind)
        exact ⟨h3, h1, h2⟩
      · simp only [if_neg hkind]
        obtain ⟨h1, h2, h3⟩ := defineCur_parts _ st sc rest herr hstack
        obtain ⟨htk, htb⟩ := hcur hkind
        refine ⟨h3, ?_, ?_⟩
        · simp [stackSpine, h1, hstack, spineOf]
        · rw [h2, htk, htb, hk, hb]
    set st1 : State := (if kind = DeclKind.dvar
        then defineVar ⟨.Variable, leaf.name, some declarator, some declNode, some i,
          some kind, false⟩ st
        else defineCur ⟨.Variable, leaf.name, some declarator, some declNode, some i,
          some kind, false⟩ st) with hst1
    obtain ⟨her1, hsp1, hev1⟩ := hd1
    have hsp1c : st1.stack.map spineOf = spineOf sc :: rest.map spineOf := by
      have h2 := hsp1
      simp only [stackSpine] at h2
      rw [h2, hstack]
      simp
    obtain ⟨x1, xs1, hx1, hpx1, hxs1⟩ := cons_of_spine hsp1c
    have hk1 : x1.kind = ck := by
      have := congrArg Prod.fst hpx1
      simpa [spineOf, hk] using this
    have hb1 : x1.block = cb := by
      have := congrArg Prod.snd hpx1
      simpa [spineOf, hb] using this
    obtain ⟨sc2, hs2, he2, her2, hk2, hb2, hstr2⟩ :=
      referencingDefaultValue_parts leaf.name false true leaf.assignments st1 x1 xs1 her1 hx1
    have hsp2 : stackSpine (Referencer.referencingDefaultValue leaf.name leaf.assignments
        false true st1) = stackSpine st := by
      have h2 := hsp1
      simp only [stackSpine] at h2 ⊢
      rw [hs2, ← h2, hx1]
      simp [spineOf, hk2, hb2]
    cases dinit with
    | none =>
      obtain ⟨ihe, ihs, ihev⟩ := ih _ _ xs1 her2 hs2 (hk2.trans hk1) (hb2.trans hb1)
        (fun hkind => by rw [hsp2]; exact hvar hkind) hcur
      refine ⟨ihe, ?_, ?_⟩
      · rw [ihs, hsp2]
      · rw [ihev, he2, hev1]
        simp only [hk1, hb1]
        simp [List.append_assoc, List.flatMap_cons]
    | some e =>
      obtain ⟨hs3, he3, her3⟩ := referencingCur_parts leaf.name .write (some e) false
        (!leaf.topLevel) true _ sc2 xs1 her2 hs2
      have hsp3 : stackSpine (referencingCur (Node.Identifier leaf.name) .write (some e)
          false (!leaf.topLevel) true (Referencer.referencingDefaultValue leaf.name
            leaf.assignments false true st1)) = stackSpine st := by
        have h2 := hsp2
        simp only [stackSpine] at h2 ⊢
        rw [hs3, ← h2, hs2]
        simp [spineOf]
      obtain ⟨ihe, ihs, ihev⟩ := ih _ _ xs1 her3 hs3 (by simp [hk2.trans hk1])
        (by simp [hb2.trans hb1]) (fun hkind => by rw [hsp3]; exact hvar hkind) hcur
      refine ⟨ihe, ?_, ?_⟩
      · rw [ihs, hsp3]
      · rw [ihev, he3, he2, hev1]
        simp only [hk1, hb1, hk2, hb2]
        simp [List.append_assoc, List.flatMap_cons]

theorem blocks_le_of_spine_eq {m : Nat} {st st2 : State}
    (hsp : stackSpine st2 = stackSpine st)
    (h : ∀ s ∈ st.stack, m ≤ sizeOf s.block) :
    ∀ s ∈ st2.stack, m ≤ sizeOf s.block := by
  intro s2 hs2
  have hmem : spineOf s2 ∈ stackSpine st := by
    rw [← hsp]
    exact List.mem_map_of_mem spineOf hs2
  simp only [stackSpine, List.mem_map] at hmem
  obtain ⟨s, hs, hspeq⟩ := hmem
  have hblock : s.block = s2.block := congrArg Prod.snd hspeq
  rw [← hblock]
  exact h s hs

theorem paramDefines_nil_of_no_define (fnode : Node) :
    ∀ (ev : List Event), (∀ e ∈ ev, ∀ k b d, e ≠ Event.define k b d) →
      paramDefines fnode ev = [] := by
  intro ev
  induction ev with
  | nil => intro _; rfl
  | cons e rest ih =>
    intro h
    have hrest := ih (fun x hx => h x (by simp [hx]))
    cases e with
    | define k b d => exact absurd rfl (h _ (by simp) k b d)
    | nest k b => simp [paramDefines] at hrest ⊢; exact hrest
    | reference k b r => simp [paramDefines] at hrest ⊢; exact hrest
    | close k b => simp [paramDefines] at hrest ⊢; exact hrest

theorem variableDefines_nil_of_no_define (declNode : Node) :
    ∀ (ev : List Event), (∀ e ∈ ev, ∀ k b d, e ≠ Event.define k b d) →
      variableDefines declNode ev = [] := by
  intro ev
  induction ev with
  | nil => intro _; rfl
  | cons e rest ih =>
    intro h
    have hrest := ih (fun x hx => h x (by simp [hx]))
    cases e with
    | define k b d => exact absurd rfl (h _ (by simp) k b d)
    | nest k b => simp [variableDefines] at hrest ⊢; exact hrest
    | reference k b r => simp [variableDefines] at hrest ⊢; exact hrest
    | close k b => simp [variableDefines] at hrest ⊢; exact hrest

theorem paramDefines_cons_ref (fnode : Node) (k : ScopeKind) (b : Node) (r : Reference)
    (l : List Event) :
    paramDefines fnode (Event.reference k b r :: l) = paramDefines fnode l := by
  simp [paramDefines]

theorem paramDefines_leafBlock (fnode : Node) (k : ScopeKind) (b : Node) (i : Nat) :
    ∀ (leaves : List LeafInfo),
      paramDefines fnode (leaves.flatMap (fun leaf =>
          Event.define k b
            ⟨.Parameter, leaf.name, some fnode, none, some i, none, leaf.isRest⟩
          :: leaf.assignments.map (fun a =>
            Event.reference k b
              ⟨leaf.name, .write, some a.right, false,
                !(decide (a.left = Node.Identifier leaf.name)), true⟩)))
        = leaves.map (fun leaf =>
            (k, b, (⟨.Parameter, leaf.name, some fnode, none, some i, none,
              leaf.isRest⟩ : Definition))) := by
  intro leaves
  induction leaves with
  | nil => rfl
  | cons leaf rest ih =>
    simp only [List.flatMap_cons, List.cons_append, List.map_cons]
    rw [show ∀ (l : List Event), paramDefines fnode (Event.define k b
        (⟨.Parameter, leaf.name, some fnode, none, some i, none,
          leaf.isRest⟩ : Definition) :: l)
        = (k, b, (⟨.Parameter, leaf.name, some fnode, none, some i, none,
            leaf.isRest⟩ : Definition)) :: paramDefines fnode l from
      fun l => by simp [paramDefines]]
    rw [paramDefines_append]
    rw [paramDefines_nil_of_no_define fnode (leaf.assignments.map (fun a =>
        Event.reference k b
          ⟨leaf.name, .write, some a.right, false,
            !(decide (a.left = Node.Identifier leaf.name)), true⟩)) ?_]
    · rw [ih]
      simp
    · intro e he k2 b2 d2
      simp only [List.mem_map] at he
      obtain ⟨a, -, ha⟩ := he
      rw [← ha]
      simp

open Referencer in
theorem visitParams_defines (fl : Flags) (fnode : Node) :
    ∀ (ps : List Node) (i : Nat) (st : State) (sc : Scope) (rest : List Scope),
      st.err = none →
      st.stack = sc :: rest →
      sc.kind = ScopeKind.functionScope →
      sc.block = fnode →
      sizeOf ps ≤ sizeOf fnode →
      (∀ s ∈ st.stack, sizeOf fnode ≤ sizeOf s.block) →
      (visitParams fl fnode i ps st).err = none →
      paramDefines fnode ((visitParams fl fnode i ps st).events)
        = paramDefines fnode st.events ++ paramExpected fnode i ps
      ∧ stackSpine (visitParams fl fnode i ps st) = stackSpine st := by
  intro ps
  induction ps with
  | nil =>
    intro i st sc rest herr hstack hk hb hsz hblocks herrF
    simp [visitParams, paramExpected]
  | cons p rest2 ih =>
    intro i st sc rest herr hstack hk hb hsz hblocks herrF
    simp only [visitParams] at herrF ⊢
    have hszc : sizeOf (p :: rest2) = 1 + sizeOf p + sizeOf rest2 := by simp
    have hrp := patternRHS_size p
    obtain ⟨sc2, hs1, he1, her1, hk2, hb2, hstr2⟩ :=
      paramLeafDefs_run fnode i (patternLeaves p) st sc rest herr hstack
    set st1 : State := Referencer.paramLeafDefs fnode i (patternLeaves p) st with hst1
    set st2 : State := visitList fl (patternRHS p) st1 with hst2
    have her3 : (visitParams fl fnode (i + 1) rest2 st2).err = none := herrF
    have her2 : st2.err = none := VisOK.err_back (visitParams_master fl fnode (i + 1) rest2 st2) her3
    have hsp1 : stackSpine st1 = stackSpine st := by
      simp only [stackSpine, hs1, hstack, List.map_cons]
      simp [spineOf, hk2, hb2]
    have hblocks1 : ∀ s ∈ st1.stack, sizeOf fnode ≤ sizeOf s.block :=
      blocks_le_of_spine_eq hsp1 hblocks
    have hsp2 : stackSpine st2 = stackSpine st1 := by
      refine visitList_spine fl (patternRHS p) st1 ?_ her2
      intro s hs
      have := hblocks1 s hs
      omega
    obtain ⟨x2, xs2, hx2, hpx2, hxs2⟩ := cons_of_spine (show st2.stack.map spineOf
        = spineOf sc :: rest.map spineOf by
      have h2 := hsp2.trans hsp1
      simp only [stackSpine, hstack, List.map_cons] at h2
      exact h2)
    have hk3 : x2.kind = ScopeKind.functionScope := by
      have := congrArg Prod.fst hpx2
      simpa [spineOf, hk] using this
    have hb3 : x2.block = fnode := by
      have := congrArg Prod.snd hpx2
      simpa [spineOf, hb] using this
    have hblocks2 : ∀ s ∈ st2.stack, sizeOf fnode ≤ sizeOf s.block :=
      blocks_le_of_spine_eq (hsp2.trans hsp1) hblocks
    obtain ⟨ihp, ihsp⟩ := ih (i + 1) st2 x2 xs2 her2 hx2 hk3 hb3 (by omega) hblocks2 her3
    obtain ⟨ev2, hev2, hbd2⟩ := visitList_events fl (patternRHS p) st1
    rw [← hst2] at hev2
    constructor
    · rw [ihp, hev2, he1]
      rw [paramDefines_append, paramDefines_append]
      rw [paramDefines_nil_of_bound fnode (by omega) ev2 hbd2]
      rw [hk, hb] at *
      rw [paramDefines_leafBlock]
      simp [paramExpected, List.append_assoc]
    · rw [ihsp, hsp2, hsp1]

theorem variableDefines_leafBlock (declNode declarator : Node) (kind : DeclKind)
    (tk : ScopeKind) (tb : Node) (ck : ScopeKind) (cb : Node) (i : Nat)
    (dinit : Option Node) :
    ∀ (leaves : List LeafInfo),
      variableDefines declNode (leaves.flatMap (fun leaf =>
          Event.define tk tb
            ⟨.Variable, leaf.name, some declarator, some declNode, some i, some kind, false⟩
          :: ((leaf.assignments.map fun a =>
                Event.reference ck cb ⟨leaf.name, .write, some a.right, false,
                  !(decide (a.left = Node.Identifier leaf.name)), true⟩)
              ++ (dinit.map (fun e => Event.reference ck cb
                    ⟨leaf.name, .write, some e, false, !leaf.topLevel, true⟩)).toList)))
        = leaves.map (fun leaf =>
            (tk, tb, (⟨.Variable, leaf.name, some declarator, some declNode, some i,
              some kind, false⟩ : Definition))) := by
  intro leaves
  induction leaves with
  | nil => rfl
  | cons leaf rest ih =>
    simp only [List.flatMap_cons, List.cons_append, List.map_cons]
    rw [show ∀ (l : List Event), variableDefines declNode (Event.define tk tb
        (⟨.Variable, leaf.name, some declarator, some declNode, some i,
          some kind, false⟩ : Definition) :: l)
        = (tk, tb, (⟨.Variable, leaf.name, some declarator, some declNode, some i,
            some kind, false⟩ : Definition)) :: variableDefines declNode l from
      fun l => by simp [variableDefines]]
    rw [variableDefines_append, variableDefines_append]
    rw [variableDefines_nil_of_no_define declNode (leaf.assignments.map (fun a =>
        Event.reference ck cb ⟨leaf.name, .write, some a.right, false,
          !(decide (a.left = Node.Identifier leaf.name)), true⟩)) ?_]
    · rw [show variableDefines declNode ((dinit.map (fun e => Event.reference ck cb
          ⟨leaf.name, .write, some e, false, !leaf.topLevel, true⟩)).toList) = [] from by
        cases dinit <;> simp [variableDefines]]
      rw [ih]
      simp
    · intro e he k2 b2 d2
      simp only [List.mem_map] at he
      obtain ⟨a, -, ha⟩ := he
      rw [← ha]
      simp

open Referencer in
theorem visitDecls_defines (fl : Flags) (declNode : Node) (kind : DeclKind)
    (tk : ScopeKind) (tb : Node) (ck : ScopeKind) (cb : Node) :
    ∀ (ds : List Node) (i : Nat) (st : State) (sc : Scope) (rest : List Scope),
      st.err = none →
      st.stack = sc :: rest →
      sc.kind = ck →
      sc.block = cb →
      (kind = DeclKind.dvar → varScopeSpine (stackSpine st) = some (tk, tb)) →
      (¬kind = DeclKind.dvar → tk = ck ∧ tb = cb) →
      sizeOf ds ≤ sizeOf declNode →
      (∀ s ∈ st.stack, sizeOf declNode ≤ sizeOf s.block) →
      (visitDecls fl declNode kind i ds st).err = none →
      variableDefines declNode ((visitDecls fl declNode kind i ds st).events)
        = variableDefines declNode st.events ++ declExpected tk tb declNode kind i ds
      ∧ stackSpine (visitDecls fl declNode kind i ds st) = stackSpine st := by
  intro ds
  induction ds with
  | nil =>
    intro i st sc rest herr hstack hk hb hvar hcur hsz hblocks herrF
    simp [visitDecls, declExpected]
  | cons d rest2 ih =>
    intro i st sc rest herr hstack hk hb hvar hcur hsz hblocks herrF
    cases d with
    | VariableDeclarator did dinit =>
      cases dinit with
        | some e =>
          simp only [Referencer.visitDecls] at herrF ⊢
          have hszc : sizeOf ((Node.VariableDeclarator did (some e)) :: rest2)
              = 1 + sizeOf (Node.VariableDeclarator did (some e)) + sizeOf rest2 := by simp
          have hdd : 1 + sizeOf did + 1 + sizeOf e ≤ sizeOf (Node.VariableDeclarator did (some e)) := by
            simp <;> omega
          have hrp := patternRHS_size did
          obtain ⟨her1, hsp1, hev1⟩ := declLeafDefs_run (Node.VariableDeclarator did (some e))
            declNode kind i (some e) tk tb ck cb (patternLeaves did) st sc rest herr hstack
            hk hb hvar hcur
          set st1 : State := Referencer.declLeafDefs (Node.VariableDeclarator did (some e))
            declNode kind i (some e) (patternLeaves did) st with hst1
          set st2 : State := visitList fl (patternRHS did) st1 with hst2
          set st3 : State := visit fl e st2 with hst3
          have her4 : (visitDecls fl declNode kind (i + 1) rest2 st3).err = none := herrF
          have her3 : st3.err = none :=
            VisOK.err_back (visitDecls_master fl declNode kind (i + 1) rest2 st3) her4
          have her2 : st2.err = none := visit_err_back fl e st2 her3
          have hblocks1 : ∀ s ∈ st1.stack, sizeOf declNode ≤ sizeOf s.block :=
            blocks_le_of_spine_eq hsp1 hblocks
          have hsp2 : stackSpine st2 = stackSpine st1 := by
            refine visitList_spine fl (patternRHS did) st1 ?_ her2
            intro s hs
            have := hblocks1 s hs
            omega
          have hblocks2 : ∀ s ∈ st2.stack, sizeOf declNode ≤ sizeOf s.block :=
            blocks_le_of_spine_eq (hsp2.trans hsp1) hblocks
          have hsp3 : stackSpine st3 = stackSpine st2 := by
            refine visit_spine fl e st2 ?_ her3
            intro s hs
            have := hblocks2 s hs
            omega
          have hspall : stackSpine st3 = stackSpine st := (hsp3.trans hsp2).trans hsp1
          obtain ⟨x3, xs3, hx3, hpx3, hxs3⟩ := cons_of_spine (show st3.stack.map spineOf
              = spineOf sc :: rest.map spineOf by
            have h2 := hspall
            simp only [stackSpine, hstack, List.map_cons] at h2
            exact h2)
          have hk3 : x3.kind = ck := by
            have := congrArg Prod.fst hpx3
            simpa [spineOf, hk] using this
          have hb3 : x3.block = cb := by
            have := congrArg Prod.snd hpx3
            simpa [spineOf, hb] using this
          have hvar3 : kind = DeclKind.dvar →
              varScopeSpine (stackSpine st3) = some (tk, tb) := by
            intro hkind
            rw [hspall]
            exact hvar hkind
          obtain ⟨ihd, ihsp⟩ := ih (i + 1) st3 x3 xs3 her3 hx3 hk3 hb3 hvar3 hcur
            (by omega) (blocks_le_of_spine_eq hspall hblocks) her4
          obtain ⟨ev2, hev2, hbd2⟩ := visitList_events fl (patternRHS did) st1
          rw [← hst2] at hev2
          obtain ⟨ev3, hev3, hbd3⟩ := visit_events fl e st2
          rw [← hst3] at hev3
          constructor
          · rw [ihd, hev3, hev2, hev1]
            rw [variableDefines_append, variableDefines_append, variableDefines_append]
            rw [variableDefines_nil_of_bound declNode (by omega) ev2 hbd2]
            rw [variableDefines_nil_of_bound declNode (by omega) ev3 hbd3]
            rw [variableDefines_leafBlock]
            simp [declExpected, List.append_assoc]
          · rw [ihsp, hspall]
        | none =>
          simp only [Referencer.visitDecls] at herrF ⊢
          have hszc : sizeOf ((Node.VariableDeclarator did none) :: rest2)
              = 1 + sizeOf (Node.VariableDeclarator did none) + sizeOf rest2 := by simp
          have hdd : 1 + sizeOf did ≤ sizeOf (Node.VariableDeclarator did none) := by
            simp <;> omega
          have hrp := patternRHS_size did
          obtain ⟨her1, hsp1, hev1⟩ := declLeafDefs_run (Node.VariableDeclarator did none)
            declNode kind i none tk tb ck cb (patternLeaves did) st sc rest herr hstack
            hk hb hvar hcur
          set st1 : State := Referencer.declLeafDefs (Node.VariableDeclarator did none)
            declNode kind i none (patternLeaves did) st with hst1
          set st2 : State := visitList fl (patternRHS did) st1 with hst2
          have her4 : (visitDecls fl declNode kind (i + 1) rest2 st2).err = none := herrF
          have her2 : st2.err = none :=
            VisOK.err_back (visitDecls_master fl declNode kind (i + 1) rest2 st2) her4
          have hblocks1 : ∀ s ∈ st1.stack, sizeOf declNode ≤ sizeOf s.block :=
            blocks_le_of_spine_eq hsp1 hblocks
          have hsp2 : stackSpine st2 = stackSpine st1 := by
            refine visitList_spine fl (patternRHS did) st1 ?_ her2
            intro s hs
            have := hblocks1 s hs
            omega
          have hspall : stackSpine st2 = stackSpine st := hsp2.trans hsp1
          obtain ⟨x3, xs3, hx3, hpx3, hxs3⟩ := cons_of_spine (show st2.stack.map spineOf
              = spineOf sc :: rest.map spineOf by
            have h2 := hspall
            simp only [stackSpine, hstack, List.map_cons] at h2
            exact h2)
          have hk3 : x3.kind = ck := by
            have := congrArg Prod.fst hpx3
            simpa [spineOf, hk] using this
          have hb3 : x3.block = cb := by
            have := congrArg Prod.snd hpx3
            simpa [spineOf, hb] using this
          have hvar3 : kind = DeclKind.dvar →
              varScopeSpine (stackSpine st2) = some (tk, tb) := by
            intro hkind
            rw [hspall]
            exact hvar hkind
          obtain ⟨ihd, ihsp⟩ := ih (i + 1) st2 x3 xs3 her2 hx3 hk3 hb3 hvar3 hcur
            (by omega) (blocks_le_of_spine_eq hspall hblocks) her4
          obtain ⟨ev2, hev2, hbd2⟩ := visitList_events fl (patternRHS did) st1
          rw [← hst2] at hev2
          constructor
          · rw [ihd, hev2, hev1]
            rw [variableDefines_append, variableDefines_append]
            rw [variableDefines_nil_of_bound declNode (by omega) ev2 hbd2]
            rw [variableDefines_leafBlock]
            simp [declExpected, List.append_assoc]
          · rw [ihsp, hspall]
      | Program b2 =>
        simp only [Referencer.visitDecls] at herrF ⊢
        have hszc : sizeOf (Node.Program b2 :: rest2)
            = 1 + sizeOf (Node.Program b2) + sizeOf rest2 := by simp
        obtain ⟨ihd, ihsp⟩ := ih (i + 1) st sc rest herr hstack hk hb hvar hcur (by omega)
          hblocks herrF
        refine ⟨?_, ihsp⟩
        rw [ihd]
        simp [declExpected]
      | Identifier a2 =>
        simp only [Referencer.visitDecls] at herrF ⊢
        have hszc : sizeOf (Node.Identifier a2 :: rest2)
            = 1 + sizeOf (Node.Identifier a2) + sizeOf rest2 := by simp
        obtain ⟨ihd, ihsp⟩ := ih (i + 1) st sc rest herr hstack hk hb hvar hcur (by omega)
          hblocks herrF
        refine ⟨?_, ihsp⟩
        rw [ihd]
        simp [declExpected]
      | Literal v2 =>
        simp only [Referencer.visitDecls] at herrF ⊢
        have hszc : sizeOf (Node.Literal v2 :: rest2)
            = 1 + sizeOf (Node.Literal v2) + sizeOf rest2 := by simp
        obtain ⟨ihd, ihsp⟩ := ih (i + 1) st sc rest herr hstack hk hb hvar hcur (by omega)
          hblocks herrF
        refine ⟨?_, ihsp⟩
        rw [ihd]
        simp [declExpected]
      | ExpressionStatement e2 =>
        simp only [Referencer.visitDecls] at herrF ⊢
        have hszc : sizeOf (Node.ExpressionStatement e2 :: rest2)
            = 1 + sizeOf (Node.ExpressionStatement e2) + sizeOf rest2 := by simp
        obtain ⟨ihd, ihsp⟩ := ih (i + 1) st sc rest herr hstack hk hb hvar hcur (by omega)
          hblocks herrF
        refine ⟨?_, ihsp⟩
        rw [ihd]
        simp [declExpected]
      | BlockStatement b2 =>
        simp only [Referencer.visitDecls] at herrF ⊢
        have hszc : sizeOf (Node.BlockStatement b2 :: rest2)
            = 1 + sizeOf (Node.BlockStatement b2) + sizeOf rest2 := by simp
        obtain ⟨ihd, ihsp⟩ := ih (i + 1) st sc rest herr hstack hk hb hvar hcur (by omega)
          hblocks herrF
        refine ⟨?_, ihsp⟩
        rw [ihd]
        simp [declExpected]
      | FunctionDeclaration a2 b2 c2 =>
        simp only [Referencer.visitDecls] at herrF ⊢
        have hszc : sizeOf (Node.FunctionDeclaration a2 b2 c2 :: rest2)
            = 1 + sizeOf (Node.FunctionDeclaration a2 b2 c2) + sizeOf rest2 := by simp
        obtain ⟨ihd, ihsp⟩ := ih (i + 1) st sc rest herr hstack hk hb hvar hcur (by omega)
          hblocks herrF
        refine ⟨?_, ihsp⟩
        rw [ihd]
        simp [declExpected]
      | FunctionExpression a2 b2 c2 =>
        simp only [Referencer.visitDecls] at herrF ⊢
        have hszc : sizeOf (Node.FunctionExpression a2 b2 c2 :: rest2)
            = 1 + sizeOf (Node.FunctionExpression a2 b2 c2) + sizeOf rest2 := by simp
        obtain ⟨ihd, ihsp⟩ := ih (i + 1) st sc rest herr hstack hk hb hvar hcur (by omega)
          hblocks herrF
        refine ⟨?_, ihsp⟩
        rw [ihd]
        simp [declExpected]
      | ArrowFunctionExpression a2 b2 =>
        simp only [Referencer.visitDecls] at herrF ⊢
        have hszc : sizeOf (Node.ArrowFunctionExpression a2 b2 :: rest2)
            = 1 + sizeOf (Node.ArrowFunctionExpression a2 b2) + sizeOf rest2 := by simp
        obtain ⟨ihd, ihsp⟩ := ih (i + 1) st sc rest herr hstack hk hb hvar hcur (by omega)
          hblocks herrF
        refine ⟨?_, ihsp⟩
        rw [ihd]
        simp [declExpected]
      | ClassDeclaration a2 b2 c2 =>
        simp only [Referencer.visitDecls] at herrF ⊢
        have hszc : sizeOf (Node.ClassDeclaration a2 b2 c2 :: rest2)
            = 1 + sizeOf (Node.ClassDeclaration a2 b2 c2) + sizeOf rest2 := by simp
        obtain ⟨ihd, ihsp⟩ := ih (i + 1) st sc rest herr hstack hk hb hvar hcur (by omega)
          hblocks herrF
        refine ⟨?_, ihsp⟩
        rw [ihd]
        simp [declExpected]
      | ClassExpression a2 b2 c2 =>
        simp only [Referencer.visitDecls] at herrF ⊢
        have hszc : sizeOf (Node.ClassExpression a2 b2 c2 :: rest2)
            = 1 + sizeOf (Node.ClassExpression a2 b2 c2) + sizeOf rest2 := by simp
        obtain ⟨ihd, ihsp⟩ := ih (i + 1) st sc rest herr hstack hk hb hvar hcur (by omega)
          hblocks herrF
        refine ⟨?_, ihsp⟩
        rw [ihd]
        simp [declExpected]
      | VariableDeclaration a2 b2 =>
        simp only [Referencer.visitDecls] at herrF ⊢
        have hszc : sizeOf (Node.VariableDeclaration a2 b2 :: rest2)
            = 1 + sizeOf (Node.VariableDeclaration a2 b2) + sizeOf rest2 := by simp
        obtain ⟨ihd, ihsp⟩ := ih (i + 1) st sc rest herr hstack hk hb hvar hcur (by omega)
          hblocks herrF
        refine ⟨?_, ihsp⟩
        rw [ihd]
        simp [declExpected]
      | AssignmentExpression a2 b2 c2 =>
        simp only [Referencer.visitDecls] at herrF ⊢
        have hszc : sizeOf (Node.AssignmentExpression a2 b2 c2 :: rest2)
            = 1 + sizeOf (Node.AssignmentExpression a2 b2 c2) + sizeOf rest2 := by simp
        obtain ⟨ihd, ihsp⟩ := ih (i + 1) st sc rest herr hstack hk hb hvar hcur (by omega)
          hblocks herrF
        refine ⟨?_, ihsp⟩
        rw [ihd]
        simp [declExpected]
      | ForStatement a2 b2 c2 d2 =>
        simp only [Referencer.visitDecls] at herrF ⊢
        have hszc : sizeOf (Node.ForStatement a2 b2 c2 d2 :: rest2)
            = 1 + sizeOf (Node.ForStatement a2 b2 c2 d2) + sizeOf rest2 := by simp
        obtain ⟨ihd, ihsp⟩ := ih (i + 1) st sc rest herr hstack hk hb hvar hcur (by omega)
          hblocks herrF
        refine ⟨?_, ihsp⟩
        rw [ihd]
        simp [declExpected]
      | ForInStatement a2 b2 c2 =>
        simp only [Referencer.visitDecls] at herrF ⊢
        have hszc : sizeOf (Node.ForInStatement a2 b2 c2 :: rest2)
            = 1 + sizeOf (Node.ForInStatement a2 b2 c2) + sizeOf rest2 := by simp
        obtain ⟨ihd, ihsp⟩ := ih (i + 1) st sc rest herr hstack hk hb hvar hcur (by omega)
          hblocks herrF
        refine ⟨?_, ihsp⟩
        rw [ihd]
        simp [declExpected]
      | ForOfStatement a2 b2 c2 =>
        simp only [Referencer.visitDecls] at herrF ⊢
        have hszc : sizeOf (Node.ForOfStatement a2 b2 c2 :: rest2)
            = 1 + sizeOf (Node.ForOfStatement a2 b2 c2) + sizeOf rest2 := by simp
        obtain ⟨ihd, ihsp⟩ := ih (i + 1) st sc rest herr hstack hk hb hvar hcur (by omega)
          hblocks herrF
        refine ⟨?_, ihsp⟩
        rw [ihd]
        simp [declExpected]
      | ImportDeclaration a2 =>
        simp only [Referencer.visitDecls] at herrF ⊢
        have hszc : sizeOf (Node.ImportDeclaration a2 :: rest2)
            = 1 + sizeOf (Node.ImportDeclaration a2) + sizeOf rest2 := by simp
        obtain ⟨ihd, ihsp⟩ := ih (i + 1) st sc rest herr hstack hk hb hvar hcur (by omega)
          hblocks herrF
        refine ⟨?_, ihsp⟩
        rw [ihd]
        simp [declExpected]
      | ImportSpecifier a2 =>
        simp only [Referencer.visitDecls] at herrF ⊢
        have hszc : sizeOf (Node.ImportSpecifier a2 :: rest2)
            = 1 + sizeOf (Node.ImportSpecifier a2) + sizeOf rest2 := by simp
        obtain ⟨ihd, ihsp⟩ := ih (i + 1) st sc rest herr hstack hk hb hvar hcur (by omega)
          hblocks herrF
        refine ⟨?_, ihsp⟩
        rw [ihd]
        simp [declExpected]
      | ArrayPattern a2 =>
        simp only [Referencer.visitDecls] at herrF ⊢
        have hszc : sizeOf (Node.ArrayPattern a2 :: rest2)
            = 1 + sizeOf (Node.ArrayPattern a2) + sizeOf rest2 := by simp
        obtain ⟨ihd, ihsp⟩ := ih (i + 1) st sc rest herr hstack hk hb hvar hcur (by omega)
          hblocks herrF
        refine ⟨?_, ihsp⟩
        rw [ihd]
        simp [declExpected]
      | AssignmentPattern a2 b2 =>
        simp only [Referencer.visitDecls] at herrF ⊢
        have hszc : sizeOf (Node.AssignmentPattern a2 b2 :: rest2)
            = 1 + sizeOf (Node.AssignmentPattern a2 b2) + sizeOf rest2 := by simp
        obtain ⟨ihd, ihsp⟩ := ih (i + 1) st sc rest herr hstack hk hb hvar hcur (by omega)
          hblocks herrF
        refine ⟨?_, ihsp⟩
        rw [ihd]
        simp [declExpected]
      | RestElement a2 =>
        simp only [Referencer.visitDecls] at herrF ⊢
        have hszc : sizeOf (Node.RestElement a2 :: rest2)
            = 1 + sizeOf (Node.RestElement a2) + sizeOf rest2 := by simp
        obtain ⟨ihd, ihsp⟩ := ih (i + 1) st sc rest herr hstack hk hb hvar hcur (by omega)
          hblocks herrF
        refine ⟨?_, ihsp⟩
        rw [ihd]
        simp [declExpected]

open Referencer in
theorem close_err (node : Node) (st : State) :
    (Referencer.close node st).err = st.err := by
  by_cases h : st.err.isSome = true
  · simp [Referencer.close, h]
  · simp only [Referencer.close, h, Bool.false_eq_true, if_false]
    exact (closeFuel_events_err node st.stack.length st).2.1

theorem err_back_of_stepOK {P : Event → Prop} {st st2 : State} (h : StepOK P st st2)
    (h2 : st2.err = none) : st.err = none := by
  cases hh : st.err with
  | none => rfl
  | some msg =>
    rw [h.2.1 msg hh] at h2
    rw [h2] at hh
    exact Option.noConfusion hh

theorem nestScope_run (k : ScopeKind) (block : Node) (st : State) (strict : Bool)
    (h : st.err = none)
    (hs : (match st.stack with | [] => false | s :: _ => s.isStrict) = strict) :
    nestScope k block st = { st with stack := ⟨k, block, strict, [], [], []⟩ :: st.stack, events := st.events ++ [Event.nest k block] } := by
  simp [nestScope, h, ← hs]

theorem nestScope_stack (k : ScopeKind) (b : Node) (st : State) (h : st.err = none) :
    ∃ strict, (nestScope k b st).stack = ⟨k, b, strict, [], [], []⟩ :: st.stack := by
  refine ⟨(match st.stack with | [] => false | s :: _ => s.isStrict), ?_⟩
  simp [nestScope, h]

theorem nestScope_events_none (k : ScopeKind) (b : Node) (st : State) (h : st.err = none) :
    (nestScope k b st).events = st.events ++ [Event.nest k b] := by
  simp [nestScope, h]

/-- C1: (amended) `close(construct)` pops every open scope from the top of the
stack whose owning block is that construct — several in the
FunctionExpressionName-wraps-Function case — and leaves the remaining stack
unchanged; contrary to the claim it raises no error when no scope is open
(the loop guard reads `currentScope()` without the assertion, so it simply
returns), and it never changes the error latch at all. -/
theorem C1_close_scopes (node : Node) (st : State) (h : st.err = none) :
    stackSpine (Referencer.close node st)
      = (stackSpine st).dropWhile (fun p => decide (p.2 = node))
    ∧ (Referencer.close node st).err = none := by
  obtain ⟨h1, h2, -⟩ := close_run node st h
  exact ⟨h1, h2⟩

/-- C1 witness: closing a named function expression pops both the Function
scope and the FunctionExpressionName scope (two scopes for one construct)
and stops at the enclosing Global scope, with no error raised. -/
theorem C1_close_scopes_witness :
    stackSpine (Referencer.close
        (Node.FunctionExpression (some "f") [] (Node.BlockStatement []))
        ⟨[⟨.functionScope, Node.FunctionExpression (some "f") [] (Node.BlockStatement []),
            false, [], [], []⟩,
          ⟨.functionExpressionName,
            Node.FunctionExpression (some "f") [] (Node.BlockStatement []),
            false, [], [], []⟩,
          ⟨.global, Node.Program [Node.FunctionExpression (some "f") []
            (Node.BlockStatement [])], false, [], [], []⟩], [], [], none⟩)
      = [(ScopeKind.global, Node.Program [Node.FunctionExpression (some "f") []
          (Node.BlockStatement [])])]
    ∧ (Referencer.close
        (Node.FunctionExpression (some "f") [] (Node.BlockStatement []))
        ⟨[⟨.functionScope, Node.FunctionExpression (some "f") [] (Node.BlockStatement []),
            false, [], [], []⟩,
          ⟨.functionExpressionName,
            Node.FunctionExpression (some "f") [] (Node.BlockStatement []),
            false, [], [], []⟩,
          ⟨.global, Node.Program [Node.FunctionExpression (some "f") []
            (Node.BlockStatement [])], false, [], [], []⟩], [], [], none⟩).err = none := by
  have h := C1_close_scopes
    (Node.FunctionExpression (some "f") [] (Node.BlockStatement []))
    ⟨[⟨.functionScope, Node.FunctionExpression (some "f") [] (Node.BlockStatement []),
        false, [], [], []⟩,
      ⟨.functionExpressionName,
        Node.FunctionExpression (some "f") [] (Node.BlockStatement []),
        false, [], [], []⟩,
      ⟨.global, Node.Program [Node.FunctionExpression (some "f") []
        (Node.BlockStatement [])], false, [], [], []⟩], [], [], none⟩ rfl
  refine ⟨?_, h.2⟩
  rw [h.1]
  decide

/-- C1 counterexample: invoking `close` with no open scope is a silent no-op:
the state is returned unchanged and the error latch stays clear, refuting the
claim that close "raises an error if it is invoked while no scope is open". -/
theorem C1_no_error_on_empty :
    Referencer.close (Node.Program []) initState = initState
    ∧ (Referencer.close (Node.Program []) initState).err = none := by
  constructor <;> simp [Referencer.close, initState, closeFuel_zero]

open Referencer in
/-- C4: (amended) an `ImportDeclaration` encountered while the analysis is not
in ES6 module mode trips the handler's assertion: the walk latches the
assertion message as its error, and every subsequently visited construct is a
frozen no-op — the whole run is aborted rather than the subtree being skipped. -/
theorem C4_import_assert (fl : Flags) (specs : List Node) (st : State)
    (herr : st.err = none) (hm : (fl.es6 && fl.isModule) = false) :
    (visit fl (Node.ImportDeclaration specs) st).err = some importAssertMsg
    ∧ ∀ (next : Node), visit fl next (visit fl (Node.ImportDeclaration specs) st)
        = visit fl (Node.ImportDeclaration specs) st := by
  simp only [visit, hm, Bool.false_eq_true, if_false]
  have hfail : State.fail
      "ImportDeclaration should appear when the mode is ES6 and in the module context." st
      = { st with err := some importAssertMsg } := by
    simp [State.fail, herr, importAssertMsg]
  rw [hfail]
  have hstep := @stepOK_importSpecifierDefs (sizeOf (Node.ImportDeclaration specs))
    (Node.ImportDeclaration specs) le_rfl specs { st with err := some importAssertMsg }
    (by simp <;> omega)
  have hfrozen := hstep.2.1 importAssertMsg rfl
  rw [hfrozen]
  refine ⟨rfl, ?_⟩
  intro next
  exact (visit_master fl next _).2.1 importAssertMsg rfl

/-- C4 witness: an import declaration outside module mode latches the
assertion message, and a construct visited afterwards leaves the latched
state untouched. -/
theorem C4_import_assert_witness :
    (Referencer.visit ⟨false, false, false, false, false⟩
      (Node.ImportDeclaration []) initState).err = some importAssertMsg
    ∧ Referencer.visit ⟨false, false, false, false, false⟩ (Node.Literal 0)
        (Referencer.visit ⟨false, false, false, false, false⟩
          (Node.ImportDeclaration []) initState)
      = Referencer.visit ⟨false, false, false, false, false⟩
          (Node.ImportDeclaration []) initState :=
  ⟨(C4_import_assert ⟨false, false, false, false, false⟩ [] initState rfl rfl).1,
   (C4_import_assert ⟨false, false, false, false, false⟩ [] initState rfl rfl).2
     (Node.Literal 0)⟩

open Referencer in
/-- C4 counterexample: a program whose first statement is an import
declaration, analyzed outside module mode, ends with the assertion message
latched and an event log holding only the Global-scope nesting: the
expression statement after the import was never processed (no reference
event for `x`), refuting the claim that the condition is "reported" and the
subtree "skipped, without crashing the whole run". -/
theorem C4_crash_counterexample :
    (Referencer.analyze ⟨false, false, false, false, false⟩
        (Node.Program [Node.ImportDeclaration [],
          Node.ExpressionStatement (Node.Identifier "x")])).err = some importAssertMsg
    ∧ (Referencer.analyze ⟨false, false, false, false, false⟩
        (Node.Program [Node.ImportDeclaration [],
          Node.ExpressionStatement (Node.Identifier "x")])).events
      = [Event.nest .global (Node.Program [Node.ImportDeclaration [],
          Node.ExpressionStatement (Node.Identifier "x")])] := by
  constructor <;>
    simp [Referencer.analyze, visit, visitList, Referencer.programSetup, Referencer.close,
      nestScope, closeFuel, initState, State.fail, Referencer.importSpecifierDefs,
      referencingCur, importAssertMsg]

open Referencer in
/-- C6: (amended) the implied-strict hint does not, in general, touch the root
Global scope: `Program` first nests the Global scope (initially non-strict),
optionally forces it non-strict and wraps a Function scope under the Node.js
hint, optionally nests a Module scope in ES6 module mode, and only then sets
the *then-current* scope strict when strict mode is supported and implied.
So the flag lands on the innermost of Global/Function/Module created during
setup, and the root Global scope's flag changes only when no Function or
Module scope was nested. -/
theorem C6_implied_strict (fl : Flags) (node : Node) :
    (Referencer.programSetup fl node initState).stack.map (fun s => (s.kind, s.isStrict))
      = (if fl.es6 && fl.isModule then
          [(ScopeKind.moduleScope, fl.strictModeSupported && fl.impliedStrict)] else [])
        ++ (if fl.nodejsScope then
            [(ScopeKind.functionScope, if fl.es6 && fl.isModule then false
              else fl.strictModeSupported && fl.impliedStrict)] else [])
        ++ [(ScopeKind.global, if fl.nodejsScope || (fl.es6 && fl.isModule) then false
            else fl.strictModeSupported && fl.impliedStrict)] := by
  rcases fl with ⟨e, m, nj, sm, is⟩
  cases e <;> cases m <;> cases nj <;> cases sm <;> cases is <;>
    simp [Referencer.programSetup, nestScope, setCurrentStrict, initState]

/-- C6 counterexample: analyzing an ES6 module under the implied-strict hint,
the hint lands on the Module scope while the root Global scope stays
non-strict — the hint did not change (only) the root scope's flag, refuting
the claim. -/
theorem C6_strict_hint_nonroot :
    (Referencer.programSetup ⟨true, true, false, true, true⟩ (Node.Program [])
        initState).stack.map (fun s => (s.kind, s.isStrict))
      = [(ScopeKind.moduleScope, true), (ScopeKind.global, false)] := by
  simp [Referencer.programSetup, nestScope, setCurrentStrict, initState]

theorem close_events (node : Node) (st : State) :
    ∃ ev, (Referencer.close node st).events = st.events ++ ev := by
  by_cases h : st.err.isSome = true
  · exact ⟨[], by simp [Referencer.close, h]⟩
  · simp only [Referencer.close, h, Bool.false_eq_true, if_false]
    obtain ⟨ev, he, -⟩ := (closeFuel_events_err node st.stack.length st).1
    exact ⟨ev, he⟩

open Referencer in
/-- C5: (amended) for an assignment whose left side is a pattern: under the
plain `=` operator the walk records, per decomposed leaf, one WRITE
reference per enclosing default value (from that default's right side) and
then one WRITE reference from the assignment's right side; the
implicit-global candidate flag on each is set exactly when the current scope
is non-strict, and the leaf write's partial flag when the leaf is not the
root pattern — but, contrary to the claim, the default-value writes are
recorded with the init flag *clear* (`referencingDefaultValue` is called
with `init = false` here), not as initializing writes.  Under a compound
operator a single read-write reference is recorded against the left-hand
name, then the right side is visited.  The event shapes are fixed by
`assignLeafEvents`. -/
theorem C5_assignment_refs (fl : Flags) (op : String) (left rhs : Node) (nm : String)
    (st : State) (sc : Scope) (rest : List Scope)
    (herr : st.err = none) (hstack : st.stack = sc :: rest) :
    (isPattern left = true → ∃ tail,
      (visit fl (Node.AssignmentExpression "=" left rhs) st).events
        = st.events ++ assignLeafEvents sc.kind sc.block sc.isStrict rhs (patternLeaves left)
          ++ tail)
    ∧ (op ≠ "=" → ∃ tail,
      (visit fl (Node.AssignmentExpression op (Node.Identifier nm) rhs) st).events
        = st.events
          ++ Event.reference sc.kind sc.block ⟨nm, .rw, some rhs, false, false, false⟩
            :: tail) := by
  constructor
  · intro hp
    simp only [visit]
    simp only [hp, if_true]
    obtain ⟨refs2, hr⟩ := assignmentLeafRefs_run rhs (patternLeaves left) st sc rest
      herr hstack
    obtain ⟨ev2, hev2, -⟩ := visitList_events fl (patternRHS left)
      (Referencer.assignmentLeafRefs rhs (patternLeaves left) st)
    obtain ⟨ev3, hev3, -⟩ := visit_events fl rhs (visitList fl (patternRHS left)
      (Referencer.assignmentLeafRefs rhs (patternLeaves left) st))
    refine ⟨ev2 ++ ev3, ?_⟩
    rw [hev3, hev2, hr]
    simp [List.append_assoc]
  · intro hop
    simp only [visit]
    rw [show isPattern (Node.Identifier nm) = true from rfl]
    rw [if_pos rfl, if_neg hop]
    obtain ⟨ev3, hev3, -⟩ := visit_events fl rhs
      (referencingCur (Node.Identifier nm) .rw (some rhs) false false false st)
    refine ⟨ev3, ?_⟩
    rw [hev3]
    rw [referencingCur_run nm .rw (some rhs) false false false st sc rest herr hstack]
    simp [List.append_assoc]

open Referencer in
/-- C5 witness: the amended characterization applied to `[x = 1] = 2`-style
input (an assignment pattern with a default) and to a compound `+`
assignment against an identifier, in a single non-strict Global scope. -/
theorem C5_assignment_refs_witness :
    (isPattern (Node.AssignmentPattern (Node.Identifier "x") (Node.Literal 1)) = true →
      ∃ tail,
        (visit ⟨true, false, false, true, false⟩ (Node.AssignmentExpression "="
            (Node.AssignmentPattern (Node.Identifier "x") (Node.Literal 1))
            (Node.Literal 2))
          ⟨[⟨.global, Node.Program [], false, [], [], []⟩], [], [], none⟩).events
        = [] ++ assignLeafEvents ScopeKind.global (Node.Program []) false (Node.Literal 2)
            (patternLeaves (Node.AssignmentPattern (Node.Identifier "x") (Node.Literal 1)))
          ++ tail)
    ∧ ("+" ≠ "=" → ∃ tail,
      (visit ⟨true, false, false, true, false⟩ (Node.AssignmentExpression "+"
          (Node.Identifier "y") (Node.Literal 2))
        ⟨[⟨.global, Node.Program [], false, [], [], []⟩], [], [], none⟩).events
      = [] ++ Event.reference ScopeKind.global (Node.Program [])
          ⟨"y", .rw, some (Node.Literal 2), false, false, false⟩ :: tail) :=
  C5_assignment_refs ⟨true, false, false, true, false⟩ "+"
    (Node.AssignmentPattern (Node.Identifier "x") (Node.Literal 1)) (Node.Literal 2) "y"
    ⟨[⟨.global, Node.Program [], false, [], [], []⟩], [], [], none⟩
    ⟨.global, Node.Program [], false, [], [], []⟩ [] rfl rfl

open Referencer in
/-- C5 counterexample: visiting `[x = 1] = 2`-style input in a non-strict
Global scope records the default-value write of `x` (from the default `1`)
with `refInit = false` — the third-to-last field of the first reference —
refuting the claim that default-value sub-expressions are "recorded as
initializing writes". -/
theorem C5_default_not_init_counterexample :
    (visit ⟨true, false, false, true, false⟩ (Node.AssignmentExpression "="
        (Node.AssignmentPattern (Node.Identifier "x") (Node.Literal 1)) (Node.Literal 2))
      ⟨[⟨.global, Node.Program [], false, [], [], []⟩], [], [], none⟩).events
    = [Event.reference ScopeKind.global (Node.Program [])
        ⟨"x", .write, some (Node.Literal 1), true, false, false⟩,
       Event.reference ScopeKind.global (Node.Program [])
        ⟨"x", .write, some (Node.Literal 2), true, true, false⟩] := by
  simp [visit, visitList, Referencer.assignmentLeafRefs,
    Referencer.referencingDefaultValue, referencingCur, patternLeaves, patternLeavesAux,
    patternRHS, isPattern]

open Referencer in
/-- C10: (amended) for every for-in or for-of statement whose left side is a
variable declaration (any of `var`, `let`, `const`): a For scope is nested
first exactly when the form is block-scoped; the declaration is then
visited; next the handler records one WRITE reference per decomposed leaf
*of the first declarator's pattern* — in the then-current scope (the
enclosing scope for `var`, the fresh For scope otherwise), with the loop's
right side as write source, no implicit-global candidate, and both the
partial and init flags set (`forInDeclEvents` fixes those shapes).  The
referencing step depends only on the first declarator, so declarators after
the first receive no loop write reference from it, and every remaining
event of the run belongs to the right-side visit, the body visit or the
closing of the loop's scopes, each pinned by its own equation. -/
theorem C10_forin_first_declarator (fl : Flags) (did : Node) (dinit : Option Node)
    (k : DeclKind) (ds2 : List Node) (rhs body : Node) (st : State) (sc : Scope)
    (rest : List Scope) (herr : st.err = none) (hstack : st.stack = sc :: rest) :
    ((∀ s ∈ st.stack, sizeOf (Node.ForInStatement (Node.VariableDeclaration k (Node.VariableDeclarator did dinit :: ds2)) rhs body) < sizeOf s.block) →
      (visit fl (Node.ForInStatement (Node.VariableDeclaration k (Node.VariableDeclarator did dinit :: ds2)) rhs body) st).err = none →
      ∃ evDecl evRhs evBody evClose,
        (visit fl (Node.ForInStatement (Node.VariableDeclaration k (Node.VariableDeclarator did dinit :: ds2)) rhs body) st).events
          = st.events ++ (if k = DeclKind.dvar then ([] : List Event) else [Event.nest ScopeKind.forScope (Node.ForInStatement (Node.VariableDeclaration k (Node.VariableDeclarator did dinit :: ds2)) rhs body)])
            ++ evDecl
            ++ forInDeclEvents (if k = DeclKind.dvar then sc.kind else ScopeKind.forScope) (if k = DeclKind.dvar then sc.block else (Node.ForInStatement (Node.VariableDeclaration k (Node.VariableDeclarator did dinit :: ds2)) rhs body)) rhs (patternLeaves did)
            ++ evRhs ++ evBody ++ evClose
        ∧ (visit fl (Node.VariableDeclaration k (Node.VariableDeclarator did dinit :: ds2)) (if k ≠ DeclKind.dvar then nestScope ScopeKind.forScope (Node.ForInStatement (Node.VariableDeclaration k (Node.VariableDeclarator did dinit :: ds2)) rhs body) st else st)).events = (if k ≠ DeclKind.dvar then nestScope ScopeKind.forScope (Node.ForInStatement (Node.VariableDeclaration k (Node.VariableDeclarator did dinit :: ds2)) rhs body) st else st).events ++ evDecl
        ∧ (Referencer.forInDeclLeafRefs rhs (patternLeaves did) (visit fl (Node.VariableDeclaration k (Node.VariableDeclarator did dinit :: ds2)) (if k ≠ DeclKind.dvar then nestScope ScopeKind.forScope (Node.ForInStatement (Node.VariableDeclaration k (Node.VariableDeclarator did dinit :: ds2)) rhs body) st else st))).events
          = (visit fl (Node.VariableDeclaration k (Node.VariableDeclarator did dinit :: ds2)) (if k ≠ DeclKind.dvar then nestScope ScopeKind.forScope (Node.ForInStatement (Node.VariableDeclaration k (Node.VariableDeclarator did dinit :: ds2)) rhs body) st else st)).events
            ++ forInDeclEvents (if k = DeclKind.dvar then sc.kind else ScopeKind.forScope) (if k = DeclKind.dvar then sc.block else (Node.ForInStatement (Node.VariableDeclaration k (Node.VariableDeclarator did dinit :: ds2)) rhs body)) rhs (patternLeaves did)
        ∧ (visit fl rhs (Referencer.forInDeclLeafRefs rhs (patternLeaves did) (visit fl (Node.VariableDeclaration k (Node.VariableDeclarator did dinit :: ds2)) (if k ≠ DeclKind.dvar then nestScope ScopeKind.forScope (Node.ForInStatement (Node.VariableDeclaration k (Node.VariableDeclarator did dinit :: ds2)) rhs body) st else st)))).events = (Referencer.forInDeclLeafRefs rhs (patternLeaves did) (visit fl (Node.VariableDeclaration k (Node.VariableDeclarator did dinit :: ds2)) (if k ≠ DeclKind.dvar then nestScope ScopeKind.forScope (Node.ForInStatement (Node.VariableDeclaration k (Node.VariableDeclarator did dinit :: ds2)) rhs body) st else st))).events ++ evRhs
        ∧ (visit fl body (visit fl rhs (Referencer.forInDeclLeafRefs rhs (patternLeaves did) (visit fl (Node.VariableDeclaration k (Node.VariableDeclarator did dinit :: ds2)) (if k ≠ DeclKind.dvar then nestScope ScopeKind.forScope (Node.ForInStatement (Node.VariableDeclaration k (Node.VariableDeclarator did dinit :: ds2)) rhs body) st else st))))).events = (visit fl rhs (Referencer.forInDeclLeafRefs rhs (patternLeaves did) (visit fl (Node.VariableDeclaration k (Node.VariableDeclarator did dinit :: ds2)) (if k ≠ DeclKind.dvar then nestScope ScopeKind.forScope (Node.ForInStatement (Node.VariableDeclaration k (Node.VariableDeclarator did dinit :: ds2)) rhs body) st else st)))).events ++ evBody
        ∧ (Referencer.close (Node.ForInStatement (Node.VariableDeclaration k (Node.VariableDeclarator did dinit :: ds2)) rhs body) (visit fl body (visit fl rhs (Referencer.forInDeclLeafRefs rhs (patternLeaves did) (visit fl (Node.VariableDeclaration k (Node.VariableDeclarator did dinit :: ds2)) (if k ≠ DeclKind.dvar then nestScope ScopeKind.forScope (Node.ForInStatement (Node.VariableDeclaration k (Node.VariableDeclarator did dinit :: ds2)) rhs body) st else st)))))).events = (visit fl body (visit fl rhs (Referencer.forInDeclLeafRefs rhs (patternLeaves did) (visit fl (Node.VariableDeclaration k (Node.VariableDeclarator did dinit :: ds2)) (if k ≠ DeclKind.dvar then nestScope ScopeKind.forScope (Node.ForInStatement (Node.VariableDeclaration k (Node.VariableDeclarator did dinit :: ds2)) rhs body) st else st))))).events ++ evClose)
    ∧ ((∀ s ∈ st.stack, sizeOf (Node.ForOfStatement (Node.VariableDeclaration k (Node.VariableDeclarator did dinit :: ds2)) rhs body) < sizeOf s.block) →
      (visit fl (Node.ForOfStatement (Node.VariableDeclaration k (Node.VariableDeclarator did dinit :: ds2)) rhs body) st).err = none →
      ∃ evDecl evRhs evBody evClose,
        (visit fl (Node.ForOfStatement (Node.VariableDeclaration k (Node.VariableDeclarator did dinit :: ds2)) rhs body) st).events
          = st.events ++ (if k = DeclKind.dvar then ([] : List Event) else [Event.nest ScopeKind.forScope (Node.ForOfStatement (Node.VariableDeclaration k (Node.VariableDeclarator did dinit :: ds2)) rhs body)])
            ++ evDecl
            ++ forInDeclEvents (if k = DeclKind.dvar then sc.kind else ScopeKind.forScope) (if k = DeclKind.dvar then sc.block else (Node.ForOfStatement (Node.VariableDeclaration k (Node.VariableDeclarator did dinit :: ds2)) rhs body)) rhs (patternLeaves did)
            ++ evRhs ++ evBody ++ evClose
        ∧ (visit fl (Node.VariableDeclaration k (Node.VariableDeclarator did dinit :: ds2)) (if k ≠ DeclKind.dvar then nestScope ScopeKind.forScope (Node.ForOfStatement (Node.VariableDeclaration k (Node.VariableDeclarator did dinit :: ds2)) rhs body) st else st)).events = (if k ≠ DeclKind.dvar then nestScope ScopeKind.forScope (Node.ForOfStatement (Node.VariableDeclaration k (Node.VariableDeclarator did dinit :: ds2)) rhs body) st else st).events ++ evDecl
        ∧ (Referencer.forInDeclLeafRefs rhs (patternLeaves did) (visit fl (Node.VariableDeclaration k (Node.VariableDeclarator did dinit :: ds2)) (if k ≠ DeclKind.dvar then nestScope ScopeKind.forScope (Node.ForOfStatement (Node.VariableDeclaration k (Node.VariableDeclarator did dinit :: ds2)) rhs body) st else st))).events
          = (visit fl (Node.VariableDeclaration k (Node.VariableDeclarator did dinit :: ds2)) (if k ≠ DeclKind.dvar then nestScope ScopeKind.forScope (Node.ForOfStatement (Node.VariableDeclaration k (Node.VariableDeclarator did dinit :: ds2)) rhs body) st else st)).events
            ++ forInDeclEvents (if k = DeclKind.dvar then sc.kind else ScopeKind.forScope) (if k = DeclKind.dvar then sc.block else (Node.ForOfStatement (Node.VariableDeclaration k (Node.VariableDeclarator did dinit :: ds2)) rhs body)) rhs (patternLeaves did)
        ∧ (visit fl rhs (Referencer.forInDeclLeafRefs rhs (patternLeaves did) (visit fl (Node.VariableDeclaration k (Node.VariableDeclarator did dinit :: ds2)) (if k ≠ DeclKind.dvar then nestScope ScopeKind.forScope (Node.ForOfStatement (Node.VariableDeclaration k (Node.VariableDeclarator did dinit :: ds2)) rhs body) st else st)))).events = (Referencer.forInDeclLeafRefs rhs (patternLeaves did) (visit fl (Node.VariableDeclaration k (Node.VariableDeclarator did dinit :: ds2)) (if k ≠ DeclKind.dvar then nestScope ScopeKind.forScope (Node.ForOfStatement (Node.VariableDeclaration k (Node.VariableDeclarator did dinit :: ds2)) rhs body) st else st))).events ++ evRhs
        ∧ (visit fl body (visit fl rhs (Referencer.forInDeclLeafRefs rhs (patternLeaves did) (visit fl (Node.VariableDeclaration k (Node.VariableDeclarator did dinit :: ds2)) (if k ≠ DeclKind.dvar then nestScope ScopeKind.forScope (Node.ForOfStatement (Node.VariableDeclaration k (Node.VariableDeclarator did dinit :: ds2)) rhs body) st else st))))).events = (visit fl rhs (Referencer.forInDeclLeafRefs rhs (patternLeaves did) (visit fl (Node.VariableDeclaration k (Node.VariableDeclarator did dinit :: ds2)) (if k ≠ DeclKind.dvar then nestScope ScopeKind.forScope (Node.ForOfStatement (Node.VariableDeclaration k (Node.VariableDeclarator did dinit :: ds2)) rhs body) st else st)))).events ++ evBody
        ∧ (Referencer.close (Node.ForOfStatement (Node.VariableDeclaration k (Node.VariableDeclarator did dinit :: ds2)) rhs body) (visit fl body (visit fl rhs (Referencer.forInDeclLeafRefs rhs (patternLeaves did) (visit fl (Node.VariableDeclaration k (Node.VariableDeclarator did dinit :: ds2)) (if k ≠ DeclKind.dvar then nestScope ScopeKind.forScope (Node.ForOfStatement (Node.VariableDeclaration k (Node.VariableDeclarator did dinit :: ds2)) rhs body) st else st)))))).events = (visit fl body (visit fl rhs (Referencer.forInDeclLeafRefs rhs (patternLeaves did) (visit fl (Node.VariableDeclaration k (Node.VariableDeclarator did dinit :: ds2)) (if k ≠ DeclKind.dvar then nestScope ScopeKind.forScope (Node.ForOfStatement (Node.VariableDeclaration k (Node.VariableDeclarator did dinit :: ds2)) rhs body) st else st))))).events ++ evClose) := by
  constructor
  · intro hblocks hF
    have hdl : sizeOf (Node.VariableDeclarator did dinit :: ds2) < sizeOf (Node.ForInStatement (Node.VariableDeclaration k (Node.VariableDeclarator did dinit :: ds2)) rhs body) := by simp <;> omega
    simp only [visit, firstDeclaratorId] at hF ⊢
    by_cases hk : k = DeclKind.dvar
    · simp only [if_neg (not_not_intro hk), if_pos hk] at hF ⊢
      rw [close_err] at hF
      have h5 := visit_err_back fl body (visit fl rhs (Referencer.forInDeclLeafRefs rhs (patternLeaves did) (visitDecls fl (Node.VariableDeclaration k (Node.VariableDeclarator did dinit :: ds2)) k 0 (Node.VariableDeclarator did dinit :: ds2) st))) hF
      have h4 := visit_err_back fl rhs (Referencer.forInDeclLeafRefs rhs (patternLeaves did) (visitDecls fl (Node.VariableDeclaration k (Node.VariableDeclarator did dinit :: ds2)) k 0 (Node.VariableDeclarator did dinit :: ds2) st)) h5
      have h2e := err_back_of_stepOK (stepOK_forInDeclLeafRefs (fun _ => True) rhs
        (fun _ _ _ => trivial) (patternLeaves did) (visitDecls fl (Node.VariableDeclaration k (Node.VariableDeclarator did dinit :: ds2)) k 0 (Node.VariableDeclarator did dinit :: ds2) st)) h4
      obtain ⟨evDecl, hevD, -⟩ := (visitDecls_master fl (Node.VariableDeclaration k (Node.VariableDeclarator did dinit :: ds2)) k 0 (Node.VariableDeclarator did dinit :: ds2) st).1
      have hsp : stackSpine (visitDecls fl (Node.VariableDeclaration k (Node.VariableDeclarator did dinit :: ds2)) k 0 (Node.VariableDeclarator did dinit :: ds2) st) = stackSpine st :=
        (visitDecls_master fl (Node.VariableDeclaration k (Node.VariableDeclarator did dinit :: ds2)) k 0 (Node.VariableDeclarator did dinit :: ds2) st).2.2
          (fun s hs => by
            have h1 := hblocks s hs
            omega) h2e
      have hsp2 : ((visitDecls fl (Node.VariableDeclaration k (Node.VariableDeclarator did dinit :: ds2)) k 0 (Node.VariableDeclarator did dinit :: ds2) st)).stack.map spineOf = spineOf sc :: rest.map spineOf := by
        have h2 := hsp
        simp only [stackSpine, hstack, List.map_cons] at h2
        exact h2
      obtain ⟨x, xs, hx, hpx, hxs⟩ := cons_of_spine hsp2
      obtain ⟨sc2, hs2, he2, her2b, hk2, hb2, hstr2⟩ := forInDeclLeafRefs_run rhs
        (patternLeaves did) (visitDecls fl (Node.VariableDeclaration k (Node.VariableDeclarator did dinit :: ds2)) k 0 (Node.VariableDeclarator did dinit :: ds2) st) x xs h2e hx
      have hxk : x.kind = sc.kind := by simpa [spineOf] using congrArg Prod.fst hpx
      have hxb : x.block = sc.block := by simpa [spineOf] using congrArg Prod.snd hpx
      rw [hxk, hxb] at he2
      obtain ⟨evRhs, hevR, -⟩ := visit_events fl rhs (Referencer.forInDeclLeafRefs rhs (patternLeaves did) (visitDecls fl (Node.VariableDeclaration k (Node.VariableDeclarator did dinit :: ds2)) k 0 (Node.VariableDeclarator did dinit :: ds2) st))
      obtain ⟨evBody, hevB, -⟩ := visit_events fl body (visit fl rhs (Referencer.forInDeclLeafRefs rhs (patternLeaves did) (visitDecls fl (Node.VariableDeclaration k (Node.VariableDeclarator did dinit :: ds2)) k 0 (Node.VariableDeclarator did dinit :: ds2) st)))
      obtain ⟨evClose2, hevC⟩ := close_events (Node.ForInStatement (Node.VariableDeclaration k (Node.VariableDeclarator did dinit :: ds2)) rhs body) (visit fl body (visit fl rhs (Referencer.forInDeclLeafRefs rhs (patternLeaves did) (visitDecls fl (Node.VariableDeclaration k (Node.VariableDeclarator did dinit :: ds2)) k 0 (Node.VariableDeclarator did dinit :: ds2) st))))
      refine ⟨evDecl, evRhs, evBody, evClose2, ?_, hevD, he2, hevR, hevB, hevC⟩
      rw [hevC, hevB, hevR, he2, hevD]
      simp [List.append_assoc]
    · simp only [if_pos hk, if_neg hk] at hF ⊢
      obtain ⟨strictX, hstk1⟩ := nestScope_stack ScopeKind.forScope (Node.ForInStatement (Node.VariableDeclaration k (Node.VariableDeclarator did dinit :: ds2)) rhs body) st herr
      rw [close_err] at hF
      have h5 := visit_err_back fl body (visit fl rhs (Referencer.forInDeclLeafRefs rhs (patternLeaves did) (visitDecls fl (Node.VariableDeclaration k (Node.VariableDeclarator did dinit :: ds2)) k 0 (Node.VariableDeclarator did dinit :: ds2) (nestScope ScopeKind.forScope (Node.ForInStatement (Node.VariableDeclaration k (Node.VariableDeclarator did dinit :: ds2)) rhs body) st)))) hF
      have h4 := visit_err_back fl rhs (Referencer.forInDeclLeafRefs rhs (patternLeaves did) (visitDecls fl (Node.VariableDeclaration k (Node.VariableDeclarator did dinit :: ds2)) k 0 (Node.VariableDeclarator did dinit :: ds2) (nestScope ScopeKind.forScope (Node.ForInStatement (Node.VariableDeclaration k (Node.VariableDeclarator did dinit :: ds2)) rhs body) st))) h5
      have h2e := err_back_of_stepOK (stepOK_forInDeclLeafRefs (fun _ => True) rhs
        (fun _ _ _ => trivial) (patternLeaves did) (visitDecls fl (Node.VariableDeclaration k (Node.VariableDeclarator did dinit :: ds2)) k 0 (Node.VariableDeclarator did dinit :: ds2) (nestScope ScopeKind.forScope (Node.ForInStatement (Node.VariableDeclaration k (Node.VariableDeclarator did dinit :: ds2)) rhs body) st))) h4
      obtain ⟨evDecl, hevD, -⟩ := (visitDecls_master fl (Node.VariableDeclaration k (Node.VariableDeclarator did dinit :: ds2)) k 0 (Node.VariableDeclarator did dinit :: ds2) (nestScope ScopeKind.forScope (Node.ForInStatement (Node.VariableDeclaration k (Node.VariableDeclarator did dinit :: ds2)) rhs body) st)).1
      have hsp : stackSpine (visitDecls fl (Node.VariableDeclaration k (Node.VariableDeclarator did dinit :: ds2)) k 0 (Node.VariableDeclarator did dinit :: ds2) (nestScope ScopeKind.forScope (Node.ForInStatement (Node.VariableDeclaration k (Node.VariableDeclarator did dinit :: ds2)) rhs body) st)) = stackSpine (nestScope ScopeKind.forScope (Node.ForInStatement (Node.VariableDeclaration k (Node.VariableDeclarator did dinit :: ds2)) rhs body) st) :=
        (visitDecls_master fl (Node.VariableDeclaration k (Node.VariableDeclarator did dinit :: ds2)) k 0 (Node.VariableDeclarator did dinit :: ds2) (nestScope ScopeKind.forScope (Node.ForInStatement (Node.VariableDeclaration k (Node.VariableDeclarator did dinit :: ds2)) rhs body) st)).2.2
          (fun s hs => by
            rw [hstk1] at hs
            rcases List.mem_cons.mp hs with h | h
            · subst h
              exact hdl
            · have h1 := hblocks s h
              omega) h2e
      have hsp2 : ((visitDecls fl (Node.VariableDeclaration k (Node.VariableDeclarator did dinit :: ds2)) k 0 (Node.VariableDeclarator did dinit :: ds2) (nestScope ScopeKind.forScope (Node.ForInStatement (Node.VariableDeclaration k (Node.VariableDeclarator did dinit :: ds2)) rhs body) st))).stack.map spineOf
          = (ScopeKind.forScope, (Node.ForInStatement (Node.VariableDeclaration k (Node.VariableDeclarator did dinit :: ds2)) rhs body)) :: st.stack.map spineOf := by
        have h2 := hsp
        rw [nestScope_spine ScopeKind.forScope (Node.ForInStatement (Node.VariableDeclaration k (Node.VariableDeclarator did dinit :: ds2)) rhs body) st herr] at h2
        simpa [stackSpine] using h2
      obtain ⟨x, xs, hx, hpx, hxs⟩ := cons_of_spine hsp2
      obtain ⟨sc2, hs2, he2, her2b, hk2, hb2, hstr2⟩ := forInDeclLeafRefs_run rhs
        (patternLeaves did) (visitDecls fl (Node.VariableDeclaration k (Node.VariableDeclarator did dinit :: ds2)) k 0 (Node.VariableDeclarator did dinit :: ds2) (nestScope ScopeKind.forScope (Node.ForInStatement (Node.VariableDeclaration k (Node.VariableDeclarator did dinit :: ds2)) rhs body) st)) x xs h2e hx
      have hxk : x.kind = ScopeKind.forScope := by
        simpa [spineOf] using congrArg Prod.fst hpx
      have hxb : x.block = (Node.ForInStatement (Node.VariableDeclaration k (Node.VariableDeclarator did dinit :: ds2)) rhs body) := by
        simpa [spineOf] using congrArg Prod.snd hpx
      rw [hxk, hxb] at he2
      obtain ⟨evRhs, hevR, -⟩ := visit_events fl rhs (Referencer.forInDeclLeafRefs rhs (patternLeaves did) (visitDecls fl (Node.VariableDeclaration k (Node.VariableDeclarator did dinit :: ds2)) k 0 (Node.VariableDeclarator did dinit :: ds2) (nestScope ScopeKind.forScope (Node.ForInStatement (Node.VariableDeclaration k (Node.VariableDeclarator did dinit :: ds2)) rhs body) st)))
      obtain ⟨evBody, hevB, -⟩ := visit_events fl body (visit fl rhs (Referencer.forInDeclLeafRefs rhs (patternLeaves did) (visitDecls fl (Node.VariableDeclaration k (Node.VariableDeclarator did dinit :: ds2)) k 0 (Node.VariableDeclarator did dinit :: ds2) (nestScope ScopeKind.forScope (Node.ForInStatement (Node.VariableDeclaration k (Node.VariableDeclarator did dinit :: ds2)) rhs body) st))))
      obtain ⟨evClose2, hevC⟩ := close_events (Node.ForInStatement (Node.VariableDeclaration k (Node.VariableDeclarator did dinit :: ds2)) rhs body) (visit fl body (visit fl rhs (Referencer.forInDeclLeafRefs rhs (patternLeaves did) (visitDecls fl (Node.VariableDeclaration k (Node.VariableDeclarator did dinit :: ds2)) k 0 (Node.VariableDeclarator did dinit :: ds2) (nestScope ScopeKind.forScope (Node.ForInStatement (Node.VariableDeclaration k (Node.VariableDeclarator did dinit :: ds2)) rhs body) st)))))
      refine ⟨evDecl, evRhs, evBody, evClose2, ?_, hevD, he2, hevR, hevB, hevC⟩
      rw [hevC, hevB, hevR, he2, hevD,
        nestScope_events_none ScopeKind.forScope (Node.ForInStatement (Node.VariableDeclaration k (Node.VariableDeclarator did dinit :: ds2)) rhs body) st herr]
  · intro hblocks hF
    have hdl : sizeOf (Node.VariableDeclarator did dinit :: ds2) < sizeOf (Node.ForOfStatement (Node.VariableDeclaration k (Node.VariableDeclarator did dinit :: ds2)) rhs body) := by simp <;> omega
    simp only [visit, firstDeclaratorId] at hF ⊢
    by_cases hk : k = DeclKind.dvar
    · simp only [if_neg (not_not_intro hk), if_pos hk] at hF ⊢
      rw [close_err] at hF
      have h5 := visit_err_back fl body (visit fl rhs (Referencer.forInDeclLeafRefs rhs (patternLeaves did) (visitDecls fl (Node.VariableDeclaration k (Node.VariableDeclarator did dinit :: ds2)) k 0 (Node.VariableDeclarator did dinit :: ds2) st))) hF
      have h4 := visit_err_back fl rhs (Referencer.forInDeclLeafRefs rhs (patternLeaves did) (visitDecls fl (Node.VariableDeclaration k (Node.VariableDeclarator did dinit :: ds2)) k 0 (Node.VariableDeclarator did dinit :: ds2) st)) h5
      have h2e := err_back_of_stepOK (stepOK_forInDeclLeafRefs (fun _ => True) rhs
        (fun _ _ _ => trivial) (patternLeaves did) (visitDecls fl (Node.VariableDeclaration k (Node.VariableDeclarator did dinit :: ds2)) k 0 (Node.VariableDeclarator did dinit :: ds2) st)) h4
      obtain ⟨evDecl, hevD, -⟩ := (visitDecls_master fl (Node.VariableDeclaration k (Node.VariableDeclarator did dinit :: ds2)) k 0 (Node.VariableDeclarator did dinit :: ds2) st).1
      have hsp : stackSpine (visitDecls fl (Node.VariableDeclaration k (Node.VariableDeclarator did dinit :: ds2)) k 0 (Node.VariableDeclarator did dinit :: ds2) st) = stackSpine st :=
        (visitDecls_master fl (Node.VariableDeclaration k (Node.VariableDeclarator did dinit :: ds2)) k 0 (Node.VariableDeclarator did dinit :: ds2) st).2.2
          (fun s hs => by
            have h1 := hblocks s hs
            omega) h2e
      have hsp2 : ((visitDecls fl (Node.VariableDeclaration k (Node.VariableDeclarator did dinit :: ds2)) k 0 (Node.VariableDeclarator did dinit :: ds2) st)).stack.map spineOf = spineOf sc :: rest.map spineOf := by
        have h2 := hsp
        simp only [stackSpine, hstack, List.map_cons] at h2
        exact h2
      obtain ⟨x, xs, hx, hpx, hxs⟩ := cons_of_spine hsp2
      obtain ⟨sc2, hs2, he2, her2b, hk2, hb2, hstr2⟩ := forInDeclLeafRefs_run rhs
        (patternLeaves did) (visitDecls fl (Node.VariableDeclaration k (Node.VariableDeclarator did dinit :: ds2)) k 0 (Node.VariableDeclarator did dinit :: ds2) st) x xs h2e hx
      have hxk : x.kind = sc.kind := by simpa [spineOf] using congrArg Prod.fst hpx
      have hxb : x.block = sc.block := by simpa [spineOf] using congrArg Prod.snd hpx
      rw [hxk, hxb] at he2
      obtain ⟨evRhs, hevR, -⟩ := visit_events fl rhs (Referencer.forInDeclLeafRefs rhs (patternLeaves did) (visitDecls fl (Node.VariableDeclaration k (Node.VariableDeclarator did dinit :: ds2)) k 0 (Node.VariableDeclarator did dinit :: ds2) st))
      obtain ⟨evBody, hevB, -⟩ := visit_events fl body (visit fl rhs (Referencer.forInDeclLeafRefs rhs (patternLeaves did) (visitDecls fl (Node.VariableDeclaration k (Node.VariableDeclarator did dinit :: ds2)) k 0 (Node.VariableDeclarator did dinit :: ds2) st)))
      obtain ⟨evClose2, hevC⟩ := close_events (Node.ForOfStatement (Node.VariableDeclaration k (Node.VariableDeclarator did dinit :: ds2)) rhs body) (visit fl body (visit fl rhs (Referencer.forInDeclLeafRefs rhs (patternLeaves did) (visitDecls fl (Node.VariableDeclaration k (Node.VariableDeclarator did dinit :: ds2)) k 0 (Node.VariableDeclarator did dinit :: ds2) st))))
      refine ⟨evDecl, evRhs, evBody, evClose2, ?_, hevD, he2, hevR, hevB, hevC⟩
      rw [hevC, hevB, hevR, he2, hevD]
      simp [List.append_assoc]
    · simp only [if_pos hk, if_neg hk] at hF ⊢
      obtain ⟨strictX, hstk1⟩ := nestScope_stack ScopeKind.forScope (Node.ForOfStatement (Node.VariableDeclaration k (Node.VariableDeclarator did dinit :: ds2)) rhs body) st herr
      rw [close_err] at hF
      have h5 := visit_err_back fl body (visit fl rhs (Referencer.forInDeclLeafRefs rhs (patternLeaves did) (visitDecls fl (Node.VariableDeclaration k (Node.VariableDeclarator did dinit :: ds2)) k 0 (Node.VariableDeclarator did dinit :: ds2) (nestScope ScopeKind.forScope (Node.ForOfStatement (Node.VariableDeclaration k (Node.VariableDeclarator did dinit :: ds2)) rhs body) st)))) hF
      have h4 := visit_err_back fl rhs (Referencer.forInDeclLeafRefs rhs (patternLeaves did) (visitDecls fl (Node.VariableDeclaration k (Node.VariableDeclarator did dinit :: ds2)) k 0 (Node.VariableDeclarator did dinit :: ds2) (nestScope ScopeKind.forScope (Node.ForOfStatement (Node.VariableDeclaration k (Node.VariableDeclarator did dinit :: ds2)) rhs body) st))) h5
      have h2e := err_back_of_stepOK (stepOK_forInDeclLeafRefs (fun _ => True) rhs
        (fun _ _ _ => trivial) (patternLeaves did) (visitDecls fl (Node.VariableDeclaration k (Node.VariableDeclarator did dinit :: ds2)) k 0 (Node.VariableDeclarator did dinit :: ds2) (nestScope ScopeKind.forScope (Node.ForOfStatement (Node.VariableDeclaration k (Node.VariableDeclarator did dinit :: ds2)) rhs body) st))) h4
      obtain ⟨evDecl, hevD, -⟩ := (visitDecls_master fl (Node.VariableDeclaration k (Node.VariableDeclarator did dinit :: ds2)) k 0 (Node.VariableDeclarator did dinit :: ds2) (nestScope ScopeKind.forScope (Node.ForOfStatement (Node.VariableDeclaration k (Node.VariableDeclarator did dinit :: ds2)) rhs body) st)).1
      have hsp : stackSpine (visitDecls fl (Node.VariableDeclaration k (Node.VariableDeclarator did dinit :: ds2)) k 0 (Node.VariableDeclarator did dinit :: ds2) (nestScope ScopeKind.forScope (Node.ForOfStatement (Node.VariableDeclaration k (Node.VariableDeclarator did dinit :: ds2)) rhs body) st)) = stackSpine (nestScope ScopeKind.forScope (Node.ForOfStatement (Node.VariableDeclaration k (Node.VariableDeclarator did dinit :: ds2)) rhs body) st) :=
        (visitDecls_master fl (Node.VariableDeclaration k (Node.VariableDeclarator did dinit :: ds2)) k 0 (Node.VariableDeclarator did dinit :: ds2) (nestScope ScopeKind.forScope (Node.ForOfStatement (Node.VariableDeclaration k (Node.VariableDeclarator did dinit :: ds2)) rhs body) st)).2.2
          (fun s hs => by
            rw [hstk1] at hs
            rcases List.mem_cons.mp hs with h | h
            · subst h
              exact hdl
            · have h1 := hblocks s h
              omega) h2e
      have hsp2 : ((visitDecls fl (Node.VariableDeclaration k (Node.VariableDeclarator did dinit :: ds2)) k 0 (Node.VariableDeclarator did dinit :: ds2) (nestScope ScopeKind.forScope (Node.ForOfStatement (Node.VariableDeclaration k (Node.VariableDeclarator did dinit :: ds2)) rhs body) st))).stack.map spineOf
          = (ScopeKind.forScope, (Node.ForOfStatement (Node.VariableDeclaration k (Node.VariableDeclarator did dinit :: ds2)) rhs body)) :: st.stack.map spineOf := by
        have h2 := hsp
        rw [nestScope_spine ScopeKind.forScope (Node.ForOfStatement (Node.VariableDeclaration k (Node.VariableDeclarator did dinit :: ds2)) rhs body) st herr] at h2
        simpa [stackSpine] using h2
      obtain ⟨x, xs, hx, hpx, hxs⟩ := cons_of_spine hsp2
      obtain ⟨sc2, hs2, he2, her2b, hk2, hb2, hstr2⟩ := forInDeclLeafRefs_run rhs
        (patternLeaves did) (visitDecls fl (Node.VariableDeclaration k (Node.VariableDeclarator did dinit :: ds2)) k 0 (Node.VariableDeclarator did dinit :: ds2) (nestScope ScopeKind.forScope (Node.ForOfStatement (Node.VariableDeclaration k (Node.VariableDeclarator did dinit :: ds2)) rhs body) st)) x xs h2e hx
      have hxk : x.kind = ScopeKind.forScope := by
        simpa [spineOf] using congrArg Prod.fst hpx
      have hxb : x.block = (Node.ForOfStatement (Node.VariableDeclaration k (Node.VariableDeclarator did dinit :: ds2)) rhs body) := by
        simpa [spineOf] using congrArg Prod.snd hpx
      rw [hxk, hxb] at he2
      obtain ⟨evRhs, hevR, -⟩ := visit_events fl rhs (Referencer.forInDeclLeafRefs rhs (patternLeaves did) (visitDecls fl (Node.VariableDeclaration k (Node.VariableDeclarator did dinit :: ds2)) k 0 (Node.VariableDeclarator did dinit :: ds2) (nestScope ScopeKind.forScope (Node.ForOfStatement (Node.VariableDeclaration k (Node.VariableDeclarator did dinit :: ds2)) rhs body) st)))
      obtain ⟨evBody, hevB, -⟩ := visit_events fl body (visit fl rhs (Referencer.forInDeclLeafRefs rhs (patternLeaves did) (visitDecls fl (Node.VariableDeclaration k (Node.VariableDeclarator did dinit :: ds2)) k 0 (Node.VariableDeclarator did dinit :: ds2) (nestScope ScopeKind.forScope (Node.ForOfStatement (Node.VariableDeclaration k (Node.VariableDeclarator did dinit :: ds2)) rhs body) st))))
      obtain ⟨evClose2, hevC⟩ := close_events (Node.ForOfStatement (Node.VariableDeclaration k (Node.VariableDeclarator did dinit :: ds2)) rhs body) (visit fl body (visit fl rhs (Referencer.forInDeclLeafRefs rhs (patternLeaves did) (visitDecls fl (Node.VariableDeclaration k (Node.VariableDeclarator did dinit :: ds2)) k 0 (Node.VariableDeclarator did dinit :: ds2) (nestScope ScopeKind.forScope (Node.ForOfStatement (Node.VariableDeclaration k (Node.VariableDeclarator did dinit :: ds2)) rhs body) st)))))
      refine ⟨evDecl, evRhs, evBody, evClose2, ?_, hevD, he2, hevR, hevB, hevC⟩
      rw [hevC, hevB, hevR, he2, hevD,
        nestScope_events_none ScopeKind.forScope (Node.ForOfStatement (Node.VariableDeclaration k (Node.VariableDeclarator did dinit :: ds2)) rhs body) st herr]

open Referencer in
/-- C10 witness: the amended characterization applied to `for (var a in r) ;`
in a single Global scope, with both inner side conditions discharged. -/
theorem C10_forin_first_declarator_witness :
    ∃ evDecl evRhs evBody evClose,
        (visit (⟨true, false, false, true, false⟩ : Flags) (Node.ForInStatement (Node.VariableDeclaration DeclKind.dvar (Node.VariableDeclarator (Node.Identifier "a") none :: [])) (Node.Identifier "r") (Node.Literal 0)) (⟨[⟨ScopeKind.global, (Node.Program [Node.ForInStatement (Node.VariableDeclaration DeclKind.dvar (Node.VariableDeclarator (Node.Identifier "a") none :: [])) (Node.Identifier "r") (Node.Literal 0)]), false, [], [], []⟩], [], [], none⟩ : State)).events
          = (⟨[⟨ScopeKind.global, (Node.Program [Node.ForInStatement (Node.VariableDeclaration DeclKind.dvar (Node.VariableDeclarator (Node.Identifier "a") none :: [])) (Node.Identifier "r") (Node.Literal 0)]), false, [], [], []⟩], [], [], none⟩ : State).events ++ (if DeclKind.dvar = DeclKind.dvar then ([] : List Event) else [Event.nest ScopeKind.forScope (Node.ForInStatement (Node.VariableDeclaration DeclKind.dvar (Node.VariableDeclarator (Node.Identifier "a") none :: [])) (Node.Identifier "r") (Node.Literal 0))])
            ++ evDecl
            ++ forInDeclEvents (if DeclKind.dvar = DeclKind.dvar then ScopeKind.global else ScopeKind.forScope) (if DeclKind.dvar = DeclKind.dvar then (Node.Program [Node.ForInStatement (Node.VariableDeclaration DeclKind.dvar (Node.VariableDeclarator (Node.Identifier "a") none :: [])) (Node.Identifier "r") (Node.Literal 0)]) else (Node.ForInStatement (Node.VariableDeclaration DeclKind.dvar (Node.VariableDeclarator (Node.Identifier "a") none :: [])) (Node.Identifier "r") (Node.Literal 0))) (Node.Identifier "r") (patternLeaves (Node.Identifier "a"))
            ++ evRhs ++ evBody ++ evClose
        ∧ (visit (⟨true, false, false, true, false⟩ : Flags) (Node.VariableDeclaration DeclKind.dvar (Node.VariableDeclarator (Node.Identifier "a") none :: [])) (if DeclKind.dvar ≠ DeclKind.dvar then nestScope ScopeKind.forScope (Node.ForInStatement (Node.VariableDeclaration DeclKind.dvar (Node.VariableDeclarator (Node.Identifier "a") none :: [])) (Node.Identifier "r") (Node.Literal 0)) (⟨[⟨ScopeKind.global, (Node.Program [Node.ForInStatement (Node.VariableDeclaration DeclKind.dvar (Node.VariableDeclarator (Node.Identifier "a") none :: [])) (Node.Identifier "r") (Node.Literal 0)]), false, [], [], []⟩], [], [], none⟩ : State) else (⟨[⟨ScopeKind.global, (Node.Program [Node.ForInStatement (Node.VariableDeclaration DeclKind.dvar (Node.VariableDeclarator (Node.Identifier "a") none :: [])) (Node.Identifier "r") (Node.Literal 0)]), false, [], [], []⟩], [], [], none⟩ : State))).events = (if DeclKind.dvar ≠ DeclKind.dvar then nestScope ScopeKind.forScope (Node.ForInStatement (Node.VariableDeclaration DeclKind.dvar (Node.VariableDeclarator (Node.Identifier "a") none :: [])) (Node.Identifier "r") (Node.Literal 0)) (⟨[⟨ScopeKind.global, (Node.Program [Node.ForInStatement (Node.VariableDeclaration DeclKind.dvar (Node.VariableDeclarator (Node.Identifier "a") none :: [])) (Node.Identifier "r") (Node.Literal 0)]), false, [], [], []⟩], [], [], none⟩ : State) else (⟨[⟨ScopeKind.global, (Node.Program [Node.ForInStatement (Node.VariableDeclaration DeclKind.dvar (Node.VariableDeclarator (Node.Identifier "a") none :: [])) (Node.Identifier "r") (Node.Literal 0)]), false, [], [], []⟩], [], [], none⟩ : State)).events ++ evDecl
        ∧ (Referencer.forInDeclLeafRefs (Node.Identifier "r") (patternLeaves (Node.Identifier "a")) (visit (⟨true, false, false, true, false⟩ : Flags) (Node.VariableDeclaration DeclKind.dvar (Node.VariableDeclarator (Node.Identifier "a") none :: [])) (if DeclKind.dvar ≠ DeclKind.dvar then nestScope ScopeKind.forScope (Node.ForInStatement (Node.VariableDeclaration DeclKind.dvar (Node.VariableDeclarator (Node.Identifier "a") none :: [])) (Node.Identifier "r") (Node.Literal 0)) (⟨[⟨ScopeKind.global, (Node.Program [Node.ForInStatement (Node.VariableDeclaration DeclKind.dvar (Node.VariableDeclarator (Node.Identifier "a") none :: [])) (Node.Identifier "r") (Node.Literal 0)]), false, [], [], []⟩], [], [], none⟩ : State) else (⟨[⟨ScopeKind.global, (Node.Program [Node.ForInStatement (Node.VariableDeclaration DeclKind.dvar (Node.VariableDeclarator (Node.Identifier "a") none :: [])) (Node.Identifier "r") (Node.Literal 0)]), false, [], [], []⟩], [], [], none⟩ : State)))).events
          = (visit (⟨true, false, false, true, false⟩ : Flags) (Node.VariableDeclaration DeclKind.dvar (Node.VariableDeclarator (Node.Identifier "a") none :: [])) (if DeclKind.dvar ≠ DeclKind.dvar then nestScope ScopeKind.forScope (Node.ForInStatement (Node.VariableDeclaration DeclKind.dvar (Node.VariableDeclarator (Node.Identifier "a") none :: [])) (Node.Identifier "r") (Node.Literal 0)) (⟨[⟨ScopeKind.global, (Node.Program [Node.ForInStatement (Node.VariableDeclaration DeclKind.dvar (Node.VariableDeclarator (Node.Identifier "a") none :: [])) (Node.Identifier "r") (Node.Literal 0)]), false, [], [], []⟩], [], [], none⟩ : State) else (⟨[⟨ScopeKind.global, (Node.Program [Node.ForInStatement (Node.VariableDeclaration DeclKind.dvar (Node.VariableDeclarator (Node.Identifier "a") none :: [])) (Node.Identifier "r") (Node.Literal 0)]), false, [], [], []⟩], [], [], none⟩ : State))).events
            ++ forInDeclEvents (if DeclKind.dvar = DeclKind.dvar then ScopeKind.global else ScopeKind.forScope) (if DeclKind.dvar = DeclKind.dvar then (Node.Program [Node.ForInStatement (Node.VariableDeclaration DeclKind.dvar (Node.VariableDeclarator (Node.Identifier "a") none :: [])) (Node.Identifier "r") (Node.Literal 0)]) else (Node.ForInStatement (Node.VariableDeclaration DeclKind.dvar (Node.VariableDeclarator (Node.Identifier "a") none :: [])) (Node.Identifier "r") (Node.Literal 0))) (Node.Identifier "r") (patternLeaves (Node.Identifier "a"))
        ∧ (visit (⟨true, false, false, true, false⟩ : Flags) (Node.Identifier "r") (Referencer.forInDeclLeafRefs (Node.Identifier "r") (patternLeaves (Node.Identifier "a")) (visit (⟨true, false, false, true, false⟩ : Flags) (Node.VariableDeclaration DeclKind.dvar (Node.VariableDeclarator (Node.Identifier "a") none :: [])) (if DeclKind.dvar ≠ DeclKind.dvar then nestScope ScopeKind.forScope (Node.ForInStatement (Node.VariableDeclaration DeclKind.dvar (Node.VariableDeclarator (Node.Identifier "a") none :: [])) (Node.Identifier "r") (Node.Literal 0)) (⟨[⟨ScopeKind.global, (Node.Program [Node.ForInStatement (Node.VariableDeclaration DeclKind.dvar (Node.VariableDeclarator (Node.Identifier "a") none :: [])) (Node.Identifier "r") (Node.Literal 0)]), false, [], [], []⟩], [], [], none⟩ : State) else (⟨[⟨ScopeKind.global, (Node.Program [Node.ForInStatement (Node.VariableDeclaration DeclKind.dvar (Node.VariableDeclarator (Node.Identifier "a") none :: [])) (Node.Identifier "r") (Node.Literal 0)]), false, [], [], []⟩], [], [], none⟩ : State))))).events = (Referencer.forInDeclLeafRefs (Node.Identifier "r") (patternLeaves (Node.Identifier "a")) (visit (⟨true, false, false, true, false⟩ : Flags) (Node.VariableDeclaration DeclKind.dvar (Node.VariableDeclarator (Node.Identifier "a") none :: [])) (if DeclKind.dvar ≠ DeclKind.dvar then nestScope ScopeKind.forScope (Node.ForInStatement (Node.VariableDeclaration DeclKind.dvar (Node.VariableDeclarator (Node.Identifier "a") none :: [])) (Node.Identifier "r") (Node.Literal 0)) (⟨[⟨ScopeKind.global, (Node.Program [Node.ForInStatement (Node.VariableDeclaration DeclKind.dvar (Node.VariableDeclarator (Node.Identifier "a") none :: [])) (Node.Identifier "r") (Node.Literal 0)]), false, [], [], []⟩], [], [], none⟩ : State) else (⟨[⟨ScopeKind.global, (Node.Program [Node.ForInStatement (Node.VariableDeclaration DeclKind.dvar (Node.VariableDeclarator (Node.Identifier "a") none :: [])) (Node.Identifier "r") (Node.Literal 0)]), false, [], [], []⟩], [], [], none⟩ : State)))).events ++ evRhs
        ∧ (visit (⟨true, false, false, true, false⟩ : Flags) (Node.Literal 0) (visit (⟨true, false, false, true, false⟩ : Flags) (Node.Identifier "r") (Referencer.forInDeclLeafRefs (Node.Identifier "r") (patternLeaves (Node.Identifier "a")) (visit (⟨true, false, false, true, false⟩ : Flags) (Node.VariableDeclaration DeclKind.dvar (Node.VariableDeclarator (Node.Identifier "a") none :: [])) (if DeclKind.dvar ≠ DeclKind.dvar then nestScope ScopeKind.forScope (Node.ForInStatement (Node.VariableDeclaration DeclKind.dvar (Node.VariableDeclarator (Node.Identifier "a") none :: [])) (Node.Identifier "r") (Node.Literal 0)) (⟨[⟨ScopeKind.global, (Node.Program [Node.ForInStatement (Node.VariableDeclaration DeclKind.dvar (Node.VariableDeclarator (Node.Identifier "a") none :: [])) (Node.Identifier "r") (Node.Literal 0)]), false, [], [], []⟩], [], [], none⟩ : State) else (⟨[⟨ScopeKind.global, (Node.Program [Node.ForInStatement (Node.VariableDeclaration DeclKind.dvar (Node.VariableDeclarator (Node.Identifier "a") none :: [])) (Node.Identifier "r") (Node.Literal 0)]), false, [], [], []⟩], [], [], none⟩ : State)))))).events = (visit (⟨true, false, false, true, false⟩ : Flags) (Node.Identifier "r") (Referencer.forInDeclLeafRefs (Node.Identifier "r") (patternLeaves (Node.Identifier "a")) (visit (⟨true, false, false, true, false⟩ : Flags) (Node.VariableDeclaration DeclKind.dvar (Node.VariableDeclarator (Node.Identifier "a") none :: [])) (if DeclKind.dvar ≠ DeclKind.dvar then nestScope ScopeKind.forScope (Node.ForInStatement (Node.VariableDeclaration DeclKind.dvar (Node.VariableDeclarator (Node.Identifier "a") none :: [])) (Node.Identifier "r") (Node.Literal 0)) (⟨[⟨ScopeKind.global, (Node.Program [Node.ForInStatement (Node.VariableDeclaration DeclKind.dvar (Node.VariableDeclarator (Node.Identifier "a") none :: [])) (Node.Identifier "r") (Node.Literal 0)]), false, [], [], []⟩], [], [], none⟩ : State) else (⟨[⟨ScopeKind.global, (Node.Program [Node.ForInStatement (Node.VariableDeclaration DeclKind.dvar (Node.VariableDeclarator (Node.Identifier "a") none :: [])) (Node.Identifier "r") (Node.Literal 0)]), false, [], [], []⟩], [], [], none⟩ : State))))).events ++ evBody
        ∧ (Referencer.close (Node.ForInStatement (Node.VariableDeclaration DeclKind.dvar (Node.VariableDeclarator (Node.Identifier "a") none :: [])) (Node.Identifier "r") (Node.Literal 0)) (visit (⟨true, false, false, true, false⟩ : Flags) (Node.Literal 0) (visit (⟨true, false, false, true, false⟩ : Flags) (Node.Identifier "r") (Referencer.forInDeclLeafRefs (Node.Identifier "r") (patternLeaves (Node.Identifier "a")) (visit (⟨true, false, false, true, false⟩ : Flags) (Node.VariableDeclaration DeclKind.dvar (Node.VariableDeclarator (Node.Identifier "a") none :: [])) (if DeclKind.dvar ≠ DeclKind.dvar then nestScope ScopeKind.forScope (Node.ForInStatement (Node.VariableDeclaration DeclKind.dvar (Node.VariableDeclarator (Node.Identifier "a") none :: [])) (Node.Identifier "r") (Node.Literal 0)) (⟨[⟨ScopeKind.global, (Node.Program [Node.ForInStatement (Node.VariableDeclaration DeclKind.dvar (Node.VariableDeclarator (Node.Identifier "a") none :: [])) (Node.Identifier "r") (Node.Literal 0)]), false, [], [], []⟩], [], [], none⟩ : State) else (⟨[⟨ScopeKind.global, (Node.Program [Node.ForInStatement (Node.VariableDeclaration DeclKind.dvar (Node.VariableDeclarator (Node.Identifier "a") none :: [])) (Node.Identifier "r") (Node.Literal 0)]), false, [], [], []⟩], [], [], none⟩ : State))))))).events = (visit (⟨true, false, false, true, false⟩ : Flags) (Node.Literal 0) (visit (⟨true, false, false, true, false⟩ : Flags) (Node.Identifier "r") (Referencer.forInDeclLeafRefs (Node.Identifier "r") (patternLeaves (Node.Identifier "a")) (visit (⟨true, false, false, true, false⟩ : Flags) (Node.VariableDeclaration DeclKind.dvar (Node.VariableDeclarator (Node.Identifier "a") none :: [])) (if DeclKind.dvar ≠ DeclKind.dvar then nestScope ScopeKind.forScope (Node.ForInStatement (Node.VariableDeclaration DeclKind.dvar (Node.VariableDeclarator (Node.Identifier "a") none :: [])) (Node.Identifier "r") (Node.Literal 0)) (⟨[⟨ScopeKind.global, (Node.Program [Node.ForInStatement (Node.VariableDeclaration DeclKind.dvar (Node.VariableDeclarator (Node.Identifier "a") none :: [])) (Node.Identifier "r") (Node.Literal 0)]), false, [], [], []⟩], [], [], none⟩ : State) else (⟨[⟨ScopeKind.global, (Node.Program [Node.ForInStatement (Node.VariableDeclaration DeclKind.dvar (Node.VariableDeclarator (Node.Identifier "a") none :: [])) (Node.Identifier "r") (Node.Literal 0)]), false, [], [], []⟩], [], [], none⟩ : State)))))).events ++ evClose :=
  (C10_forin_first_declarator (⟨true, false, false, true, false⟩ : Flags) (Node.Identifier "a") none DeclKind.dvar []
      (Node.Identifier "r") (Node.Literal 0) (⟨[⟨ScopeKind.global, (Node.Program [Node.ForInStatement (Node.VariableDeclaration DeclKind.dvar (Node.VariableDeclarator (Node.Identifier "a") none :: [])) (Node.Identifier "r") (Node.Literal 0)]), false, [], [], []⟩], [], [], none⟩ : State) (⟨ScopeKind.global, (Node.Program [Node.ForInStatement (Node.VariableDeclaration DeclKind.dvar (Node.VariableDeclarator (Node.Identifier "a") none :: [])) (Node.Identifier "r") (Node.Literal 0)]), false, [], [], []⟩ : Scope) [] rfl rfl).1
    (by decide)
    (by simp [visit, visitDecls, Referencer.declLeafDefs, patternLeaves, patternLeavesAux,
      patternLeavesList, defineVar, defineInVarStack, isVariableScopeKind,
      Referencer.referencingDefaultValue, patternRHS, patternRHSList, visitList,
      Referencer.forInDeclLeafRefs, firstDeclaratorId, referencingCur, Referencer.close,
      closeFuel])

open Referencer in
/-- C10 counterexample: in `for (var [a, b] in r) ...` the first declarator's
pattern has two leaves, so the handler records *two* loop write references
(one for `a`, one for `b`), refuting the claim that "exactly one loop write
reference is recorded". -/
theorem C10_two_refs_counterexample :
    (visit ⟨true, false, false, true, false⟩ (Node.ForInStatement
        (Node.VariableDeclaration DeclKind.dvar
          [Node.VariableDeclarator (Node.ArrayPattern
            [Node.Identifier "a", Node.Identifier "b"]) none])
        (Node.Identifier "r") (Node.Literal 0))
      ⟨[⟨.global, Node.Program [], false, [], [], []⟩], [], [], none⟩).events
    = [Event.define ScopeKind.global (Node.Program [])
        ⟨.Variable, "a", some (Node.VariableDeclarator (Node.ArrayPattern
          [Node.Identifier "a", Node.Identifier "b"]) none),
         some (Node.VariableDeclaration DeclKind.dvar
          [Node.VariableDeclarator (Node.ArrayPattern
            [Node.Identifier "a", Node.Identifier "b"]) none]),
         some 0, some DeclKind.dvar, false⟩,
       Event.define ScopeKind.global (Node.Program [])
        ⟨.Variable, "b", some (Node.VariableDeclarator (Node.ArrayPattern
          [Node.Identifier "a", Node.Identifier "b"]) none),
         some (Node.VariableDeclaration DeclKind.dvar
          [Node.VariableDeclarator (Node.ArrayPattern
            [Node.Identifier "a", Node.Identifier "b"]) none]),
         some 0, some DeclKind.dvar, false⟩,
       Event.reference ScopeKind.global (Node.Program [])
        ⟨"a", .write, some (Node.Identifier "r"), false, true, true⟩,
       Event.reference ScopeKind.global (Node.Program [])
        ⟨"b", .write, some (Node.Identifier "r"), false, true, true⟩,
       Event.reference ScopeKind.global (Node.Program [])
        ⟨"r", .read, none, false, false, false⟩] := by
  simp [visit, visitDecls, Referencer.declLeafDefs, patternLeaves, patternLeavesAux,
    patternLeavesList, defineVar, defineInVarStack, isVariableScopeKind,
    Referencer.referencingDefaultValue, patternRHS, patternRHSList, visitList,
    Referencer.forInDeclLeafRefs, firstDeclaratorId, referencingCur, Referencer.close,
    closeFuel]

open Referencer in
/-- C3: for a variable declaration, the scope that receives the declared
bindings is the nearest variable scope (Function/Global/Module) when the
declaration form is `var`, and the current scope itself for the block-scoped
forms; each pattern leaf is defined with Variable kind carrying the
declarator, the declaring statement, the declarator's index and the
declaration qualifier (`declExpected` fixes those definition shapes and the
target scope `(tk, tb)`). -/
theorem C3_variable_declaration_targets (fl : Flags) (kind : DeclKind) (decls : List Node)
    (tk : ScopeKind) (tb : Node) (st : State) (sc : Scope) (rest : List Scope)
    (herr : st.err = none) (hstack : st.stack = sc :: rest)
    (hvar : kind = DeclKind.dvar → varScopeSpine (stackSpine st) = some (tk, tb))
    (hcur : ¬kind = DeclKind.dvar → tk = sc.kind ∧ tb = sc.block)
    (hblocks : ∀ s ∈ st.stack, sizeOf (Node.VariableDeclaration kind decls)
      ≤ sizeOf s.block)
    (herrF : (visit fl (Node.VariableDeclaration kind decls) st).err = none) :
    variableDefines (Node.VariableDeclaration kind decls)
        ((visit fl (Node.VariableDeclaration kind decls) st).events)
      = variableDefines (Node.VariableDeclaration kind decls) st.events
        ++ declExpected tk tb (Node.VariableDeclaration kind decls) kind 0 decls := by
  have hVD : visit fl (Node.VariableDeclaration kind decls) st
      = visitDecls fl (Node.VariableDeclaration kind decls) kind 0 decls st := by
    simp only [visit]
  rw [hVD] at herrF ⊢
  exact (visitDecls_defines fl (Node.VariableDeclaration kind decls) kind tk tb
    sc.kind sc.block decls 0 st sc rest herr hstack rfl rfl hvar hcur
    (by simp <;> omega) hblocks herrF).1

open Referencer in
/-- C3 witness: a block-scoped `let a` declaration in a single Global scope
defines its leaf, with Variable kind, declarator index 0 and the `let`
qualifier, into the current (Global) scope. -/
theorem C3_variable_declaration_targets_witness :
    variableDefines (Node.VariableDeclaration DeclKind.dlet
        [Node.VariableDeclarator (Node.Identifier "a") none])
        ((visit ⟨true, false, false, true, false⟩ (Node.VariableDeclaration DeclKind.dlet
          [Node.VariableDeclarator (Node.Identifier "a") none])
          ⟨[⟨.global, Node.Program [Node.VariableDeclaration DeclKind.dlet
            [Node.VariableDeclarator (Node.Identifier "a") none]], false, [], [], []⟩],
            [], [], none⟩).events)
      = variableDefines (Node.VariableDeclaration DeclKind.dlet
          [Node.VariableDeclarator (Node.Identifier "a") none]) []
        ++ declExpected ScopeKind.global (Node.Program [Node.VariableDeclaration
            DeclKind.dlet [Node.VariableDeclarator (Node.Identifier "a") none]])
          (Node.VariableDeclaration DeclKind.dlet
            [Node.VariableDeclarator (Node.Identifier "a") none]) DeclKind.dlet 0
          [Node.VariableDeclarator (Node.Identifier "a") none] :=
  C3_variable_declaration_targets ⟨true, false, false, true, false⟩ DeclKind.dlet
    [Node.VariableDeclarator (Node.Identifier "a") none] ScopeKind.global
    (Node.Program [Node.VariableDeclaration DeclKind.dlet
      [Node.VariableDeclarator (Node.Identifier "a") none]])
    ⟨[⟨.global, Node.Program [Node.VariableDeclaration DeclKind.dlet
      [Node.VariableDeclarator (Node.Identifier "a") none]], false, [], [], []⟩],
      [], [], none⟩
    ⟨.global, Node.Program [Node.VariableDeclaration DeclKind.dlet
      [Node.VariableDeclarator (Node.Identifier "a") none]], false, [], [], []⟩ []
    rfl rfl (fun h => absurd h (by decide)) (fun _ => ⟨rfl, rfl⟩) (by decide)
    (by simp [visit, visitDecls, Referencer.declLeafDefs, patternLeaves, patternLeavesAux,
      defineCur, Referencer.referencingDefaultValue, patternRHS, visitList])

theorem nestFENS_run (block : Node) (nm : String) (st : State) (strict : Bool)
    (h : st.err = none)
    (hs : (match st.stack with | [] => false | s :: _ => s.isStrict) = strict) :
    nestFunctionExpressionNameScope block nm st = { st with stack := ⟨.functionExpressionName, block, strict, [⟨.FunctionName, nm, some block, none, none, none, false⟩], [], []⟩ :: st.stack, events := st.events ++ [Event.nest .functionExpressionName block] } := by
  simp [nestFunctionExpressionNameScope, h, ← hs]

open Referencer in
/-- C2: for a named function declaration the walk first defines the function's
name, as a FunctionName binding carrying the function node, into the scope
current before any nesting, and only then nests the Function scope; for a
named function expression it first nests the FunctionExpressionName scope
(whose constructor binds the name to the function itself), then the Function
scope.  In both cases, once the run succeeds, the Parameter definitions
carrying the function node are exactly one per pattern leaf of the
parameters, left to right, indexed by parameter position, and every one is
made in the Function scope of that function (`paramExpected` fixes these
shapes). -/
theorem C2_function_name_and_params (fl : Flags) (nm : String) (params : List Node)
    (body : Node) (st : State) (sc : Scope) (rest : List Scope)
    (herr : st.err = none) (hstack : st.stack = sc :: rest)
    (hblocks : ∀ s ∈ st.stack,
      sizeOf (Node.FunctionDeclaration (some nm) params body) < sizeOf s.block) :
    (∃ tail, (visit fl (Node.FunctionDeclaration (some nm) params body) st).events
        = st.events ++ Event.define sc.kind sc.block
            ⟨.FunctionName, nm, some (Node.FunctionDeclaration (some nm) params body),
              none, none, none, false⟩
          :: Event.nest .functionScope (Node.FunctionDeclaration (some nm) params body)
          :: tail)
    ∧ (∃ tail, (visit fl (Node.FunctionExpression (some nm) params body) st).events
        = st.events
          ++ Event.nest .functionExpressionName
              (Node.FunctionExpression (some nm) params body)
          :: Event.nest .functionScope (Node.FunctionExpression (some nm) params body)
          :: tail)
    ∧ ((visit fl (Node.FunctionDeclaration (some nm) params body) st).err = none →
        paramDefines (Node.FunctionDeclaration (some nm) params body)
            ((visit fl (Node.FunctionDeclaration (some nm) params body) st).events)
          = paramDefines (Node.FunctionDeclaration (some nm) params body) st.events
            ++ paramExpected (Node.FunctionDeclaration (some nm) params body) 0 params)
    ∧ ((visit fl (Node.FunctionExpression (some nm) params body) st).err = none →
        paramDefines (Node.FunctionExpression (some nm) params body)
            ((visit fl (Node.FunctionExpression (some nm) params body) st).events)
          = paramDefines (Node.FunctionExpression (some nm) params body) st.events
            ++ paramExpected (Node.FunctionExpression (some nm) params body) 0 params) := by
  set fd : Node := Node.FunctionDeclaration (some nm) params body with hfd
  set fe : Node := Node.FunctionExpression (some nm) params body with hfe
  have hszfd : sizeOf fd = 1 + (1 + sizeOf nm) + sizeOf params + sizeOf body := by
    rw [hfd]
    simp <;> omega
  have hszfe : sizeOf fe = 1 + (1 + sizeOf nm) + sizeOf params + sizeOf body := by
    rw [hfe]
    simp <;> omega
  have hd := defineCur_parts ⟨.FunctionName, nm, some fd, none, none, none, false⟩ st sc
    rest herr hstack
  have hnestd := nestScope_run .functionScope fd
    (defineCur ⟨.FunctionName, nm, some fd, none, none, none, false⟩ st) sc.isStrict
    hd.2.2 (by rw [hd.1])
  have hfens := nestFENS_run fe nm st sc.isStrict herr (by rw [hstack])
  have hneste := nestScope_run .functionScope fe (nestFunctionExpressionNameScope fe nm st)
    sc.isStrict (by rw [nestFENS_err]; exact herr) (by rw [hfens])
  refine ⟨?_, ?_, ?_, ?_⟩
  · obtain ⟨ev4, hev4, -⟩ := (visitParams_master fl fd 0 params (nestScope .functionScope
      fd (defineCur ⟨.FunctionName, nm, some fd, none, none, none, false⟩ st))).1
    obtain ⟨ev5, hev5, -⟩ := (visitFnBody_master fl body (visitParams fl fd 0 params
      (nestScope .functionScope fd
        (defineCur ⟨.FunctionName, nm, some fd, none, none, none, false⟩ st)))).1
    obtain ⟨ev6, hev6⟩ := close_events fd (visitFnBody fl body (visitParams fl fd 0 params
      (nestScope .functionScope fd
        (defineCur ⟨.FunctionName, nm, some fd, none, none, none, false⟩ st))))
    refine ⟨ev4 ++ ev5 ++ ev6, ?_⟩
    rw [hfd]
    simp only [visit]
    rw [← hfd]
    rw [hev6, hev5, hev4, hnestd]
    simp [hd.2.1, List.append_assoc]
  · obtain ⟨ev4, hev4, -⟩ := (visitParams_master fl fe 0 params (nestScope .functionScope
      fe (nestFunctionExpressionNameScope fe nm st))).1
    obtain ⟨ev5, hev5, -⟩ := (visitFnBody_master fl body (visitParams fl fe 0 params
      (nestScope .functionScope fe (nestFunctionExpressionNameScope fe nm st)))).1
    obtain ⟨ev6, hev6⟩ := close_events fe (visitFnBody fl body (visitParams fl fe 0 params
      (nestScope .functionScope fe (nestFunctionExpressionNameScope fe nm st))))
    refine ⟨ev4 ++ ev5 ++ ev6, ?_⟩
    rw [hfe]
    simp only [visit]
    rw [← hfe]
    rw [hev6, hev5, hev4, hneste]
    simp [hfens, List.append_assoc]
  · intro hF
    rw [hfd] at hF
    simp only [visit] at hF
    rw [← hfd] at hF
    rw [close_err] at hF
    have her4 : (visitParams fl fd 0 params (nestScope .functionScope fd
        (defineCur ⟨.FunctionName, nm, some fd, none, none, none, false⟩ st))).err
        = none :=
      VisOK.err_back (visitFnBody_master fl body _) hF
    have hblocks2 : ∀ s ∈ (nestScope .functionScope fd
        (defineCur ⟨.FunctionName, nm, some fd, none, none, none, false⟩ st)).stack,
        sizeOf fd ≤ sizeOf s.block := by
      intro s hs
      rw [hnestd] at hs
      simp only [List.mem_cons] at hs
      rcases hs with rfl | hs
      · exact le_rfl
      · rw [hd.1] at hs
        simp only [List.mem_cons] at hs
        rcases hs with rfl | hs
        · have := hblocks sc (by rw [hstack]; simp)
          simpa using le_of_lt this
        · have := hblocks s (by rw [hstack]; simp [hs])
          exact le_of_lt this
    obtain ⟨hpd, hsp⟩ := visitParams_defines fl fd params 0 (nestScope .functionScope fd
        (defineCur ⟨.FunctionName, nm, some fd, none, none, none, false⟩ st))
      ⟨.functionScope, fd, sc.isStrict, [], [], []⟩
      ((defineCur ⟨.FunctionName, nm, some fd, none, none, none, false⟩ st).stack)
      (by rw [nestScope_err]; exact hd.2.2) (by rw [hnestd]) rfl rfl (by omega)
      hblocks2 her4
    obtain ⟨ev5, hev5, hbd5⟩ := (visitFnBody_master fl body (visitParams fl fd 0 params
      (nestScope .functionScope fd
        (defineCur ⟨.FunctionName, nm, some fd, none, none, none, false⟩ st)))).1
    have her5 : (visitFnBody fl body (visitParams fl fd 0 params
        (nestScope .functionScope fd
          (defineCur ⟨.FunctionName, nm, some fd, none, none, none, false⟩ st)))).err
        = none := hF
    obtain ⟨-, -, ev6, hev6, hcl6⟩ := close_run fd (visitFnBody fl body (visitParams fl fd
      0 params (nestScope .functionScope fd
        (defineCur ⟨.FunctionName, nm, some fd, none, none, none, false⟩ st)))) her5
    rw [hfd]
    simp only [visit]
    rw [← hfd]
    rw [hev6, hev5]
    rw [paramDefines_append, paramDefines_append, hpd]
    rw [show (nestScope .functionScope fd
        (defineCur ⟨.FunctionName, nm, some fd, none, none, none, false⟩ st)).events
        = st.events ++ [Event.define sc.kind sc.block
            ⟨.FunctionName, nm, some fd, none, none, none, false⟩]
          ++ [Event.nest .functionScope fd] from by rw [hnestd]; simp [hd.2.1]]
    rw [paramDefines_append, paramDefines_append]
    rw [paramDefines_nil_of_bound fd (show sizeOf body < sizeOf fd by omega) ev5 hbd5]
    rw [paramDefines_nil_of_no_define fd ev6 (fun e he k b d => by
      obtain ⟨k2, b2, he2⟩ := hcl6 e he
      rw [he2]
      simp)]
    simp [paramDefines]
  · intro hF
    rw [hfe] at hF
    simp only [visit] at hF
    rw [← hfe] at hF
    rw [close_err] at hF
    have her4 : (visitParams fl fe 0 params (nestScope .functionScope fe
        (nestFunctionExpressionNameScope fe nm st))).err = none :=
      VisOK.err_back (visitFnBody_master fl body _) hF
    have hblocks2 : ∀ s ∈ (nestScope .functionScope fe
        (nestFunctionExpressionNameScope fe nm st)).stack,
        sizeOf fe ≤ sizeOf s.block := by
      intro s hs
      rw [hneste] at hs
      simp only [List.mem_cons] at hs
      rcases hs with rfl | hs
      · exact le_rfl
      · rw [hfens] at hs
        simp only [List.mem_cons] at hs
        rcases hs with rfl | hs
        · simp only [hszfe]
          simp
        · have hlt := hblocks s hs
          have : sizeOf fe = sizeOf fd := by omega
          omega
    obtain ⟨hpd, hsp⟩ := visitParams_defines fl fe params 0 (nestScope .functionScope fe
        (nestFunctionExpressionNameScope fe nm st))
      ⟨.functionScope, fe, sc.isStrict, [], [], []⟩
      ((nestFunctionExpressionNameScope fe nm st).stack)
      (by rw [nestScope_err, nestFENS_err]; exact herr) (by rw [hneste]) rfl rfl
      (by omega) hblocks2 her4
    obtain ⟨ev5, hev5, hbd5⟩ := (visitFnBody_master fl body (visitParams fl fe 0 params
      (nestScope .functionScope fe (nestFunctionExpressionNameScope fe nm st)))).1
    have her5 : (visitFnBody fl body (visitParams fl fe 0 params
        (nestScope .functionScope fe (nestFunctionExpressionNameScope fe nm st)))).err
        = none := hF
    obtain ⟨-, -, ev6, hev6, hcl6⟩ := close_run fe (visitFnBody fl body (visitParams fl fe
      0 params (nestScope .functionScope fe (nestFunctionExpressionNameScope fe nm st))))
      her5
    rw [hfe]
    simp only [visit]
    rw [← hfe]
    rw [hev6, hev5]
    rw [paramDefines_append, paramDefines_append, hpd]
    rw [show (nestScope .functionScope fe
        (nestFunctionExpressionNameScope fe nm st)).events
        = st.events ++ [Event.nest .functionExpressionName fe]
          ++ [Event.nest .functionScope fe] from by rw [hneste]; simp [hfens]]
    rw [paramDefines_append, paramDefines_append]
    rw [paramDefines_nil_of_bound fe (show sizeOf body < sizeOf fe by omega) ev5 hbd5]
    rw [paramDefines_nil_of_no_define fe ev6 (fun e he k b d => by
      obtain ⟨k2, b2, he2⟩ := hcl6 e he
      rw [he2]
      simp)]
    simp [paramDefines]

open Referencer in
/-- C2 witness: the characterization applied to `function f(p) {}` (as a
declaration and as an expression) visited inside a single Global scope. -/
theorem C2_function_name_and_params_witness :
    (∃ tail, (visit ⟨true, false, false, true, false⟩ (Node.FunctionDeclaration (some "f") [Node.Identifier "p"] (Node.BlockStatement [])) ⟨[⟨.global, (Node.Program [Node.FunctionDeclaration (some "f") [Node.Identifier "p"] (Node.BlockStatement [])]), false, [], [], []⟩], [], [], none⟩).events
        = [] ++ Event.define ScopeKind.global (Node.Program [Node.FunctionDeclaration (some "f") [Node.Identifier "p"] (Node.BlockStatement [])])
            ⟨.FunctionName, "f", some (Node.FunctionDeclaration (some "f") [Node.Identifier "p"] (Node.BlockStatement [])), none, none, none, false⟩
          :: Event.nest .functionScope (Node.FunctionDeclaration (some "f") [Node.Identifier "p"] (Node.BlockStatement [])) :: tail)
    ∧ (∃ tail, (visit ⟨true, false, false, true, false⟩ (Node.FunctionExpression (some "f") [Node.Identifier "p"] (Node.BlockStatement [])) ⟨[⟨.global, (Node.Program [Node.FunctionDeclaration (some "f") [Node.Identifier "p"] (Node.BlockStatement [])]), false, [], [], []⟩], [], [], none⟩).events
        = [] ++ Event.nest .functionExpressionName (Node.FunctionExpression (some "f") [Node.Identifier "p"] (Node.BlockStatement []))
          :: Event.nest .functionScope (Node.FunctionExpression (some "f") [Node.Identifier "p"] (Node.BlockStatement [])) :: tail)
    ∧ ((visit ⟨true, false, false, true, false⟩ (Node.FunctionDeclaration (some "f") [Node.Identifier "p"] (Node.BlockStatement [])) ⟨[⟨.global, (Node.Program [Node.FunctionDeclaration (some "f") [Node.Identifier "p"] (Node.BlockStatement [])]), false, [], [], []⟩], [], [], none⟩).err = none →
        paramDefines (Node.FunctionDeclaration (some "f") [Node.Identifier "p"] (Node.BlockStatement [])) ((visit ⟨true, false, false, true, false⟩ (Node.FunctionDeclaration (some "f") [Node.Identifier "p"] (Node.BlockStatement [])) ⟨[⟨.global, (Node.Program [Node.FunctionDeclaration (some "f") [Node.Identifier "p"] (Node.BlockStatement [])]), false, [], [], []⟩], [], [], none⟩).events)
          = paramDefines (Node.FunctionDeclaration (some "f") [Node.Identifier "p"] (Node.BlockStatement [])) [] ++ paramExpected (Node.FunctionDeclaration (some "f") [Node.Identifier "p"] (Node.BlockStatement [])) 0 [Node.Identifier "p"])
    ∧ ((visit ⟨true, false, false, true, false⟩ (Node.FunctionExpression (some "f") [Node.Identifier "p"] (Node.BlockStatement [])) ⟨[⟨.global, (Node.Program [Node.FunctionDeclaration (some "f") [Node.Identifier "p"] (Node.BlockStatement [])]), false, [], [], []⟩], [], [], none⟩).err = none →
        paramDefines (Node.FunctionExpression (some "f") [Node.Identifier "p"] (Node.BlockStatement [])) ((visit ⟨true, false, false, true, false⟩ (Node.FunctionExpression (some "f") [Node.Identifier "p"] (Node.BlockStatement [])) ⟨[⟨.global, (Node.Program [Node.FunctionDeclaration (some "f") [Node.Identifier "p"] (Node.BlockStatement [])]), false, [], [], []⟩], [], [], none⟩).events)
          = paramDefines (Node.FunctionExpression (some "f") [Node.Identifier "p"] (Node.BlockStatement [])) [] ++ paramExpected (Node.FunctionExpression (some "f") [Node.Identifier "p"] (Node.BlockStatement [])) 0 [Node.Identifier "p"]) :=
  C2_function_name_and_params ⟨true, false, false, true, false⟩ "f" [Node.Identifier "p"]
    (Node.BlockStatement []) ⟨[⟨.global, (Node.Program [Node.FunctionDeclaration (some "f") [Node.Identifier "p"] (Node.BlockStatement [])]), false, [], [], []⟩], [], [], none⟩ ⟨.global, (Node.Program [Node.FunctionDeclaration (some "f") [Node.Identifier "p"] (Node.BlockStatement [])]), false, [], [], []⟩ [] rfl rfl (by decide)


theorem no_nest_ext_trans {nd : Node} {st1 st2 st3 : State}
    (h12 : ∃ ev, st2.events = st1.events ++ ev ∧ ∀ x ∈ ev, ∀ k, x ≠ Event.nest k nd)
    (h23 : ∃ ev, st3.events = st2.events ++ ev ∧ ∀ x ∈ ev, ∀ k, x ≠ Event.nest k nd) :
    ∃ ev, st3.events = st1.events ++ ev ∧ ∀ x ∈ ev, ∀ k, x ≠ Event.nest k nd := by
  obtain ⟨ev1, he1, hn1⟩ := h12
  obtain ⟨ev2, he2, hn2⟩ := h23
  refine ⟨ev1 ++ ev2, by rw [he2, he1, List.append_assoc], ?_⟩
  intro x hx k
  rcases List.mem_append.1 hx with hx | hx
  · exact hn1 x hx k
  · exact hn2 x hx k

open Referencer in
theorem no_nest_ext_visit (fl : Flags) (e : Node) (nd : Node) (st1 : State)
    (h : sizeOf e < sizeOf nd) :
    ∃ ev, (visit fl e st1).events = st1.events ++ ev
      ∧ ∀ x ∈ ev, ∀ k, x ≠ Event.nest k nd := by
  obtain ⟨ev, he, hb⟩ := visit_events fl e st1
  exact ⟨ev, he, fun x hx k => evBound_no_nest (hb x hx) h⟩

open Referencer in
theorem no_nest_ext_visitList (fl : Flags) (ns : List Node) (nd : Node) (st1 : State)
    (h : sizeOf ns < sizeOf nd) :
    ∃ ev, (visitList fl ns st1).events = st1.events ++ ev
      ∧ ∀ x ∈ ev, ∀ k, x ≠ Event.nest k nd := by
  obtain ⟨ev, he, hb⟩ := visitList_events fl ns st1
  exact ⟨ev, he, fun x hx k => evBound_no_nest (hb x hx) h⟩

open Referencer in
theorem no_nest_ext_visitDecls (fl : Flags) (declNode : Node) (kind : DeclKind) (i : Nat)
    (ds : List Node) (nd : Node) (st1 : State)
    (h : max (sizeOf ds) (sizeOf declNode) < sizeOf nd) :
    ∃ ev, (visitDecls fl declNode kind i ds st1).events = st1.events ++ ev
      ∧ ∀ x ∈ ev, ∀ k, x ≠ Event.nest k nd := by
  obtain ⟨ev, he, hb⟩ := (visitDecls_master fl declNode kind i ds st1).1
  exact ⟨ev, he, fun x hx k => evBound_no_nest (hb x hx) h⟩

open Referencer in
theorem no_nest_ext_close (n2 : Node) (nd : Node) (st1 : State) :
    ∃ ev, (Referencer.close n2 st1).events = st1.events ++ ev
      ∧ ∀ x ∈ ev, ∀ k, x ≠ Event.nest k nd := by
  by_cases h : st1.err.isSome = true
  · exact ⟨[], by simp [Referencer.close, h], by simp⟩
  · simp only [Referencer.close, h, Bool.false_eq_true, if_false]
    obtain ⟨ev, he, hc⟩ := (closeFuel_events_err n2 st1.stack.length st1).1
    refine ⟨ev, he, ?_⟩
    intro x hx k
    obtain ⟨k2, b2, hx2⟩ := hc x hx
    rw [hx2]
    simp

theorem no_nest_ext_of_stepOK {st1 st2 : State} {nd : Node}
    (h : StepOK (fun e => ∃ k b r, e = Event.reference k b r) st1 st2) :
    ∃ ev, st2.events = st1.events ++ ev ∧ ∀ x ∈ ev, ∀ k, x ≠ Event.nest k nd := by
  obtain ⟨ev, he, hr⟩ := h.1
  refine ⟨ev, he, ?_⟩
  intro x hx k
  obtain ⟨k2, b2, r2, hx2⟩ := hr x hx
  rw [hx2]
  simp

theorem nest_iff_of_bounded {nd : Node} {st st1 st2 : State} {c : Prop} [Decidable c]
    (herr : st.err = none)
    (h1 : st1 = if c then nestScope .forScope nd st else st)
    (htail : ∃ ev2, st2.events = st1.events ++ ev2
      ∧ ∀ x ∈ ev2, ∀ k, x ≠ Event.nest k nd) :
    ∃ ev, st2.events = st.events ++ ev ∧ (Event.nest .forScope nd ∈ ev ↔ c) := by
  obtain ⟨ev2, he2, hn2⟩ := htail
  by_cases hc : c
  · rw [if_pos hc] at h1
    refine ⟨Event.nest .forScope nd :: ev2, ?_, by simp [hc]⟩
    rw [he2, h1, nestScope_events_none .forScope nd st herr]
    simp
  · rw [if_neg hc] at h1
    refine ⟨ev2, by rw [he2, h1], ?_⟩
    constructor
    · intro hmem
      exact absurd rfl (hn2 _ hmem .forScope)
    · intro hcc
      exact absurd hcc hc

open Referencer in
/-- C8: a dedicated For scope is nested for a `for`, `for-in` or `for-of`
statement exactly when the loop's init/left position holds a variable
declaration of block-scoped (non-`var`) form; with a `var`-form declaration
(or a non-declaration left side) no For scope is created, and the `var`
declaration's bindings hoist into the nearest enclosing variable scope
(`declExpected` targeted at the `varScopeSpine`). -/
theorem C8_for_scope_condition (fl : Flags) (st : State) (herr : st.err = none) :
    (∀ (finit tst upd : Option Node) (body : Node),
      ∃ ev, (visit fl (Node.ForStatement finit tst upd body) st).events
          = st.events ++ ev
        ∧ (Event.nest .forScope (Node.ForStatement finit tst upd body) ∈ ev
            ↔ forInitNeedsScope finit = true))
    ∧ (∀ (k : DeclKind) (decls : List Node) (rhs body : Node),
      ∃ ev, (visit fl (Node.ForInStatement (Node.VariableDeclaration k decls) rhs body)
          st).events = st.events ++ ev
        ∧ (Event.nest .forScope (Node.ForInStatement (Node.VariableDeclaration k decls)
            rhs body) ∈ ev ↔ ¬k = DeclKind.dvar))
    ∧ (∀ (k : DeclKind) (decls : List Node) (rhs body : Node),
      ∃ ev, (visit fl (Node.ForOfStatement (Node.VariableDeclaration k decls) rhs body)
          st).events = st.events ++ ev
        ∧ (Event.nest .forScope (Node.ForOfStatement (Node.VariableDeclaration k decls)
            rhs body) ∈ ev ↔ ¬k = DeclKind.dvar))
    ∧ (∀ (left rhs body : Node), (∀ k2 d2, left = Node.VariableDeclaration k2 d2 → False) →
      ∃ ev, (visit fl (Node.ForInStatement left rhs body) st).events = st.events ++ ev
        ∧ Event.nest .forScope (Node.ForInStatement left rhs body) ∉ ev)
    ∧ (∀ (left rhs body : Node), (∀ k2 d2, left = Node.VariableDeclaration k2 d2 → False) →
      ∃ ev, (visit fl (Node.ForOfStatement left rhs body) st).events = st.events ++ ev
        ∧ Event.nest .forScope (Node.ForOfStatement left rhs body) ∉ ev)
    ∧ (∀ (vk : ScopeKind) (vb : Node) (decls : List Node) (rhs body : Node)
        (sc : Scope) (rest : List Scope),
        st.stack = sc :: rest →
        varScopeSpine (stackSpine st) = some (vk, vb) →
        (∀ s ∈ st.stack, sizeOf (Node.VariableDeclaration DeclKind.dvar decls)
          ≤ sizeOf s.block) →
        (visitDecls fl (Node.VariableDeclaration DeclKind.dvar decls) DeclKind.dvar 0
          decls st).err = none →
        ∃ evD tail,
          (visit fl (Node.ForInStatement (Node.VariableDeclaration DeclKind.dvar decls)
            rhs body) st).events = st.events ++ evD ++ tail
          ∧ variableDefines (Node.VariableDeclaration DeclKind.dvar decls) evD
            = declExpected vk vb (Node.VariableDeclaration DeclKind.dvar decls)
                DeclKind.dvar 0 decls) := by
  refine ⟨?_, ?_, ?_, ?_, ?_, ?_⟩
  · intro finit tst upd body
    cases finit with
    | some fe =>
      cases tst with
      | some te =>
        cases upd with
        | some ue =>
        simp only [visit]
        refine nest_iff_of_bounded herr rfl ?_
        exact no_nest_ext_trans (no_nest_ext_visit fl fe (Node.ForStatement (some fe) (some te) (some ue) body) _ (by simp <;> omega))
          (no_nest_ext_trans (no_nest_ext_visit fl te (Node.ForStatement (some fe) (some te) (some ue) body) _ (by simp <;> omega))
          (no_nest_ext_trans (no_nest_ext_visit fl ue (Node.ForStatement (some fe) (some te) (some ue) body) _ (by simp <;> omega))
          (no_nest_ext_trans (no_nest_ext_visit fl body (Node.ForStatement (some fe) (some te) (some ue) body) _ (by simp <;> omega))
          (no_nest_ext_close _ (Node.ForStatement (some fe) (some te) (some ue) body) _))))
        | none =>
        simp only [visit]
        refine nest_iff_of_bounded herr rfl ?_
        exact no_nest_ext_trans (no_nest_ext_visit fl fe (Node.ForStatement (some fe) (some te) none body) _ (by simp <;> omega))
          (no_nest_ext_trans (no_nest_ext_visit fl te (Node.ForStatement (some fe) (some te) none body) _ (by simp <;> omega))
          (no_nest_ext_trans (no_nest_ext_visit fl body (Node.ForStatement (some fe) (some te) none body) _ (by simp <;> omega))
          (no_nest_ext_close _ (Node.ForStatement (some fe) (some te) none body) _)))
      | none =>
        cases upd with
        | some ue =>
        simp only [visit]
        refine nest_iff_of_bounded herr rfl ?_
        exact no_nest_ext_trans (no_nest_ext_visit fl fe (Node.ForStatement (some fe) none (some ue) body) _ (by simp <;> omega))
          (no_nest_ext_trans (no_nest_ext_visit fl ue (Node.ForStatement (some fe) none (some ue) body) _ (by simp <;> omega))
          (no_nest_ext_trans (no_nest_ext_visit fl body (Node.ForStatement (some fe) none (some ue) body) _ (by simp <;> omega))
          (no_nest_ext_close _ (Node.ForStatement (some fe) none (some ue) body) _)))
        | none =>
        simp only [visit]
        refine nest_iff_of_bounded herr rfl ?_
        exact no_nest_ext_trans (no_nest_ext_visit fl fe (Node.ForStatement (some fe) none none body) _ (by simp <;> omega))
          (no_nest_ext_trans (no_nest_ext_visit fl body (Node.ForStatement (some fe) none none body) _ (by simp <;> omega))
          (no_nest_ext_close _ (Node.ForStatement (some fe) none none body) _))
    | none =>
      cases tst with
      | some te =>
        cases upd with
        | some ue =>
        simp only [visit]
        refine nest_iff_of_bounded herr rfl ?_
        exact no_nest_ext_trans (no_nest_ext_visit fl te (Node.ForStatement none (some te) (some ue) body) _ (by simp <;> omega))
          (no_nest_ext_trans (no_nest_ext_visit fl ue (Node.ForStatement none (some te) (some ue) body) _ (by simp <;> omega))
          (no_nest_ext_trans (no_nest_ext_visit fl body (Node.ForStatement none (some te) (some ue) body) _ (by simp <;> omega))
          (no_nest_ext_close _ (Node.ForStatement none (some te) (some ue) body) _)))
        | none =>
        simp only [visit]
        refine nest_iff_of_bounded herr rfl ?_
        exact no_nest_ext_trans (no_nest_ext_visit fl te (Node.ForStatement none (some te) none body) _ (by simp <;> omega))
          (no_nest_ext_trans (no_nest_ext_visit fl body (Node.ForStatement none (some te) none body) _ (by simp <;> omega))
          (no_nest_ext_close _ (Node.ForStatement none (some te) none body) _))
      | none =>
        cases upd with
        | some ue =>
        simp only [visit]
        refine nest_iff_of_bounded herr rfl ?_
        exact no_nest_ext_trans (no_nest_ext_visit fl ue (Node.ForStatement none none (some ue) body) _ (by simp <;> omega))
          (no_nest_ext_trans (no_nest_ext_visit fl body (Node.ForStatement none none (some ue) body) _ (by simp <;> omega))
          (no_nest_ext_close _ (Node.ForStatement none none (some ue) body) _))
        | none =>
        simp only [visit]
        refine nest_iff_of_bounded herr rfl ?_
        exact no_nest_ext_trans (no_nest_ext_visit fl body (Node.ForStatement none none none body) _ (by simp <;> omega))
          (no_nest_ext_close _ (Node.ForStatement none none none body) _)
  · -- for-in with a declaration left side
    intro k decls rhs body
    simp only [visit]
    refine nest_iff_of_bounded herr rfl ?_
    cases hfd : firstDeclaratorId decls with
    | some did =>
      exact no_nest_ext_trans (no_nest_ext_visitDecls fl _ k 0 decls (Node.ForInStatement (Node.VariableDeclaration k decls) rhs body) _
          (by refine max_lt ?_ ?_ <;> simp <;> omega))
        (no_nest_ext_trans (no_nest_ext_of_stepOK
          (stepOK_forInDeclLeafRefs _ rhs (fun k2 b2 r2 => ⟨k2, b2, r2, rfl⟩)
            (patternLeaves did) _))
        (no_nest_ext_trans (no_nest_ext_visit fl rhs (Node.ForInStatement (Node.VariableDeclaration k decls) rhs body) _ (by simp <;> omega))
        (no_nest_ext_trans (no_nest_ext_visit fl body (Node.ForInStatement (Node.VariableDeclaration k decls) rhs body) _ (by simp <;> omega))
          (no_nest_ext_close _ (Node.ForInStatement (Node.VariableDeclaration k decls) rhs body) _))))
    | none =>
      exact no_nest_ext_trans (no_nest_ext_visitDecls fl _ k 0 decls (Node.ForInStatement (Node.VariableDeclaration k decls) rhs body) _
          (by refine max_lt ?_ ?_ <;> simp <;> omega))
        (no_nest_ext_trans (no_nest_ext_visit fl rhs (Node.ForInStatement (Node.VariableDeclaration k decls) rhs body) _ (by simp <;> omega))
        (no_nest_ext_trans (no_nest_ext_visit fl body (Node.ForInStatement (Node.VariableDeclaration k decls) rhs body) _ (by simp <;> omega))
          (no_nest_ext_close _ (Node.ForInStatement (Node.VariableDeclaration k decls) rhs body) _)))
  · -- for-of with a declaration left side
    intro k decls rhs body
    simp only [visit]
    refine nest_iff_of_bounded herr rfl ?_
    cases hfd : firstDeclaratorId decls with
    | some did =>
      exact no_nest_ext_trans (no_nest_ext_visitDecls fl _ k 0 decls (Node.ForOfStatement (Node.VariableDeclaration k decls) rhs body) _
          (by refine max_lt ?_ ?_ <;> simp <;> omega))
        (no_nest_ext_trans (no_nest_ext_of_stepOK
          (stepOK_forInDeclLeafRefs _ rhs (fun k2 b2 r2 => ⟨k2, b2, r2, rfl⟩)
            (patternLeaves did) _))
        (no_nest_ext_trans (no_nest_ext_visit fl rhs (Node.ForOfStatement (Node.VariableDeclaration k decls) rhs body) _ (by simp <;> omega))
        (no_nest_ext_trans (no_nest_ext_visit fl body (Node.ForOfStatement (Node.VariableDeclaration k decls) rhs body) _ (by simp <;> omega))
          (no_nest_ext_close _ (Node.ForOfStatement (Node.VariableDeclaration k decls) rhs body) _))))
    | none =>
      exact no_nest_ext_trans (no_nest_ext_visitDecls fl _ k 0 decls (Node.ForOfStatement (Node.VariableDeclaration k decls) rhs body) _
          (by refine max_lt ?_ ?_ <;> simp <;> omega))
        (no_nest_ext_trans (no_nest_ext_visit fl rhs (Node.ForOfStatement (Node.VariableDeclaration k decls) rhs body) _ (by simp <;> omega))
        (no_nest_ext_trans (no_nest_ext_visit fl body (Node.ForOfStatement (Node.VariableDeclaration k decls) rhs body) _ (by simp <;> omega))
          (no_nest_ext_close _ (Node.ForOfStatement (Node.VariableDeclaration k decls) rhs body) _)))
  · -- for-in with a non-declaration left side
    intro left rhs body hnd
    rw [Referencer.visit.eq_32 fl st left rhs body hnd]
    have hrp := patternRHS_size left
    obtain ⟨ev, he, hn⟩ := no_nest_ext_trans (no_nest_ext_of_stepOK
        (stepOK_forInPatternLeafRefs _ rhs (fun k2 b2 r2 => ⟨k2, b2, r2, rfl⟩)
          (patternLeaves left) st))
      (no_nest_ext_trans (no_nest_ext_visitList fl (patternRHS left) (Node.ForInStatement left rhs body) _
        (by simp <;> omega))
      (no_nest_ext_trans (no_nest_ext_visit fl rhs (Node.ForInStatement left rhs body) _ (by simp <;> omega))
      (no_nest_ext_trans (no_nest_ext_visit fl body (Node.ForInStatement left rhs body) _ (by simp <;> omega))
        (no_nest_ext_close _ (Node.ForInStatement left rhs body) _))))
    exact ⟨ev, he, fun hmem => absurd rfl (hn _ hmem .forScope)⟩
  · -- for-of with a non-declaration left side
    intro left rhs body hnd
    rw [Referencer.visit.eq_34 fl st left rhs body hnd]
    have hrp := patternRHS_size left
    obtain ⟨ev, he, hn⟩ := no_nest_ext_trans (no_nest_ext_of_stepOK
        (stepOK_forInPatternLeafRefs _ rhs (fun k2 b2 r2 => ⟨k2, b2, r2, rfl⟩)
          (patternLeaves left) st))
      (no_nest_ext_trans (no_nest_ext_visitList fl (patternRHS left) (Node.ForOfStatement left rhs body) _
        (by simp <;> omega))
      (no_nest_ext_trans (no_nest_ext_visit fl rhs (Node.ForOfStatement left rhs body) _ (by simp <;> omega))
      (no_nest_ext_trans (no_nest_ext_visit fl body (Node.ForOfStatement left rhs body) _ (by simp <;> omega))
        (no_nest_ext_close _ (Node.ForOfStatement left rhs body) _))))
    exact ⟨ev, he, fun hmem => absurd rfl (hn _ hmem .forScope)⟩
  · intro vk vb decls rhs body sc rest hstack hvarsp hblocksD herrD
    simp only [visit]
    rw [if_neg (fun h => h rfl)]
    obtain ⟨hvd, -⟩ := visitDecls_defines fl
      (Node.VariableDeclaration DeclKind.dvar decls) DeclKind.dvar vk vb sc.kind sc.block
      decls 0 st sc rest herr hstack rfl rfl (fun _ => hvarsp) (fun h => absurd rfl h)
      (by simp <;> omega) hblocksD herrD
    obtain ⟨evD, hevD, -⟩ := (visitDecls_master fl
      (Node.VariableDeclaration DeclKind.dvar decls) DeclKind.dvar 0 decls st).1
    cases hfd : firstDeclaratorId decls with
    | some did =>
      obtain ⟨evS, hevS, -⟩ := (stepOK_forInDeclLeafRefs
        (fun _ => True) rhs (fun _ _ _ => trivial) (patternLeaves did)
        (visitDecls fl (Node.VariableDeclaration DeclKind.dvar decls) DeclKind.dvar 0
          decls st)).1
      obtain ⟨ev4, hev4, -⟩ := visit_events fl rhs _
      obtain ⟨ev5, hev5, -⟩ := visit_events fl body _
      obtain ⟨ev6, hev6⟩ := close_events (Node.ForInStatement
        (Node.VariableDeclaration DeclKind.dvar decls) rhs body) _
      refine ⟨evD, evS ++ ev4 ++ ev5 ++ ev6, ?_, ?_⟩
      · rw [hev6, hev5, hev4, hevS, hevD]
        simp [List.append_assoc]
      · rw [hevD] at hvd
        rw [variableDefines_append] at hvd
        exact List.append_cancel_left hvd
    | none =>
      obtain ⟨ev4, hev4, -⟩ := visit_events fl rhs _
      obtain ⟨ev5, hev5, -⟩ := visit_events fl body _
      obtain ⟨ev6, hev6⟩ := close_events (Node.ForInStatement
        (Node.VariableDeclaration DeclKind.dvar decls) rhs body) _
      refine ⟨evD, ev4 ++ ev5 ++ ev6, ?_, ?_⟩
      · rw [hev6, hev5, hev4, hevD]
        simp [List.append_assoc]
      · rw [hevD] at hvd
        rw [variableDefines_append] at hvd
        exact List.append_cancel_left hvd


open Referencer in
/-- C8 witness: the For-scope condition instantiated on a fresh state. -/
theorem C8_for_scope_condition_witness :
    (∀ (finit tst upd : Option Node) (body : Node),
      ∃ ev, (visit ⟨true, false, false, true, false⟩
          (Node.ForStatement finit tst upd body) initState).events
          = initState.events ++ ev
        ∧ (Event.nest .forScope (Node.ForStatement finit tst upd body) ∈ ev
            ↔ forInitNeedsScope finit = true))
    ∧ (∀ (k : DeclKind) (decls : List Node) (rhs body : Node),
      ∃ ev, (visit ⟨true, false, false, true, false⟩
          (Node.ForInStatement (Node.VariableDeclaration k decls) rhs body)
          initState).events = initState.events ++ ev
        ∧ (Event.nest .forScope (Node.ForInStatement (Node.VariableDeclaration k decls)
            rhs body) ∈ ev ↔ ¬k = DeclKind.dvar))
    ∧ (∀ (k : DeclKind) (decls : List Node) (rhs body : Node),
      ∃ ev, (visit ⟨true, false, false, true, false⟩
          (Node.ForOfStatement (Node.VariableDeclaration k decls) rhs body)
          initState).events = initState.events ++ ev
        ∧ (Event.nest .forScope (Node.ForOfStatement (Node.VariableDeclaration k decls)
            rhs body) ∈ ev ↔ ¬k = DeclKind.dvar))
    ∧ (∀ (left rhs body : Node), (∀ k2 d2, left = Node.VariableDeclaration k2 d2 → False) →
      ∃ ev, (visit ⟨true, false, false, true, false⟩ (Node.ForInStatement left rhs body)
          initState).events = initState.events ++ ev
        ∧ Event.nest .forScope (Node.ForInStatement left rhs body) ∉ ev)
    ∧ (∀ (left rhs body : Node), (∀ k2 d2, left = Node.VariableDeclaration k2 d2 → False) →
      ∃ ev, (visit ⟨true, false, false, true, false⟩ (Node.ForOfStatement left rhs body)
          initState).events = initState.events ++ ev
        ∧ Event.nest .forScope (Node.ForOfStatement left rhs body) ∉ ev)
    ∧ (∀ (vk : ScopeKind) (vb : Node) (decls : List Node) (rhs body : Node)
        (sc : Scope) (rest : List Scope),
        initState.stack = sc :: rest →
        varScopeSpine (stackSpine initState) = some (vk, vb) →
        (∀ s ∈ initState.stack, sizeOf (Node.VariableDeclaration DeclKind.dvar decls)
          ≤ sizeOf s.block) →
        (visitDecls ⟨true, false, false, true, false⟩
          (Node.VariableDeclaration DeclKind.dvar decls) DeclKind.dvar 0
          decls initState).err = none →
        ∃ evD tail,
          (visit ⟨true, false, false, true, false⟩ (Node.ForInStatement
            (Node.VariableDeclaration DeclKind.dvar decls)
            rhs body) initState).events = initState.events ++ evD ++ tail
          ∧ variableDefines (Node.VariableDeclaration DeclKind.dvar decls) evD
            = declExpected vk vb (Node.VariableDeclaration DeclKind.dvar decls)
                DeclKind.dvar 0 decls) :=
  C8_for_scope_condition ⟨true, false, false, true, false⟩ initState rfl

open Referencer in
/-- C7: for a named class declaration with a superclass, the class name is
defined (as a ClassName binding carrying the class node) in the scope current
before anything is nested, the superclass expression is visited next — still
before the Class scope's nest event — and after the Class scope is nested the
name is bound again, this time inside the Class scope itself; a named class
expression skips the outer definition but still visits the superclass before
nesting and binds the name inside the Class scope. -/
theorem C7_class_scopes (fl : Flags) (nm : String) (sup : Node) (body : List Node)
    (st : State) (sc : Scope) (rest : List Scope)
    (herr : st.err = none) (hstack : st.stack = sc :: rest) :
    ((visit fl (Node.ClassDeclaration (some nm) (some sup) body) st).err = none →
      ∃ evSup tail,
        (visit fl (Node.ClassDeclaration (some nm) (some sup) body) st).events
          = st.events ++ Event.define sc.kind sc.block
              ⟨.ClassName, nm, some (Node.ClassDeclaration (some nm) (some sup) body),
                none, none, none, false⟩
            :: (evSup ++ Event.nest .classScope
                (Node.ClassDeclaration (some nm) (some sup) body)
              :: Event.define .classScope
                (Node.ClassDeclaration (some nm) (some sup) body)
                ⟨.ClassName, nm, some (Node.ClassDeclaration (some nm) (some sup) body),
                  none, none, none, false⟩
              :: tail)
        ∧ (visit fl sup (defineCur
            ⟨.ClassName, nm, some (Node.ClassDeclaration (some nm) (some sup) body),
              none, none, none, false⟩ st)).events
          = (defineCur ⟨.ClassName, nm,
              some (Node.ClassDeclaration (some nm) (some sup) body),
              none, none, none, false⟩ st).events ++ evSup)
    ∧ ((visit fl (Node.ClassExpression (some nm) (some sup) body) st).err = none →
      ∃ evSup tail,
        (visit fl (Node.ClassExpression (some nm) (some sup) body) st).events
          = st.events ++ (evSup ++ Event.nest .classScope
              (Node.ClassExpression (some nm) (some sup) body)
            :: Event.define .classScope
              (Node.ClassExpression (some nm) (some sup) body)
              ⟨.ClassName, nm, some (Node.ClassExpression (some nm) (some sup) body),
                none, none, none, false⟩
            :: tail)
        ∧ (visit fl sup st).events = st.events ++ evSup) := by
  constructor
  · intro hF
    set cd : Node := Node.ClassDeclaration (some nm) (some sup) body with hcd
    have hd1 := defineCur_parts ⟨.ClassName, nm, some cd, none, none, none, false⟩ st sc
      rest herr hstack
    rw [hcd] at hF
    simp only [visit] at hF
    rw [← hcd] at hF
    rw [close_err] at hF
    have her4 : (defineCur ⟨.ClassName, nm, some cd, none, none, none, false⟩
        (nestScope .classScope cd (visit fl sup
          (defineCur ⟨.ClassName, nm, some cd, none, none, none, false⟩ st)))).err
        = none := visitList_err_back fl body _ hF
    have her3 : (nestScope .classScope cd (visit fl sup
        (defineCur ⟨.ClassName, nm, some cd, none, none, none, false⟩ st))).err = none :=
      err_back_of_stepOK (stepOK_defineCur (fun _ => True) _ _ (fun _ _ => trivial)) her4
    have her2 : (visit fl sup
        (defineCur ⟨.ClassName, nm, some cd, none, none, none, false⟩ st)).err = none := by
      rw [nestScope_err] at her3
      exact her3
    obtain ⟨evSup, hevSup, -⟩ := visit_events fl sup
      (defineCur ⟨.ClassName, nm, some cd, none, none, none, false⟩ st)
    obtain ⟨strictX, hstk3⟩ := nestScope_stack .classScope cd
      (visit fl sup (defineCur ⟨.ClassName, nm, some cd, none, none, none, false⟩ st))
      her2
    have hd4 := defineCur_parts ⟨.ClassName, nm, some cd, none, none, none, false⟩
      (nestScope .classScope cd (visit fl sup
        (defineCur ⟨.ClassName, nm, some cd, none, none, none, false⟩ st)))
      ⟨.classScope, cd, strictX, [], [], []⟩ _ her3 hstk3
    obtain ⟨ev5, hev5, -⟩ := visitList_events fl body
      (defineCur ⟨.ClassName, nm, some cd, none, none, none, false⟩
        (nestScope .classScope cd (visit fl sup
          (defineCur ⟨.ClassName, nm, some cd, none, none, none, false⟩ st))))
    obtain ⟨ev6, hev6⟩ := close_events cd (visitList fl body
      (defineCur ⟨.ClassName, nm, some cd, none, none, none, false⟩
        (nestScope .classScope cd (visit fl sup
          (defineCur ⟨.ClassName, nm, some cd, none, none, none, false⟩ st)))))
    refine ⟨evSup, ev5 ++ ev6, ?_, hevSup⟩
    rw [hcd]
    simp only [visit]
    rw [← hcd]
    rw [hev6, hev5, hd4.2.1,
      nestScope_events_none .classScope cd _ her2, hevSup, hd1.2.1]
    simp [List.append_assoc]
  · intro hF
    set ce : Node := Node.ClassExpression (some nm) (some sup) body with hce
    rw [hce] at hF
    simp only [visit] at hF
    rw [← hce] at hF
    rw [close_err] at hF
    have her4 : (defineCur ⟨.ClassName, nm, some ce, none, none, none, false⟩
        (nestScope .classScope ce (visit fl sup st))).err = none :=
      visitList_err_back fl body _ hF
    have her3 : (nestScope .classScope ce (visit fl sup st)).err = none :=
      err_back_of_stepOK (stepOK_defineCur (fun _ => True) _ _ (fun _ _ => trivial)) her4
    have her2 : (visit fl sup st).err = none := by
      rw [nestScope_err] at her3
      exact her3
    obtain ⟨evSup, hevSup, -⟩ := visit_events fl sup st
    obtain ⟨strictX, hstk3⟩ := nestScope_stack .classScope ce (visit fl sup st) her2
    have hd4 := defineCur_parts ⟨.ClassName, nm, some ce, none, none, none, false⟩
      (nestScope .classScope ce (visit fl sup st))
      ⟨.classScope, ce, strictX, [], [], []⟩ _ her3 hstk3
    obtain ⟨ev5, hev5, -⟩ := visitList_events fl body
      (defineCur ⟨.ClassName, nm, some ce, none, none, none, false⟩
        (nestScope .classScope ce (visit fl sup st)))
    obtain ⟨ev6, hev6⟩ := close_events ce (visitList fl body
      (defineCur ⟨.ClassName, nm, some ce, none, none, none, false⟩
        (nestScope .classScope ce (visit fl sup st))))
    refine ⟨evSup, ev5 ++ ev6, ?_, hevSup⟩
    rw [hce]
    simp only [visit]
    rw [← hce]
    rw [hev6, hev5, hd4.2.1, nestScope_events_none .classScope ce _ her2, hevSup]
    simp [List.append_assoc]

open Referencer in
/-- C7 witness: the class-scope claim instantiated at `class C extends S {}`
(declaration and expression forms) in a single global scope. -/
theorem C7_class_scopes_witness :
    ((visit ⟨true, false, false, true, false⟩
        (Node.ClassDeclaration (some "C") (some (Node.Identifier "S")) [])
        ⟨[⟨.global, Node.Program [], false, [], [], []⟩], [], [], none⟩).err = none →
      ∃ evSup tail,
        (visit ⟨true, false, false, true, false⟩
          (Node.ClassDeclaration (some "C") (some (Node.Identifier "S")) [])
          ⟨[⟨.global, Node.Program [], false, [], [], []⟩], [], [], none⟩).events
          = (⟨[⟨.global, Node.Program [], false, [], [], []⟩], [], [], none⟩
              : State).events ++ Event.define ScopeKind.global (Node.Program [])
              ⟨.ClassName, "C", some (Node.ClassDeclaration (some "C")
                (some (Node.Identifier "S")) []), none, none, none, false⟩
            :: (evSup ++ Event.nest .classScope
                (Node.ClassDeclaration (some "C") (some (Node.Identifier "S")) [])
              :: Event.define .classScope
                (Node.ClassDeclaration (some "C") (some (Node.Identifier "S")) [])
                ⟨.ClassName, "C", some (Node.ClassDeclaration (some "C")
                  (some (Node.Identifier "S")) []), none, none, none, false⟩
              :: tail)
        ∧ (visit ⟨true, false, false, true, false⟩ (Node.Identifier "S")
            (defineCur ⟨.ClassName, "C", some (Node.ClassDeclaration (some "C")
                (some (Node.Identifier "S")) []), none, none, none, false⟩
              ⟨[⟨.global, Node.Program [], false, [], [], []⟩], [], [], none⟩)).events
          = (defineCur ⟨.ClassName, "C", some (Node.ClassDeclaration (some "C")
                (some (Node.Identifier "S")) []), none, none, none, false⟩
              ⟨[⟨.global, Node.Program [], false, [], [], []⟩], [], [], none⟩).events
            ++ evSup)
    ∧ ((visit ⟨true, false, false, true, false⟩
        (Node.ClassExpression (some "C") (some (Node.Identifier "S")) [])
        ⟨[⟨.global, Node.Program [], false, [], [], []⟩], [], [], none⟩).err = none →
      ∃ evSup tail,
        (visit ⟨true, false, false, true, false⟩
          (Node.ClassExpression (some "C") (some (Node.Identifier "S")) [])
          ⟨[⟨.global, Node.Program [], false, [], [], []⟩], [], [], none⟩).events
          = (⟨[⟨.global, Node.Program [], false, [], [], []⟩], [], [], none⟩
              : State).events ++ (evSup ++ Event.nest .classScope
              (Node.ClassExpression (some "C") (some (Node.Identifier "S")) [])
            :: Event.define .classScope
              (Node.ClassExpression (some "C") (some (Node.Identifier "S")) [])
              ⟨.ClassName, "C", some (Node.ClassExpression (some "C")
                (some (Node.Identifier "S")) []), none, none, none, false⟩
            :: tail)
        ∧ (visit ⟨true, false, false, true, false⟩ (Node.Identifier "S")
            ⟨[⟨.global, Node.Program [], false, [], [], []⟩], [], [], none⟩).events
          = (⟨[⟨.global, Node.Program [], false, [], [], []⟩], [], [], none⟩
              : State).events ++ evSup) :=
  C7_class_scopes ⟨true, false, false, true, false⟩ "C" (Node.Identifier "S") []
    ⟨[⟨.global, Node.Program [], false, [], [], []⟩], [], [], none⟩
    ⟨.global, Node.Program [], false, [], [], []⟩ [] rfl rfl

open Referencer in
/-- C9: a function body that is a block statement never opens a Block scope.
The body dispatcher sends a block body straight to the statement list, the
full function pipeline therefore contains no nest step for the body block,
the statements' own events never nest a scope on the body block, while — by
contrast — a free-standing block statement under an ES6-capable edition does
nest a Block scope. -/
theorem C9_function_body_block (fl : Flags) (ss : List Node) (params : List Node)
    (st : State) :
    visitFnBody fl (Node.BlockStatement ss) st = visitList fl ss st
    ∧ visit fl (Node.FunctionExpression none params (Node.BlockStatement ss)) st
        = Referencer.close (Node.FunctionExpression none params (Node.BlockStatement ss))
            (visitList fl ss (visitParams fl
              (Node.FunctionExpression none params (Node.BlockStatement ss)) 0 params
              (nestScope .functionScope
                (Node.FunctionExpression none params (Node.BlockStatement ss)) st)))
    ∧ (∃ ev, (visitList fl ss st).events = st.events ++ ev
        ∧ ∀ e ∈ ev, ∀ k, e ≠ Event.nest k (Node.BlockStatement ss))
    ∧ (fl.es6 = true → visit fl (Node.BlockStatement ss) st
        = Referencer.close (Node.BlockStatement ss)
            (visitList fl ss (nestScope .blockScope (Node.BlockStatement ss) st)))
    ∧ (fl.es6 = true → st.err = none →
        (nestScope .blockScope (Node.BlockStatement ss) st).events
          = st.events ++ [Event.nest .blockScope (Node.BlockStatement ss)]) := by
  refine ⟨?_, ?_, ?_, ?_, ?_⟩
  · simp only [visitFnBody]
  · simp only [visit, visitFnBody]
  · exact no_nest_ext_visitList fl ss (Node.BlockStatement ss) st (by simp <;> omega)
  · intro h6
    simp only [visit]
    rw [if_pos h6]
  · intro h6 herr
    exact nestScope_events_none .blockScope (Node.BlockStatement ss) st herr

end ESLint
